import Mathlib

/-!
VulkanRaytracer: dispatch-table layout, frame orchestration,
acceleration-structure builds and teardown.

A shallow embedding of the host-side logic of the ray tracer
(`RTPipeline.cpp`, `Renderer.cpp`, `AccelStructure.cpp`, `VulkanContext.cpp`,
`Scene.cpp`, `main.cpp`) together with machine-checked statements about it.

Conventions.
* `uint32_t` values are natural numbers below `2^32`; every 32-bit operation of
  the source is written with its wrap-around (`add32`, `sub32`, `mul32`,
  `not32`).  `VkDeviceAddress` / `VkDeviceSize` are 64-bit and wrap at `2^64`.
* Vulkan handles are natural numbers, `0` being `VK_NULL_HANDLE`.
* What the driver answers (sizes, addresses, handles, acquire results) is a
  parameter of the model; what the program does with the answers is code.
* Undefined behaviour of the source (out-of-range indexing, out-of-range
  `memcpy`) and thrown exceptions are explicit failures of the model.
-/

namespace VulkanRaytracer

/-! ## Machine arithmetic -/

/-- Wrap-around `uint32_t` addition. -/
def add32 (a b : Nat) : Nat := (a + b) % 2 ^ 32

/-- Wrap-around `uint32_t` subtraction. -/
def sub32 (a b : Nat) : Nat := (a + (2 ^ 32 - b % 2 ^ 32)) % 2 ^ 32

/-- Wrap-around `uint32_t` multiplication. -/
def mul32 (a b : Nat) : Nat := (a * b) % 2 ^ 32

/-- Bitwise complement of a `uint32_t`. -/
def not32 (a : Nat) : Nat := 2 ^ 32 - 1 - a % 2 ^ 32

/-- Wrap-around 64-bit addition (`VkDeviceAddress`, `VkDeviceSize`). -/
def add64 (a b : Nat) : Nat := (a + b) % 2 ^ 64

/-- Wrap-around 64-bit subtraction. -/
def sub64 (a b : Nat) : Nat := (a + (2 ^ 64 - b % 2 ^ 64)) % 2 ^ 64

/-- Bitwise complement of a 64-bit value. -/
def not64 (a : Nat) : Nat := 2 ^ 64 - 1 - a % 2 ^ 64

/-- Source `static uint32_t alignUp(uint32_t v, uint32_t a) { return (v + a - 1) & ~(a - 1); }`
(`RTPipeline.h`, `AccelStructure.h`). -/
def alignUp (v a : Nat) : Nat :=
  sub32 (add32 v a) 1 &&& not32 (sub32 a 1)

/-- Mathematical rounding: the least multiple of `a` that is at least `x`
(for `0 < a`); see `roundUp_isLeastMultiple`. -/
def roundUp (x a : Nat) : Nat := (x + a - 1) / a * a

/-- The number `m` is the least multiple of `a` that is `≥ x`. -/
def IsLeastMultiple (a x m : Nat) : Prop :=
  a ∣ m ∧ x ≤ m ∧ ∀ m', a ∣ m' → x ≤ m' → m ≤ m'

/-- Powers of two. -/
def IsPow2 (a : Nat) : Prop := ∃ k, a = 2 ^ k

/-- Device limits the layout code is written for: both alignments are powers
of two (as Vulkan devices report them) and the packed table, computed exactly,
has a size that is representable in the `uint32_t` the code computes it in. -/
def ValidLimits (H Ah Ab : Nat) : Prop :=
  IsPow2 Ah ∧ IsPow2 Ab ∧
    Ab + roundUp (2 * roundUp H Ah) Ab + roundUp (roundUp H Ah) Ab < 2 ^ 32

/-! ## Shader binding table (`RTPipeline::buildSBT`) -/

/-- Shader group indices (`RTPipeline.h`). -/
def GROUP_RGEN : Nat := 0

/-- Shader group index of the primary miss program. -/
def GROUP_MISS_SKY : Nat := 1

/-- Shader group index of the shadow miss program. -/
def GROUP_MISS_SHADOW : Nat := 2

/-- Shader group index of the hit group. -/
def GROUP_HIT : Nat := 3

/-- Number of shader groups. -/
def GROUP_COUNT : Nat := 4

/-- The sizes `buildSBT` computes before packing. -/
structure SBTLayout where
  handleSize : Nat
  handleSizeAlgn : Nat
  rgenSize : Nat
  missSize : Nat
  hitSize : Nat
  totalSize : Nat
  deriving DecidableEq, Repr

/-- Size computation at the head of `buildSBT`. -/
def sbtLayout (handleSize handleAlign baseAlign : Nat) : SBTLayout :=
  let handleSizeAlgn := alignUp handleSize handleAlign
  let rgenSize := baseAlign
  let missSize := alignUp (mul32 2 handleSizeAlgn) baseAlign
  let hitSize := alignUp (mul32 1 handleSizeAlgn) baseAlign
  let totalSize := add32 (add32 rgenSize missSize) hitSize
  { handleSize := handleSize, handleSizeAlgn := handleSizeAlgn, rgenSize := rgenSize,
    missSize := missSize, hitSize := hitSize, totalSize := totalSize }

/-- Byte offsets (from `sbt.data()`) at which the four `copyHandle` calls write,
in source order: rgen, miss (sky), miss (shadow), hit.  The offsets are pointer
arithmetic, hence not reduced modulo `2^32`. -/
def recordOffsets (L : SBTLayout) : List Nat :=
  [0,
   L.rgenSize + mul32 0 L.handleSizeAlgn,
   L.rgenSize + mul32 1 L.handleSizeAlgn,
   L.rgenSize + L.missSize]

/-- Byte offsets, from the buffer base, of the three non-empty regions
(generation, miss, hit). -/
def regionOffsets (L : SBTLayout) : List Nat :=
  [0, L.rgenSize, L.rgenSize + L.missSize]

/-- Source `std::memcpy(dst + off, src, src.size())` into a byte vector; writing
outside the vector is undefined behaviour and yields `none`. -/
def memcpyAt (dst : List Nat) (off : Nat) (src : List Nat) : Option (List Nat) :=
  if off + src.length ≤ dst.length then
    some (dst.take off ++ src ++ dst.drop (off + src.length))
  else none

/-- Read `n` bytes at offset `off`; reading outside the vector yields `none`. -/
def readAt (buf : List Nat) (off n : Nat) : Option (List Nat) :=
  if off + n ≤ buf.length then some ((buf.drop off).take n) else none

/-- The lambda `copyHandle(dst, groupIdx)` of `buildSBT`:
`memcpy(dst, handles.data() + groupIdx * handleSize, handleSize)`. -/
def copyHandle (handles : List Nat) (handleSize : Nat) (sbt : List Nat)
    (dstOff groupIdx : Nat) : Option (List Nat) :=
  match readAt handles (mul32 groupIdx handleSize) handleSize with
  | none => none
  | some h => memcpyAt sbt dstOff h

/-- Source `VkStridedDeviceAddressRegionKHR`. -/
structure Region where
  deviceAddress : Nat := 0
  stride : Nat := 0
  size : Nat := 0
  deriving DecidableEq, Repr

/-- What the driver answers during `buildSBT`. -/
structure SBTDriver where
  /-- Bytes `vkGetRayTracingShaderGroupHandlesKHR` writes at the start of the
  handle vector (at most `handles.size()` of them are taken), `none` when the
  call fails. -/
  handles : Option (List Nat)
  /-- Whether the staging buffer allocation succeeds. -/
  stagingOk : Bool
  /-- Device address of `sbtBuffer`, `none` when its allocation fails. -/
  sbtAddress : Option Nat

/-- The vector `std::vector<uint8_t> handles(GROUP_COUNT * handleSize)` after the
driver has written into it: zero-initialised, overwritten from the start. -/
def handleVector (handleSize : Nat) (written : List Nat) : List Nat :=
  (written ++ List.replicate (mul32 GROUP_COUNT handleSize) 0).take
    (mul32 GROUP_COUNT handleSize)

/-- Result of `buildSBT`: the bytes uploaded to `sbtBuffer` and the four region
descriptors stored in the `RTPipeline` object. -/
structure SBT where
  layout : SBTLayout
  table : List Nat
  rgenRegion : Region
  missRegion : Region
  hitRegion : Region
  callRegion : Region
  deriving DecidableEq, Repr

/-- Source `RTPipeline::buildSBT`. -/
def buildSBT (handleSize handleAlign baseAlign : Nat) (drv : SBTDriver) :
    Except String SBT :=
  let L := sbtLayout handleSize handleAlign baseAlign
  match drv.handles with
  | none => .error "Failed to get shader group handles"
  | some written =>
    let handles := handleVector handleSize written
    let sbt0 := List.replicate L.totalSize 0
    let packed :=
      (copyHandle handles handleSize sbt0 0 GROUP_RGEN).bind fun s1 =>
      (copyHandle handles handleSize s1 (L.rgenSize + mul32 0 L.handleSizeAlgn)
          GROUP_MISS_SKY).bind fun s2 =>
      (copyHandle handles handleSize s2 (L.rgenSize + mul32 1 L.handleSizeAlgn)
          GROUP_MISS_SHADOW).bind fun s3 =>
      copyHandle handles handleSize s3 (L.rgenSize + L.missSize) GROUP_HIT
    match packed with
    | none => .error "undefined behaviour: memcpy outside a vector"
    | some sbt =>
      if !drv.stagingOk then .error "Failed to create buffer"
      else
        match drv.sbtAddress with
        | none => .error "Failed to create buffer"
        | some base =>
          .ok { layout := L
                table := sbt
                rgenRegion := { deviceAddress := base, stride := L.rgenSize,
                                size := L.rgenSize }
                missRegion := { deviceAddress := add64 base L.rgenSize,
                                stride := L.handleSizeAlgn, size := L.missSize }
                hitRegion := { deviceAddress := add64 (add64 base L.rgenSize) L.missSize,
                               stride := L.handleSizeAlgn, size := L.hitSize }
                callRegion := {} }

/-- The `handleSize` bytes of shader group `g` inside the handle vector returned
by the driver. -/
def groupHandle (handles : List Nat) (handleSize g : Nat) : List Nat :=
  (handles.drop (g * handleSize)).take handleSize

/-- Four handles of `handleSize` bytes each with pairwise different contents
(every byte of group `g` is `g + 1`), used as a concrete driver answer. -/
def distinctHandles (handleSize : Nat) : List Nat :=
  List.replicate handleSize 1 ++ List.replicate handleSize 2 ++
    List.replicate handleSize 3 ++ List.replicate handleSize 4

/-! ## Frame orchestration (`Renderer`) -/

/-- Source `VK_NULL_HANDLE`. -/
def VK_NULL_HANDLE : Nat := 0

/-- Source `MAX_FRAMES_IN_FLIGHT` (`Renderer.h`). -/
def MAX_FRAMES_IN_FLIGHT : Nat := 2

/-- Results `vkAcquireNextImageKHR` can return. -/
inductive VkResult where
  | success
  | timeout
  | notReady
  | suboptimalKHR
  | errorOutOfDateKHR
  | errorOutOfHostMemory
  | errorOutOfDeviceMemory
  | errorDeviceLost
  | errorSurfaceLostKHR
  | errorFullScreenExclusiveModeLostEXT
  deriving DecidableEq, Repr

/-- Outcome of `vkAcquireNextImageKHR`: the result code and the value found in
the local `imageIndex` afterwards (indeterminate when no image was acquired). -/
structure AcquireResult where
  res : VkResult
  imageIndex : Nat
  deriving DecidableEq, Repr

/-- Image layouts used by `drawFrame`. -/
inductive VkImageLayout where
  | undefined
  | general
  | transferSrcOptimal
  | transferDstOptimal
  | presentSrcKHR
  deriving DecidableEq, Repr

/-- Access masks used by `drawFrame` (`none` is the literal `0`). -/
inductive VkAccess where
  | none
  | shaderWrite
  | transferRead
  | transferWrite
  deriving DecidableEq, Repr

/-- Pipeline stages used by `drawFrame`. -/
inductive VkStage where
  | topOfPipe
  | rayTracingShader
  | transfer
  | bottomOfPipe
  deriving DecidableEq, Repr

/-- Blit filters. -/
inductive VkFilter where
  | nearest
  | linear
  deriving DecidableEq, Repr

/-- Commands recorded into a frame's command buffer. -/
inductive Cmd where
  | bindPipeline (pipeline : Nat)
  | bindDescriptorSets (pipelineLayout descriptorSet : Nat)
  | pushConstants (pipelineLayout maxBounces samplesPerFrame : Nat)
  | traceRays (rgen miss hit call : Region) (width height depth : Nat)
  | imageBarrier (image : Nat) (oldLayout newLayout : VkImageLayout)
      (srcAccess dstAccess : VkAccess) (srcStage dstStage : VkStage)
  | blitImage (src : Nat) (srcLayout : VkImageLayout) (dst : Nat)
      (dstLayout : VkImageLayout) (width height : Nat) (filter : VkFilter)
  deriving DecidableEq, Repr

/-- Trace of one `drawFrame` call, in program order: the Vulkan calls it
issues, the write of the uniform record, and the assignment to
`imagesInFlight` (host state, kept in the trace so that its position relative
to the fence waits is visible).  The matrix fields of the uniform record are
floating point and are not part of the model. -/
inductive Event where
  | waitForFences (fence : Nat)
  | acquireNextImage (semaphore : Nat)
  | setImageInFlight (imageIndex fence : Nat)
  | resetFences (fence : Nat)
  | writeCameraUBO (slot sampleCount frameIndex : Nat)
  | resetCommandBuffer (cmd : Nat)
  | beginCommandBuffer (cmd : Nat)
  | record (cmd : Nat) (c : Cmd)
  | endCommandBuffer (cmd : Nat)
  | queueSubmit (waitSemaphore : Nat) (waitStage : VkStage) (cmd signalSemaphore fence : Nat)
  | queuePresent (waitSemaphore imageIndex : Nat)
  deriving DecidableEq, Repr

/-- What `drawFrame` reads from `VulkanContext` and `RTPipeline`. -/
structure FrameCtx where
  swapchainImages : List Nat
  width : Nat
  height : Nat
  pipeline : Nat
  pipelineLayout : Nat
  rgenRegion : Region
  missRegion : Region
  hitRegion : Region
  callRegion : Region
  deriving Repr

/-- The members of `Renderer` that `drawFrame` uses. -/
structure Renderer where
  storageImage : Nat := VK_NULL_HANDLE
  descriptorSets : List Nat := [VK_NULL_HANDLE, VK_NULL_HANDLE]
  commandBuffers : List Nat := [VK_NULL_HANDLE, VK_NULL_HANDLE]
  imageAvailableSems : List Nat := [VK_NULL_HANDLE, VK_NULL_HANDLE]
  renderFinishedSems : List Nat := []
  inFlightFences : List Nat := [VK_NULL_HANDLE, VK_NULL_HANDLE]
  imagesInFlight : List Nat := []
  currentFrame : Nat := 0
  sampleCount : Nat := 0
  deriving DecidableEq, Repr

/-- Handles the device returns while `Renderer::init` runs. -/
structure InitHandles where
  storageImage : Nat
  descriptorSets : List Nat
  commandBuffers : List Nat
  /-- Handle returned by the `i`-th `vkCreateSemaphore` for `imageAvailableSems`. -/
  imageAvailableSem : Nat → Nat
  /-- Handle returned by the `i`-th `vkCreateFence`. -/
  fence : Nat → Nat
  /-- Handle returned by the `i`-th `vkCreateSemaphore` for `renderFinishedSems`. -/
  renderFinishedSem : Nat → Nat

/-- Source `Renderer::createSyncObjects`. -/
def createSyncObjects (ctx : FrameCtx) (h : InitHandles) (r : Renderer) : Renderer :=
  let imgCount := ctx.swapchainImages.length % 2 ^ 32
  { r with
    imageAvailableSems := (List.range MAX_FRAMES_IN_FLIGHT).map h.imageAvailableSem
    inFlightFences := (List.range MAX_FRAMES_IN_FLIGHT).map h.fence
    renderFinishedSems := (List.range imgCount).map h.renderFinishedSem
    imagesInFlight := List.replicate imgCount VK_NULL_HANDLE }

/-- Source `Renderer::init` applied to a default-constructed `Renderer`. -/
def Renderer.init (ctx : FrameCtx) (h : InitHandles) : Renderer :=
  createSyncObjects ctx h
    { storageImage := h.storageImage
      descriptorSets := h.descriptorSets
      commandBuffers := h.commandBuffers }

/-- The commands `drawFrame` records between `vkBeginCommandBuffer` and
`vkEndCommandBuffer`, in source order. -/
def frameCommands (ctx : FrameCtx) (storageImage descriptorSet swapImg : Nat) : List Cmd :=
  [ .bindPipeline ctx.pipeline,
    .bindDescriptorSets ctx.pipelineLayout descriptorSet,
    .pushConstants ctx.pipelineLayout 4 1,
    .traceRays ctx.rgenRegion ctx.missRegion ctx.hitRegion ctx.callRegion
      ctx.width ctx.height 1,
    .imageBarrier storageImage .general .transferSrcOptimal
      .shaderWrite .transferRead .rayTracingShader .transfer,
    .imageBarrier swapImg .undefined .transferDstOptimal
      .none .transferWrite .topOfPipe .transfer,
    .blitImage storageImage .transferSrcOptimal swapImg .transferDstOptimal
      ctx.width ctx.height .nearest,
    .imageBarrier storageImage .transferSrcOptimal .general
      .transferRead .shaderWrite .transfer .rayTracingShader,
    .imageBarrier swapImg .transferDstOptimal .presentSrcKHR
      .transferWrite .none .transfer .bottomOfPipe ]

/-- Whether the acquire result makes `drawFrame` return early
(`res == VK_ERROR_OUT_OF_DATE_KHR || res == VK_SUBOPTIMAL_KHR`). -/
def isStale (res : VkResult) : Bool :=
  res == .errorOutOfDateKHR || res == .suboptimalKHR

/-- Source `Renderer::drawFrame`.  `acq` is the driver's answer to
`vkAcquireNextImageKHR`, `moved` is `scene.camera.moved`.  The result is the
new `Renderer` state and the trace of the call; `none` stands for undefined
behaviour (an index outside an array or vector). -/
def drawFrame (ctx : FrameCtx) (r : Renderer) (acq : AcquireResult) (moved : Bool) :
    Option (Renderer × List Event) := do
  let f := r.currentFrame
  let fence ← r.inFlightFences[f]?
  let imageAvailable ← r.imageAvailableSems[f]?
  let head := [Event.waitForFences fence, Event.acquireNextImage imageAvailable]
  if isStale acq.res then
    return (r, head)
  let imageIndex := acq.imageIndex
  let prev ← r.imagesInFlight[imageIndex]?
  let waitPrev := if prev ≠ VK_NULL_HANDLE then [Event.waitForFences prev] else []
  let imagesInFlight := r.imagesInFlight.set imageIndex fence
  let sampleCount := if moved then 0 else add32 r.sampleCount 1
  let descriptorSet ← r.descriptorSets[f]?
  let cmd ← r.commandBuffers[f]?
  let swapImg ← ctx.swapchainImages[imageIndex]?
  let renderFinished ← r.renderFinishedSems[imageIndex]?
  let trace :=
    head ++ waitPrev ++
    [Event.setImageInFlight imageIndex fence,
     Event.resetFences fence,
     Event.writeCameraUBO f r.sampleCount r.currentFrame,
     Event.resetCommandBuffer cmd,
     Event.beginCommandBuffer cmd] ++
    (frameCommands ctx r.storageImage descriptorSet swapImg).map (Event.record cmd) ++
    [Event.endCommandBuffer cmd,
     Event.queueSubmit imageAvailable .rayTracingShader cmd renderFinished fence,
     Event.queuePresent renderFinished imageIndex]
  return ({ r with imagesInFlight := imagesInFlight
                   sampleCount := sampleCount
                   currentFrame := add32 r.currentFrame 1 % MAX_FRAMES_IN_FLIGHT },
          trace)

/-- Consecutive `drawFrame` calls.  Each record pairs the `Renderer` state at
the start of a cycle with the trace of that cycle. -/
def runFrames (ctx : FrameCtx) :
    Renderer → List (AcquireResult × Bool) → Option (List (Renderer × List Event) × Renderer)
  | r, [] => some ([], r)
  | r, (acq, moved) :: rest =>
    match drawFrame ctx r acq moved with
    | none => none
    | some (r', trace) =>
      match runFrames ctx r' rest with
      | none => none
      | some (recs, rf) => some ((r, trace) :: recs, rf)

/-- Host-side effect of one call on the signalled/unsignalled status of the
fences: only `vkResetFences` changes a fence (to unsignalled); waiting observes
a fence, and the signal requested by `vkQueueSubmit` happens later on the
device. -/
def fenceEffect (status : Nat → Bool) : Event → Nat → Bool
  | .resetFences fence => fun x => if x = fence then false else status x
  | _ => status

/-- Fence status after a trace. -/
def fencesAfter (status : Nat → Bool) (trace : List Event) : Nat → Bool :=
  trace.foldl fenceEffect status

/-- The shape `Renderer::init` establishes and every cycle keeps: a frame index
below `MAX_FRAMES_IN_FLIGHT`, per-slot arrays of that size, per-image vectors of
the size of the swapchain. -/
def Renderer.WellFormed (ctx : FrameCtx) (r : Renderer) : Prop :=
  r.currentFrame < MAX_FRAMES_IN_FLIGHT ∧
  r.descriptorSets.length = MAX_FRAMES_IN_FLIGHT ∧
  r.commandBuffers.length = MAX_FRAMES_IN_FLIGHT ∧
  r.imageAvailableSems.length = MAX_FRAMES_IN_FLIGHT ∧
  r.inFlightFences.length = MAX_FRAMES_IN_FLIGHT ∧
  r.renderFinishedSems.length = ctx.swapchainImages.length ∧
  r.imagesInFlight.length = ctx.swapchainImages.length

/-- A concrete context: a swapchain of three images. -/
def exampleCtx : FrameCtx :=
  { swapchainImages := [101, 102, 103], width := 1280, height := 720,
    pipeline := 7, pipelineLayout := 8,
    rgenRegion := { deviceAddress := 4096, stride := 64, size := 64 },
    missRegion := { deviceAddress := 4160, stride := 32, size := 64 },
    hitRegion := { deviceAddress := 4224, stride := 32, size := 64 },
    callRegion := {} }

/-- Concrete handles returned during `Renderer::init`. -/
def exampleHandles : InitHandles :=
  { storageImage := 50, descriptorSets := [60, 61], commandBuffers := [70, 71],
    imageAvailableSem := fun i => 10 + i, fence := fun i => 20 + i,
    renderFinishedSem := fun i => 30 + i }

/-- The renderer right after `init` in the concrete context. -/
def exampleRenderer : Renderer := Renderer.init exampleCtx exampleHandles

/-! ## Device resources (`VulkanContext`) -/

/-- Source `AllocatedBuffer` (`VulkanContext.h`). -/
structure AllocatedBuffer where
  buffer : Nat := VK_NULL_HANDLE
  allocation : Nat := VK_NULL_HANDLE
  address : Nat := 0
  deriving DecidableEq, Repr

/-- Buffer usage bits the program passes to `createBuffer`. -/
inductive BufferUsage where
  | transferSrc
  | transferDst
  | uniformBuffer
  | storageBuffer
  | indexBuffer
  | vertexBuffer
  | shaderDeviceAddress
  | accelerationStructureBuildInputReadOnly
  | accelerationStructureStorage
  | shaderBindingTable
  deriving DecidableEq, Repr

/-- Source `VkAccelerationStructureTypeKHR`. -/
inductive ASType where
  | topLevel
  | bottomLevel
  deriving DecidableEq, Repr

/-- The two fields of `VkAccelerationStructureBuildSizesInfoKHR` the program
reads. -/
structure BuildSizes where
  accelerationStructureSize : Nat
  buildScratchSize : Nat
  deriving DecidableEq, Repr

/-- Geometry handed to an acceleration-structure build. -/
inductive Geometry where
  | triangles (vertexAddress vertexStride maxVertex indexAddress flags : Nat)
  | instances (dataAddress : Nat)
  deriving DecidableEq, Repr

/-- Commands recorded between `beginSingleTimeCommands` and
`endSingleTimeCommands`. -/
inductive OneShotCmd where
  | copyBuffer (src dst size : Nat)
  | memoryBarrier (srcAccess dstAccess : Nat) (srcStage dstStage : Nat)
  | buildAccelerationStructure (type : ASType) (dst scratchAddress primitiveCount : Nat)
      (geometry : Geometry)
  deriving DecidableEq, Repr

/-- Device calls issued by the acceleration-structure code, as logged by the
model.  `submitOneShot` is one `beginSingleTimeCommands` …
`endSingleTimeCommands` pair: a submission followed by `vkQueueWaitIdle`. -/
inductive DevCall where
  | getBuildSizes (type : ASType) (primitiveCount : Nat)
  | createBuffer (handle size : Nat) (usage : List BufferUsage)
  | destroyBuffer (handle : Nat)
  | createAccelerationStructure (handle buffer size : Nat) (type : ASType)
  | destroyAccelerationStructure (handle : Nat)
  | getAccelerationStructureDeviceAddress (handle : Nat)
  | submitOneShot (cmds : List OneShotCmd)
  deriving DecidableEq, Repr

/-- What the driver answers: limits, size queries, whether a creation
succeeds, and the addresses it hands out. -/
structure Driver where
  /-- Source `asProperties.minAccelerationStructureScratchOffsetAlignment`. -/
  scratchAlign : Nat
  /-- Answer of `vkGetAccelerationStructureBuildSizesKHR`. -/
  buildSizes : ASType → Nat → BuildSizes
  /-- Whether `vmaCreateBuffer` succeeds for the buffer that would get the
  given handle, of the given size. -/
  allocOk : Nat → Nat → Bool
  /-- Answer of `vkGetBufferDeviceAddress`. -/
  bufferAddress : Nat → Nat
  /-- Whether `vkCreateAccelerationStructureKHR` succeeds for the structure that
  would get the given handle (the program does not check the result). -/
  createASOk : Nat → Bool
  /-- Answer of `vkGetAccelerationStructureDeviceAddressKHR`. -/
  asAddress : Nat → Nat

/-- Device-side state the model tracks: the last handle handed out (fresh
handles are `lastHandle + 1`, hence never null), the live buffers and
acceleration structures, and the log of calls. -/
structure Device where
  lastHandle : Nat := 0
  liveBuffers : List Nat := []
  liveAS : List Nat := []
  log : List DevCall := []
  deriving DecidableEq, Repr

/-- How a call can fail: a C++ exception, or undefined behaviour. -/
inductive Failure where
  | exception (what : String)
  | undefinedBehaviour
  deriving DecidableEq, Repr

/-- Result of a call that touches the device: a value or a failure, and in both
cases the device state reached. -/
inductive Result (α : Type) where
  | ok (val : α) (dev : Device)
  | fail (f : Failure) (dev : Device)
  deriving Repr

/-- Source `VulkanContext::createBuffer`: throws when `vmaCreateBuffer` fails; the
address is queried only with `VK_BUFFER_USAGE_SHADER_DEVICE_ADDRESS_BIT`. -/
def createBuffer (drv : Driver) (size : Nat) (usage : List BufferUsage) (dev : Device) :
    Result AllocatedBuffer :=
  let h := dev.lastHandle + 1
  if drv.allocOk h size then
    .ok { buffer := h, allocation := h,
          address := if BufferUsage.shaderDeviceAddress ∈ usage then drv.bufferAddress h else 0 }
        { dev with lastHandle := h
                   liveBuffers := dev.liveBuffers ++ [h]
                   log := dev.log ++ [.createBuffer h size usage] }
  else
    .fail (.exception "Failed to create buffer") dev

/-- Source `VulkanContext::destroyBuffer`. -/
def destroyBuffer (buf : AllocatedBuffer) (dev : Device) : AllocatedBuffer × Device :=
  if buf.buffer ≠ VK_NULL_HANDLE then
    ({ buffer := VK_NULL_HANDLE, allocation := VK_NULL_HANDLE, address := 0 },
     { dev with liveBuffers := dev.liveBuffers.erase buf.buffer
                log := dev.log ++ [.destroyBuffer buf.buffer] })
  else (buf, dev)

/-- Source `ctx.rt.createAccelerationStructure(..., &handle)`, whose result the program
does not check: on success the handle variable receives a fresh handle, on
failure it keeps its previous value `old`. -/
def createAccelerationStructure (drv : Driver) (old buffer size : Nat) (type : ASType)
    (dev : Device) : Nat × Device :=
  let h := dev.lastHandle + 1
  if drv.createASOk h then
    (h, { dev with lastHandle := h
                   liveAS := dev.liveAS ++ [h]
                   log := dev.log ++ [.createAccelerationStructure h buffer size type] })
  else
    (old, { dev with log := dev.log ++ [.createAccelerationStructure old buffer size type] })

/-- One `beginSingleTimeCommands` … `endSingleTimeCommands` round trip. -/
def submitOneShot (cmds : List OneShotCmd) (dev : Device) : Device :=
  { dev with log := dev.log ++ [.submitOneShot cmds] }

/-! ## Scene data (`Scene.h`, `types.h`)

Floating-point payloads are kept abstract: `F` is the type of scalars. -/

/-- Source `Vertex`: position, normal, texture coordinate. -/
structure Vertex (F : Type) where
  pos : F × F × F
  normal : F × F × F
  uv : F × F

/-- Source `sizeof(Vertex)`. -/
def sizeofVertex : Nat := 32

/-- Source `sizeof(uint32_t)`. -/
def sizeofIndex : Nat := 4

/-- Source `sizeof(VkAccelerationStructureInstanceKHR)`. -/
def sizeofInstance : Nat := 64

/-- Source `MeshData`. -/
structure MeshData (F : Type) where
  vertices : List (Vertex F)
  indices : List Nat
  materialIndex : Nat := 0

/-- Source `SceneInstance`; `transform c r` is component `r` of column `c` of the
column-major `glm::mat4`. -/
structure SceneInstance (F : Type) where
  meshIndex : Nat
  transform : Fin 4 → Fin 4 → F
  materialIndex : Nat

/-- Source `Material` (`types.h`); `type` is 0 for diffuse, 1 for metal, 2 for
glass. -/
structure Material (F : Type) where
  baseColor : F × F × F
  metallic : F
  emissive : F × F × F
  roughness : F
  ior : F
  type : Int
  pad : F × F

/-- Source `InstanceData` (`types.h`): the per-mesh record the closest-hit
shader looks up by `instanceCustomIndex`. -/
structure InstanceData where
  vertexOffset : Nat
  indexOffset : Nat
  materialIndex : Nat
  pad : Nat := 0
  deriving DecidableEq, Repr

/-- The members of `Scene` the scene and acceleration-structure code reads and
writes (the camera and the material and instance-data buffers are left out). -/
structure Scene (F : Type) where
  meshes : List (MeshData F) := []
  instances : List (SceneInstance F) := []
  materials : List (Material F) := []
  vertexBuffer : AllocatedBuffer := {}
  indexBuffer : AllocatedBuffer := {}

/-! ## Acceleration structures (`AccelStructure`) -/

/-- Source `BLAS` (`AccelStructure.h`). -/
structure BLAS where
  handle : Nat := VK_NULL_HANDLE
  buffer : AllocatedBuffer := {}
  address : Nat := 0
  deriving DecidableEq, Repr

/-- Source `AccelStructure` (`AccelStructure.h`). -/
structure AccelStructure where
  blases : List BLAS := []
  tlas : Nat := VK_NULL_HANDLE
  tlasBuffer : AllocatedBuffer := {}
  instanceBuffer : AllocatedBuffer := {}
  deriving DecidableEq, Repr

/-- Source `VK_GEOMETRY_OPAQUE_BIT_KHR`. -/
def VK_GEOMETRY_OPAQUE_BIT_KHR : Nat := 1

/-- Source `static_cast<uint32_t>(mesh.indices.size()) / 3` in `buildSingleBLAS`. -/
def blasPrimitiveCount {F : Type} (mesh : MeshData F) : Nat :=
  (mesh.indices.length % 2 ^ 32) / 3

/-- Scratch buffer size in `buildSingleBLAS`:
`sizeInfo.buildScratchSize + alignUp(static_cast<uint32_t>(sizeInfo.buildScratchSize), scratchAlign)`,
a 64-bit sum. -/
def blasScratchSize (buildScratchSize scratchAlign : Nat) : Nat :=
  add64 buildScratchSize (alignUp (buildScratchSize % 2 ^ 32) scratchAlign)

/-- Scratch buffer size in `buildTLAS`: `sizeInfo.buildScratchSize + scratchAlign`. -/
def tlasScratchSize (buildScratchSize scratchAlign : Nat) : Nat :=
  add64 buildScratchSize scratchAlign

/-- Scratch address handed to a build:
`if (scratchAlign > 1) scratchAddr = (scratchAddr + scratchAlign - 1) & ~VkDeviceAddress(scratchAlign - 1);` -/
def alignScratchAddress (scratchAddr scratchAlign : Nat) : Nat :=
  if scratchAlign > 1 then
    sub64 (add64 scratchAddr scratchAlign) 1 &&& not64 (sub32 scratchAlign 1)
  else scratchAddr

/-- Source `AccelStructure::buildSingleBLAS`. -/
def buildSingleBLAS {F : Type} (drv : Driver) (mesh : MeshData F)
    (vertexBaseAddress indexBaseAddress vertexOffset indexOffset : Nat) (dev : Device) :
    Result BLAS :=
  let geometry := Geometry.triangles
    (add64 vertexBaseAddress (vertexOffset * sizeofVertex % 2 ^ 64))
    sizeofVertex
    (sub32 (mesh.vertices.length % 2 ^ 32) 1)
    (add64 indexBaseAddress (indexOffset * sizeofIndex % 2 ^ 64))
    VK_GEOMETRY_OPAQUE_BIT_KHR
  let primitiveCount := blasPrimitiveCount mesh
  let sizeInfo := drv.buildSizes .bottomLevel primitiveCount
  let dev1 := { dev with log := dev.log ++ [.getBuildSizes .bottomLevel primitiveCount] }
  match createBuffer drv sizeInfo.accelerationStructureSize
      [.accelerationStructureStorage, .shaderDeviceAddress] dev1 with
  | .fail e d => .fail e d
  | .ok storage dev2 =>
    let (handle, dev3) := createAccelerationStructure drv VK_NULL_HANDLE storage.buffer
      sizeInfo.accelerationStructureSize .bottomLevel dev2
    let scratchAlign := drv.scratchAlign
    let scratchSize := blasScratchSize sizeInfo.buildScratchSize scratchAlign
    match createBuffer drv scratchSize [.storageBuffer, .shaderDeviceAddress] dev3 with
    | .fail e d => .fail e d
    | .ok scratch dev4 =>
      let scratchAddr := alignScratchAddress scratch.address scratchAlign
      let dev5 := submitOneShot
        [.buildAccelerationStructure .bottomLevel handle scratchAddr primitiveCount geometry] dev4
      let (_, dev6) := destroyBuffer scratch dev5
      let dev7 := { dev6 with
        log := dev6.log ++ [.getAccelerationStructureDeviceAddress handle] }
      .ok { handle := handle, buffer := storage, address := drv.asAddress handle } dev7

/-- The loop of `AccelStructure::buildBLASes`; `vertexOffset` and `indexOffset`
are the two `uint32_t` locals.  When a build throws, the structures pushed so
far stay in `blases`. -/
def buildBLASesLoop {F : Type} (drv : Driver) (vertexBaseAddress indexBaseAddress : Nat) :
    List (MeshData F) → Nat → Nat → AccelStructure → Device → AccelStructure × Result Unit
  | [], _, _, a, dev => (a, .ok () dev)
  | mesh :: rest, vertexOffset, indexOffset, a, dev =>
    match buildSingleBLAS drv mesh vertexBaseAddress indexBaseAddress
        vertexOffset indexOffset dev with
    | .fail e d => (a, .fail e d)
    | .ok blas d =>
      buildBLASesLoop drv vertexBaseAddress indexBaseAddress rest
        (add32 vertexOffset (mesh.vertices.length % 2 ^ 32))
        (add32 indexOffset (mesh.indices.length % 2 ^ 32))
        { a with blases := a.blases ++ [blas] } d

/-- Source `AccelStructure::buildBLASes`. -/
def buildBLASes {F : Type} (drv : Driver) (scene : Scene F) (a : AccelStructure)
    (dev : Device) : AccelStructure × Result Unit :=
  buildBLASesLoop drv scene.vertexBuffer.address scene.indexBuffer.address
    scene.meshes 0 0 a dev

/-- Source `VkAccelerationStructureInstanceKHR`; `transform r c` is `matrix[r][c]` of
the row-major 3×4 `VkTransformMatrixKHR`. -/
structure VkAccelerationStructureInstance (F : Type) where
  transform : Fin 3 → Fin 4 → F
  instanceCustomIndex : Nat
  mask : Nat
  instanceShaderBindingTableRecordOffset : Nat
  flags : Nat
  accelerationStructureReference : Nat

/-- Source `glm::transpose` on a column-major matrix indexed `[column][component]`. -/
def glmTranspose {F : Type} (m : Fin 4 → Fin 4 → F) : Fin 4 → Fin 4 → F :=
  fun c r => m r c

/-- Source `memcpy(&vkInst.transform, &rowMaj, sizeof(VkTransformMatrixKHR))`: the first
twelve floats of the column-major storage of `rowMaj`, read as `matrix[3][4]`. -/
def copyTransform {F : Type} (rowMaj : Fin 4 → Fin 4 → F) : Fin 3 → Fin 4 → F :=
  fun r c => rowMaj (Fin.castLE (by decide) r) c

/-- Source `VK_GEOMETRY_INSTANCE_TRIANGLE_FACING_CULL_DISABLE_BIT_KHR`. -/
def VK_GEOMETRY_INSTANCE_TRIANGLE_FACING_CULL_DISABLE_BIT_KHR : Nat := 1

/-- Source `VK_ACCESS_TRANSFER_WRITE_BIT`. -/
def VK_ACCESS_TRANSFER_WRITE_BIT : Nat := 0x1000

/-- Source `VK_ACCESS_ACCELERATION_STRUCTURE_WRITE_BIT_KHR`. -/
def VK_ACCESS_ACCELERATION_STRUCTURE_WRITE_BIT_KHR : Nat := 0x400000

/-- Source `VK_PIPELINE_STAGE_TRANSFER_BIT`. -/
def VK_PIPELINE_STAGE_TRANSFER_BIT : Nat := 0x1000

/-- Source `VK_PIPELINE_STAGE_ACCELERATION_STRUCTURE_BUILD_BIT_KHR`. -/
def VK_PIPELINE_STAGE_ACCELERATION_STRUCTURE_BUILD_BIT_KHR : Nat := 0x2000000

/-- Body of the instance loop of `buildTLAS` for one `SceneInstance`; `none`
when `blases[si.meshIndex]` is outside the vector. -/
def makeInstance {F : Type} (blases : List BLAS) (si : SceneInstance F) :
    Option (VkAccelerationStructureInstance F) :=
  match blases[si.meshIndex]? with
  | none => none
  | some blas =>
    some { transform := copyTransform (glmTranspose si.transform)
           instanceCustomIndex := si.meshIndex % 2 ^ 24
           mask := 0xFF
           instanceShaderBindingTableRecordOffset := 0
           flags := VK_GEOMETRY_INSTANCE_TRIANGLE_FACING_CULL_DISABLE_BIT_KHR
           accelerationStructureReference := blas.address }

/-- The instance loop of `buildTLAS`. -/
def makeInstances {F : Type} (blases : List BLAS) :
    List (SceneInstance F) → Option (List (VkAccelerationStructureInstance F))
  | [] => some []
  | si :: rest =>
    match makeInstance blases si with
    | none => none
    | some vkInst =>
      match makeInstances blases rest with
      | none => none
      | some tail => some (vkInst :: tail)

/-- Source `AccelStructure::buildTLAS`.  The value returned on success is the host
array `vkInstances` that was staged. -/
def buildTLAS {F : Type} (drv : Driver) (scene : Scene F) (a : AccelStructure)
    (dev : Device) :
    AccelStructure × Result (List (VkAccelerationStructureInstance F)) :=
  match makeInstances a.blases scene.instances with
  | none => (a, .fail .undefinedBehaviour dev)
  | some vkInstances =>
    let instSize := vkInstances.length * sizeofInstance % 2 ^ 64
    match createBuffer drv instSize [.transferSrc] dev with
    | .fail e d => (a, .fail e d)
    | .ok staging dev1 =>
      match createBuffer drv instSize
          [.transferDst, .shaderDeviceAddress, .accelerationStructureBuildInputReadOnly]
          dev1 with
      | .fail e d => (a, .fail e d)
      | .ok instanceBuffer dev2 =>
        let a1 := { a with instanceBuffer := instanceBuffer }
        let primitiveCount := vkInstances.length % 2 ^ 32
        let sizeInfo := drv.buildSizes .topLevel primitiveCount
        let dev3 := { dev2 with log := dev2.log ++ [.getBuildSizes .topLevel primitiveCount] }
        match createBuffer drv sizeInfo.accelerationStructureSize
            [.accelerationStructureStorage, .shaderDeviceAddress] dev3 with
        | .fail e d => (a1, .fail e d)
        | .ok tlasBuffer dev4 =>
          let a2 := { a1 with tlasBuffer := tlasBuffer }
          let (tlas, dev5) := createAccelerationStructure drv a2.tlas tlasBuffer.buffer
            sizeInfo.accelerationStructureSize .topLevel dev4
          let a3 := { a2 with tlas := tlas }
          let scratchAlign := drv.scratchAlign
          match createBuffer drv (tlasScratchSize sizeInfo.buildScratchSize scratchAlign)
              [.storageBuffer, .shaderDeviceAddress] dev5 with
          | .fail e d => (a3, .fail e d)
          | .ok scratch dev6 =>
            let scratchAddr := alignScratchAddress scratch.address scratchAlign
            let dev7 := submitOneShot
              [.copyBuffer staging.buffer instanceBuffer.buffer instSize,
               .memoryBarrier VK_ACCESS_TRANSFER_WRITE_BIT
                  VK_ACCESS_ACCELERATION_STRUCTURE_WRITE_BIT_KHR
                  VK_PIPELINE_STAGE_TRANSFER_BIT
                  VK_PIPELINE_STAGE_ACCELERATION_STRUCTURE_BUILD_BIT_KHR,
               .buildAccelerationStructure .topLevel tlas scratchAddr primitiveCount
                  (.instances instanceBuffer.address)] dev6
            let (_, dev8) := destroyBuffer staging dev7
            let (_, dev9) := destroyBuffer scratch dev8
            (a3, .ok vkInstances dev9)

/-- A driver used in concrete runs: scratch alignment 128, every creation
succeeds, a bottom-level structure needs 256 bytes of scratch and a top-level
one 1000. -/
def exampleDriver : Driver :=
  { scratchAlign := 128
    buildSizes := fun t n =>
      match t with
      | .bottomLevel => { accelerationStructureSize := 1024 * (n + 1), buildScratchSize := 256 }
      | .topLevel => { accelerationStructureSize := 2048, buildScratchSize := 1000 }
    allocOk := fun _ _ => true
    bufferAddress := fun h => 65536 * h + 16
    createASOk := fun _ => true
    asAddress := fun h => 1048576 * h }

/-- The mesh `addPlane` creates, with the floating-point payload erased:
four vertices and the indices `0 1 2 0 2 3`. -/
def planeMesh : MeshData Unit :=
  { vertices := List.replicate 4 { pos := ((), (), ()), normal := ((), (), ()), uv := ((), ()) }
    indices := [0, 1, 2, 0, 2, 3]
    materialIndex := 0 }

/-- A scene of one plane and one instance of it, uploaded at fixed addresses. -/
def planeScene : Scene Unit :=
  { meshes := [planeMesh]
    instances := [{ meshIndex := 0, transform := fun _ _ => (), materialIndex := 0 }]
    vertexBuffer := { buffer := 1, allocation := 1, address := 65552 }
    indexBuffer := { buffer := 2, allocation := 2, address := 131088 } }

/-- Device state after the scene upload of `planeScene`: two live buffers. -/
def planeDevice : Device :=
  { lastHandle := 2, liveBuffers := [1, 2], liveAS := [], log := [] }

/-- Sizes of the scratch-buffer allocations in a log: the `createBuffer` calls
with usage `STORAGE_BUFFER | SHADER_DEVICE_ADDRESS`, the usage both builds give
their scratch buffer and no other buffer. -/
def scratchAllocSizes (log : List DevCall) : List Nat :=
  log.filterMap fun c =>
    match c with
    | .createBuffer _ size usage =>
      if usage = [.storageBuffer, .shaderDeviceAddress] then some size else none
    | _ => none

/-- Primitive counts passed to `vkGetAccelerationStructureBuildSizesKHR` for
structures of the given type, in log order. -/
def sizeQueryCounts (type : ASType) (log : List DevCall) : List Nat :=
  log.filterMap fun c =>
    match c with
    | .getBuildSizes t n => if t = type then some n else none
    | _ => none

/-- Primitive counts of the build ranges (`range.primitiveCount`) of the builds
of the given type submitted in a log, in order. -/
def buildRangeCounts (type : ASType) (log : List DevCall) : List Nat :=
  log.flatMap fun c =>
    match c with
    | .submitOneShot cmds =>
      cmds.filterMap fun k =>
        match k with
        | .buildAccelerationStructure t _ _ n _ => if t = type then some n else none
        | _ => none
    | _ => []

/-- Running value of the `uint32_t` offset locals of `buildBLASes` after the
given element counts have been added. -/
def offsetAfter (counts : List Nat) : Nat :=
  counts.foldl (fun acc n => add32 acc (n % 2 ^ 32)) 0

/-! ## Top-level build: helpers for statements -/

/-- Column-major storage of a `glm::mat4`: the sixteen floats in memory order,
column after column. -/
def mat4Storage {F : Type} (m : Fin 4 → Fin 4 → F) : List F :=
  (List.finRange 4).flatMap fun c => (List.finRange 4).map fun r => m c r

/-- A driver like `exampleDriver` whose allocator refuses zero-byte buffers. -/
def zeroRejectingDriver : Driver :=
  { exampleDriver with allocOk := fun _ size => size != 0 }

/-- The plane scene of `planeScene` without any instance. -/
def emptyInstanceScene : Scene Unit :=
  { planeScene with instances := [] }

/-! ## Scene construction (`Scene::addPlane`) -/

/-- The floating-point operations the scene code uses, kept abstract. -/
structure FloatOps (F : Type) where
  zero : F
  one : F
  add : F → F → F
  sub : F → F → F
  mul : F → F → F
  div : F → F → F
  neg : F → F
  sin : F → F
  cos : F → F
  pi : F
  ofInt : Int → F

/-- Componentwise `glm::vec3` addition. -/
def vec3Add {F : Type} (ops : FloatOps F) (a b : F × F × F) : F × F × F :=
  (ops.add a.1 b.1, ops.add a.2.1 b.2.1, ops.add a.2.2 b.2.2)

/-- Source `glm::mat4(1.0f)`: the identity, column-major. -/
def glmIdentity {F : Type} (ops : FloatOps F) : Fin 4 → Fin 4 → F :=
  fun c r => if c = r then ops.one else ops.zero

/-- Source `Scene::addPlane`. -/
def addPlane {F : Type} (ops : FloatOps F) (center : F × F × F) (halfW halfD : F)
    (materialIdx : Nat) (s : Scene F) : Scene F :=
  let n : F × F × F := (ops.zero, ops.one, ops.zero)
  let mesh : MeshData F :=
    { materialIndex := materialIdx
      vertices :=
        [ { pos := vec3Add ops center (ops.neg halfW, ops.zero, ops.neg halfD), normal := n,
            uv := (ops.zero, ops.zero) },
          { pos := vec3Add ops center (halfW, ops.zero, ops.neg halfD), normal := n,
            uv := (ops.one, ops.zero) },
          { pos := vec3Add ops center (halfW, ops.zero, halfD), normal := n,
            uv := (ops.one, ops.one) },
          { pos := vec3Add ops center (ops.neg halfW, ops.zero, halfD), normal := n,
            uv := (ops.zero, ops.one) } ]
      indices := [0, 1, 2, 0, 2, 3] }
  let meshIdx := s.meshes.length % 2 ^ 32
  { s with
    meshes := s.meshes ++ [mesh]
    instances := s.instances ++
      [{ meshIndex := meshIdx, transform := glmIdentity ops, materialIndex := materialIdx }] }

/-- Float operations on the one-point type, for concrete runs in which only the
shape of the data matters. -/
def unitOps : FloatOps Unit :=
  { zero := (), one := (), add := fun _ _ => (), sub := fun _ _ => (),
    mul := fun _ _ => (), div := fun _ _ => (), neg := fun _ => (),
    sin := fun _ => (), cos := fun _ => (), pi := (), ofInt := fun _ => () }

/-- The bottom-level structure the example driver builds for the plane mesh. -/
def planeBLAS : BLAS :=
  { handle := 4, buffer := { buffer := 3, allocation := 3, address := 196624 },
    address := 4194304 }

/-- The `AccelStructure` object after the bottom-level build of the plane
scene. -/
def planeAccel : AccelStructure := { blases := [planeBLAS] }

/-- The scene produced by a single `addPlane` call on an empty `Scene`, with
the vertex and index buffers the upload gave it. -/
def singlePlaneScene {F : Type} (ops : FloatOps F) (center : F × F × F) (halfW halfD : F)
    (materialIdx : Nat) (vertexBuffer indexBuffer : AllocatedBuffer) : Scene F :=
  addPlane ops center halfW halfD materialIdx
    { vertexBuffer := vertexBuffer, indexBuffer := indexBuffer }

/-! ## Teardown of the acceleration structures (`AccelStructure::destroy`) -/

/-- Source `ctx.rt.destroyAccelerationStructure(ctx.device, handle, nullptr)`. -/
def destroyAccelerationStructure (handle : Nat) (dev : Device) : Device :=
  { dev with liveAS := dev.liveAS.erase handle
             log := dev.log ++ [.destroyAccelerationStructure handle] }

/-- The loop `for (auto& blas : blases)` of `AccelStructure::destroy`: the
handle is destroyed when it is not null and is left as it is; the buffer is
destroyed through `destroyBuffer`, which resets it. -/
def destroyBLASes : List BLAS → Device → List BLAS × Device
  | [], dev => ([], dev)
  | blas :: rest, dev =>
    let dev1 :=
      if blas.handle ≠ VK_NULL_HANDLE then destroyAccelerationStructure blas.handle dev
      else dev
    let (buffer, dev2) := destroyBuffer blas.buffer dev1
    let (rest', dev3) := destroyBLASes rest dev2
    ({ blas with buffer := buffer } :: rest', dev3)

/-- Source `AccelStructure::destroy`. -/
def AccelStructure.destroy (a : AccelStructure) (dev : Device) : AccelStructure × Device :=
  let (blases, dev1) := destroyBLASes a.blases dev
  let dev2 :=
    if a.tlas ≠ VK_NULL_HANDLE then destroyAccelerationStructure a.tlas dev1 else dev1
  let (tlasBuffer, dev3) := destroyBuffer a.tlasBuffer dev2
  let (instanceBuffer, dev4) := destroyBuffer a.instanceBuffer dev3
  ({ blases := blases, tlas := a.tlas, tlasBuffer := tlasBuffer,
     instanceBuffer := instanceBuffer }, dev4)

/-- A driver like `exampleDriver` whose allocator refuses the buffer that would
get handle 5: from `planeDevice` that is the scratch buffer of the first
mesh (handle 3 is its storage buffer, handle 4 its acceleration structure). -/
def scratchRefusingDriver : Driver :=
  { exampleDriver with allocOk := fun h _ => h != 5 }

/-! ## Frame orchestration: projections of a trace -/

/-- The `vkQueueSubmit` calls of a trace. -/
def submitsOf (trace : List Event) : List Event :=
  trace.filter fun e =>
    match e with
    | .queueSubmit _ _ _ _ _ => true
    | _ => false

/-- The `vkQueuePresentKHR` calls of a trace. -/
def presentsOf (trace : List Event) : List Event :=
  trace.filter fun e =>
    match e with
    | .queuePresent _ _ => true
    | _ => false

/-- The commands recorded in a trace, in order. -/
def recordedCmds (trace : List Event) : List Cmd :=
  trace.filterMap fun e =>
    match e with
    | .record _ c => some c
    | _ => none

/-- The one-shot command `Renderer::init` records: the accumulation image goes
from undefined to general layout. -/
def initCommands (storageImage : Nat) : List Cmd :=
  [.imageBarrier storageImage .undefined .general .none .shaderWrite
    .topOfPipe .rayTracingShader]

/-- The layout transitions `(old, new)` of one image in a command list. -/
def transitionsOf (image : Nat) (cmds : List Cmd) : List (VkImageLayout × VkImageLayout) :=
  cmds.filterMap fun c =>
    match c with
    | .imageBarrier img oldLayout newLayout _ _ _ _ =>
      if img = image then some (oldLayout, newLayout) else none
    | _ => none

/-- Layout an image is left in by a command list, given the layout it had. -/
def layoutAfter (image : Nat) (start : VkImageLayout) (cmds : List Cmd) : VkImageLayout :=
  (transitionsOf image cmds).foldl (fun _ t => t.2) start

/-- Every transition starts from the layout the previous one left. -/
def Chained (ts : List (VkImageLayout × VkImageLayout)) : Prop :=
  List.Chain' (fun a b => a.2 = b.1) ts

/-! ## Program entry (`main`) -/

/-- The calls `main` makes once the five components exist. -/
inductive MainCall where
  | ctxInit
  | buildScene
  | uploadToGPU
  | buildBLASes
  | buildTLAS
  | pipelineBuild
  | rendererInit
  | pollEvents
  | processInput
  | drawFrame
  | deviceWaitIdle
  | reportFatal
  | rendererDestroy
  | pipelineDestroy
  | accelDestroy
  | sceneDestroy
  | ctxDestroy
  | glfwDestroyWindow
  | glfwTerminate
  deriving DecidableEq, Repr

/-- The calls written inside the `try` block, for a render loop whose
iterations are given by `iters`: `true` stands for an iteration that finds the
window minimised and `continue`s. -/
def tryBody (iters : List Bool) : List MainCall :=
  [.ctxInit, .buildScene, .uploadToGPU, .buildBLASes, .buildTLAS, .pipelineBuild,
   .rendererInit] ++
  iters.flatMap (fun minimised =>
    if minimised then [MainCall.pollEvents]
    else [MainCall.pollEvents, MainCall.processInput, MainCall.drawFrame]) ++
  [.deviceWaitIdle]

/-- Execution of a call sequence in which the call at position `n` throws when
`throws n`: the calls made, and whether an exception left the sequence. -/
def runCalls (throws : Nat → Bool) : List MainCall → Nat → List MainCall × Bool
  | [], _ => ([], false)
  | c :: rest, n =>
    if throws n then ([c], true)
    else
      let (made, threw) := runCalls throws rest (n + 1)
      (c :: made, threw)

/-- The five `destroy` calls after the `try`/`catch`, in source order. -/
def teardown : List MainCall :=
  [.rendererDestroy, .pipelineDestroy, .accelDestroy, .sceneDestroy, .ctxDestroy]

/-- Whether a call is one of the five component `destroy` calls. -/
def MainCall.isDestroy : MainCall → Bool
  | .rendererDestroy => true
  | .pipelineDestroy => true
  | .accelDestroy => true
  | .sceneDestroy => true
  | .ctxDestroy => true
  | _ => false

/-! ## Teardown of the components, call by call -/

/-- Source `AllocatedImage` (`VulkanContext.h`). -/
structure AllocatedImage where
  image : Nat := VK_NULL_HANDLE
  view : Nat := VK_NULL_HANDLE
  allocation : Nat := VK_NULL_HANDLE
  deriving DecidableEq, Repr

/-- The members of `VulkanContext` its `destroy` and the other `destroy`
functions read, with their default member initialisers (`vkInstance` is the
member `instance`). -/
structure VulkanContext where
  vkInstance : Nat := VK_NULL_HANDLE
  surface : Nat := VK_NULL_HANDLE
  device : Nat := VK_NULL_HANDLE
  allocator : Nat := VK_NULL_HANDLE
  commandPool : Nat := VK_NULL_HANDLE
  swapchainImageViews : List Nat := []
  deriving DecidableEq, Repr

/-- The handles the platform hands out while `VulkanContext::init` runs. -/
structure CtxHandles where
  vkInstance : Nat
  surface : Nat
  device : Nat
  allocator : Nat
  commandPool : Nat
  swapchainImageViews : List Nat

/-- The places where `VulkanContext::init` throws, in source order: instance
build, window surface, physical-device selection, logical-device build,
graphics queue, allocator, `createSwapchain`, `loadRTFunctions`. -/
inductive CtxInitThrow where
  | instanceBuild
  | windowSurface
  | physicalDevice
  | logicalDevice
  | graphicsQueue
  | allocator
  | swapchain
  | rtFunctions
  deriving DecidableEq, Repr

/-- Source `VulkanContext::init` on a default-constructed context: the members
assigned before the throw `fail`, if any, and whether it threw.  `instance` is
assigned after the instance build, `surface` by the surface creation, `device`
after the logical-device build, `allocator` by `vmaCreateAllocator`,
`commandPool` next, the image views in `createSwapchain`. -/
def VulkanContext.init (h : CtxHandles) (fail : Option CtxInitThrow) : VulkanContext × Bool :=
  match fail with
  | some .instanceBuild => ({}, true)
  | some .windowSurface => ({ vkInstance := h.vkInstance }, true)
  | some .physicalDevice => ({ vkInstance := h.vkInstance, surface := h.surface }, true)
  | some .logicalDevice => ({ vkInstance := h.vkInstance, surface := h.surface }, true)
  | some .graphicsQueue =>
    ({ vkInstance := h.vkInstance, surface := h.surface, device := h.device }, true)
  | some .allocator =>
    ({ vkInstance := h.vkInstance, surface := h.surface, device := h.device }, true)
  | some .swapchain =>
    ({ vkInstance := h.vkInstance, surface := h.surface, device := h.device,
       allocator := h.allocator, commandPool := h.commandPool }, true)
  | some .rtFunctions =>
    ({ vkInstance := h.vkInstance, surface := h.surface, device := h.device,
       allocator := h.allocator, commandPool := h.commandPool,
       swapchainImageViews := h.swapchainImageViews }, true)
  | none =>
    ({ vkInstance := h.vkInstance, surface := h.surface, device := h.device,
       allocator := h.allocator, commandPool := h.commandPool,
       swapchainImageViews := h.swapchainImageViews }, false)

/-- The members of `Renderer` its `destroy` reads, with the values a
default-constructed `Renderer` has; the three arrays have
`MAX_FRAMES_IN_FLIGHT` elements. -/
structure RendererResources where
  storageImage : AllocatedImage := {}
  cameraUBOs : List AllocatedBuffer := [{}, {}]
  imageAvailableSems : List Nat := [VK_NULL_HANDLE, VK_NULL_HANDLE]
  inFlightFences : List Nat := [VK_NULL_HANDLE, VK_NULL_HANDLE]
  renderFinishedSems : List Nat := []
  descriptorPool : Nat := VK_NULL_HANDLE
  deriving DecidableEq, Repr

/-- The members of `RTPipeline` its `destroy` reads. -/
structure RTPipelineResources where
  pipeline : Nat := VK_NULL_HANDLE
  pipelineLayout : Nat := VK_NULL_HANDLE
  descriptorSetLayout : Nat := VK_NULL_HANDLE
  sbtBuffer : AllocatedBuffer := {}
  deriving DecidableEq, Repr

/-- The four buffers of `Scene` its `destroy` releases. -/
structure SceneBuffers where
  vertexBuffer : AllocatedBuffer := {}
  indexBuffer : AllocatedBuffer := {}
  materialBuffer : AllocatedBuffer := {}
  instanceDataBuffer : AllocatedBuffer := {}
  deriving DecidableEq, Repr

/-- The Vulkan, VMA and vk-bootstrap calls the `destroy` functions make, each
with its dispatchable first argument (`VkDevice` or `VkInstance`) when it has
one. -/
inductive VkCall where
  | deviceWaitIdle (device : Nat)
  | destroyImageView (device view : Nat)
  | vmaDestroyImage (image : Nat)
  | vmaDestroyBuffer (buffer : Nat)
  | destroySemaphore (device semaphore : Nat)
  | destroyFence (device fence : Nat)
  | destroyDescriptorPool (device pool : Nat)
  | destroyPipeline (device pipeline : Nat)
  | destroyPipelineLayout (device layout : Nat)
  | destroyDescriptorSetLayout (device layout : Nat)
  | destroyAccelerationStructure (device handle : Nat)
  | vkbDestroySwapchain
  | destroyCommandPool (device pool : Nat)
  | vmaDestroyAllocator (allocator : Nat)
  | vkbDestroyDevice
  | destroySurface (vkInstance surface : Nat)
  | vkbDestroyInstance
  deriving DecidableEq, Repr

/-- Whether a call has defined behaviour: a Vulkan command needs a valid,
hence non-null, `VkDevice` or `VkInstance` as its first argument; the object
being destroyed may be null.  The VMA and vk-bootstrap calls accept what they
are given. -/
def VkCall.Defined : VkCall → Bool
  | .deviceWaitIdle device => device != VK_NULL_HANDLE
  | .destroyImageView device _ => device != VK_NULL_HANDLE
  | .destroySemaphore device _ => device != VK_NULL_HANDLE
  | .destroyFence device _ => device != VK_NULL_HANDLE
  | .destroyDescriptorPool device _ => device != VK_NULL_HANDLE
  | .destroyPipeline device _ => device != VK_NULL_HANDLE
  | .destroyPipelineLayout device _ => device != VK_NULL_HANDLE
  | .destroyDescriptorSetLayout device _ => device != VK_NULL_HANDLE
  | .destroyAccelerationStructure device _ => device != VK_NULL_HANDLE
  | .destroyCommandPool device _ => device != VK_NULL_HANDLE
  | .destroySurface vkInstance _ => vkInstance != VK_NULL_HANDLE
  | .vmaDestroyImage _ => true
  | .vmaDestroyBuffer _ => true
  | .vkbDestroySwapchain => true
  | .vmaDestroyAllocator _ => true
  | .vkbDestroyDevice => true
  | .vkbDestroyInstance => true

/-- The call `VulkanContext::destroyBuffer` makes: none on a null handle. -/
def destroyBufferCalls (buf : AllocatedBuffer) : List VkCall :=
  if buf.buffer ≠ VK_NULL_HANDLE then [.vmaDestroyBuffer buf.buffer] else []

/-- The calls `VulkanContext::destroyImage` makes. -/
def destroyImageCalls (ctx : VulkanContext) (img : AllocatedImage) : List VkCall :=
  (if img.view ≠ VK_NULL_HANDLE then [VkCall.destroyImageView ctx.device img.view] else []) ++
  (if img.image ≠ VK_NULL_HANDLE then [VkCall.vmaDestroyImage img.image] else [])

/-- Source `Renderer::destroy`: the calls it makes, in order.  It starts with
`vkDeviceWaitIdle(ctx.device)` and tests no handle itself. -/
def rendererDestroyCalls (ctx : VulkanContext) (r : RendererResources) : List VkCall :=
  [VkCall.deviceWaitIdle ctx.device] ++
  destroyImageCalls ctx r.storageImage ++
  (List.range MAX_FRAMES_IN_FLIGHT).flatMap (fun i =>
    destroyBufferCalls (r.cameraUBOs.getD i {}) ++
    [VkCall.destroySemaphore ctx.device (r.imageAvailableSems.getD i VK_NULL_HANDLE),
     VkCall.destroyFence ctx.device (r.inFlightFences.getD i VK_NULL_HANDLE)]) ++
  r.renderFinishedSems.map (VkCall.destroySemaphore ctx.device) ++
  [VkCall.destroyDescriptorPool ctx.device r.descriptorPool]

/-- Source `RTPipeline::destroy`. -/
def pipelineDestroyCalls (ctx : VulkanContext) (p : RTPipelineResources) : List VkCall :=
  destroyBufferCalls p.sbtBuffer ++
  (if p.pipeline ≠ VK_NULL_HANDLE then [VkCall.destroyPipeline ctx.device p.pipeline] else []) ++
  (if p.pipelineLayout ≠ VK_NULL_HANDLE then
    [VkCall.destroyPipelineLayout ctx.device p.pipelineLayout] else []) ++
  (if p.descriptorSetLayout ≠ VK_NULL_HANDLE then
    [VkCall.destroyDescriptorSetLayout ctx.device p.descriptorSetLayout] else [])

/-- Source `AccelStructure::destroy`, as the calls `AccelStructure.destroy` logs,
with `ctx.device` as first argument of the structure destroys. -/
def accelDestroyCalls (ctx : VulkanContext) (a : AccelStructure) : List VkCall :=
  (AccelStructure.destroy a {}).2.log.filterMap fun c =>
    match c with
    | .destroyAccelerationStructure h => some (VkCall.destroyAccelerationStructure ctx.device h)
    | .destroyBuffer h => some (VkCall.vmaDestroyBuffer h)
    | _ => none

/-- Source `Scene::destroy`. -/
def sceneDestroyCalls (s : SceneBuffers) : List VkCall :=
  destroyBufferCalls s.vertexBuffer ++ destroyBufferCalls s.indexBuffer ++
  destroyBufferCalls s.materialBuffer ++ destroyBufferCalls s.instanceDataBuffer

/-- Source `VulkanContext::destroy`. -/
def ctxDestroyCalls (ctx : VulkanContext) : List VkCall :=
  [VkCall.deviceWaitIdle ctx.device] ++
  ctx.swapchainImageViews.map (VkCall.destroyImageView ctx.device) ++
  [VkCall.vkbDestroySwapchain,
   VkCall.destroyCommandPool ctx.device ctx.commandPool,
   VkCall.vmaDestroyAllocator ctx.allocator,
   VkCall.vkbDestroyDevice,
   VkCall.destroySurface ctx.vkInstance ctx.surface,
   VkCall.vkbDestroyInstance]

/-- What `main` does, in order: its own calls, and inside the `destroy`
functions the calls they make. -/
inductive MainEvent where
  | call (c : MainCall)
  | vk (c : VkCall)
  deriving DecidableEq, Repr

/-- How `main` ends: it returns an exit code, or it runs into undefined
behaviour. -/
inductive MainOutcome where
  | returned (code : Nat)
  | undefinedBehaviour
  deriving DecidableEq, Repr

/-- A sequence of calls made one after the other: the calls made up to and
including the first one without defined behaviour, and whether there was one. -/
def runVkCalls : List VkCall → List VkCall × Bool
  | [] => ([], false)
  | c :: rest =>
    if c.Defined then
      let (made, ub) := runVkCalls rest
      (c :: made, ub)
    else ([c], true)

/-- The `destroy` functions called one after the other, each with the calls it
makes; nothing runs after undefined behaviour. -/
def runDestroys : List (MainCall × List VkCall) → List MainEvent × Bool
  | [] => ([], false)
  | (c, calls) :: rest =>
    let (made, ub) := runVkCalls calls
    if ub then (MainEvent.call c :: made.map MainEvent.vk, true)
    else
      let (tail, ub') := runDestroys rest
      (MainEvent.call c :: made.map MainEvent.vk ++ tail, ub')

/-- The four components besides the context, as the `try` block left them. -/
structure Components where
  renderer : RendererResources := {}
  rtPipeline : RTPipelineResources := {}
  accel : AccelStructure := {}
  scene : SceneBuffers := {}

/-- Source `main` from the `try` block on.  `fail` says where `ctx.init` throws,
if it does; `throws` says which later call of the `try` block throws; `comps`
is the state the set-up calls left the other components in (they stay
default-constructed when `ctx.init` throws).  After the `try`/`catch` the five
`destroy` functions are called in source order, then the two GLFW calls, and
`main` returns 0. -/
def mainRun (h : CtxHandles) (fail : Option CtxInitThrow) (throws : Nat → Bool)
    (iters : List Bool) (comps : Components) : List MainEvent × MainOutcome :=
  let (ctx, initThrew) := VulkanContext.init h fail
  let (made, threw) :=
    if initThrew then ([MainCall.ctxInit], true)
    else
      let (later, t) := runCalls throws (tryBody iters).tail 1
      (MainCall.ctxInit :: later, t)
  let c : Components := if initThrew then {} else comps
  let pre := made.map MainEvent.call ++ (if threw then [MainEvent.call .reportFatal] else [])
  let (destroys, ub) := runDestroys
    [(.rendererDestroy, rendererDestroyCalls ctx c.renderer),
     (.pipelineDestroy, pipelineDestroyCalls ctx c.rtPipeline),
     (.accelDestroy, accelDestroyCalls ctx c.accel),
     (.sceneDestroy, sceneDestroyCalls c.scene),
     (.ctxDestroy, ctxDestroyCalls ctx)]
  if ub then (pre ++ destroys, .undefinedBehaviour)
  else
    (pre ++ destroys ++ [MainEvent.call .glfwDestroyWindow, MainEvent.call .glfwTerminate],
     .returned 0)

/-- The calls of `main` itself in a trace, in order. -/
def topLevelCalls (trace : List MainEvent) : List MainCall :=
  trace.filterMap fun e =>
    match e with
    | .call c => some c
    | .vk _ => none

/-- Handles for concrete runs of `main`: a swapchain of three image views. -/
def exampleCtxHandles : CtxHandles :=
  { vkInstance := 1, surface := 2, device := 3, allocator := 4, commandPool := 5,
    swapchainImageViews := [201, 202, 203] }

/-- Number of cycles of a run that `drawFrame` did not abandon at the acquire
step. -/
def completedCycles (inputs : List (AcquireResult × Bool)) : Nat :=
  (inputs.filter fun p => !isStale p.1.res).length

/-- All commands recorded over the cycles of a run, in order. -/
def runCommands (recs : List (Renderer × List Event)) : List Cmd :=
  (recs.map fun p => recordedCmds p.2).flatten

/-! ## Device logs: projections -/

/-- The command sequences of the one-shot submissions in a log, in order. -/
def oneShotsOf (log : List DevCall) : List (List OneShotCmd) :=
  log.filterMap fun c =>
    match c with
    | .submitOneShot cmds => some cmds
    | _ => none

/-- Handles of the buffers destroyed (`vmaDestroyBuffer`) in a log, in order. -/
def destroyedBuffers (log : List DevCall) : List Nat :=
  log.filterMap fun c =>
    match c with
    | .destroyBuffer h => some h
    | _ => none

/-- Handles passed to `vkDestroyAccelerationStructureKHR` in a log, in order. -/
def destroyedAS (log : List DevCall) : List Nat :=
  log.filterMap fun c =>
    match c with
    | .destroyAccelerationStructure h => some h
    | _ => none

/-- Handle and size of the buffers created in a log with the given usage. -/
def allocsWithUsage (usage : List BufferUsage) (log : List DevCall) : List (Nat × Nat) :=
  log.filterMap fun c =>
    match c with
    | .createBuffer h size u => if u = usage then some (h, size) else none
    | _ => none

/-- Usage of the storage buffer of a bottom-level structure in `buildSingleBLAS`. -/
def blasStorageUsage : List BufferUsage := [.accelerationStructureStorage, .shaderDeviceAddress]

/-- Usage of the scratch buffer in `buildSingleBLAS` and `buildTLAS`. -/
def scratchUsage : List BufferUsage := [.storageBuffer, .shaderDeviceAddress]

/-- Handles are handed out in increasing order: every live buffer has a handle
that was already issued. -/
def Device.HandlesIssued (dev : Device) : Prop :=
  ∀ h ∈ dev.liveBuffers, h ≤ dev.lastHandle

/-- The plane scene fully built on the example driver: the `AccelStructure`
object and the device state after `buildBLASes` and `buildTLAS`. -/
def builtPlane : AccelStructure × Device :=
  match buildBLASes exampleDriver planeScene {} planeDevice with
  | (a, .ok _ dev) =>
    match buildTLAS exampleDriver planeScene a dev with
    | (a', .ok _ dev') => (a', dev')
    | (a', .fail _ dev') => (a', dev')
  | (a, .fail _ dev) => (a, dev)

/-- Scratch addresses (`buildInfo.scratchData.deviceAddress`) of the builds
submitted in a log, in order. -/
def buildScratchAddresses (log : List DevCall) : List Nat :=
  (oneShotsOf log).flatMap fun cmds =>
    cmds.filterMap fun k =>
      match k with
      | .buildAccelerationStructure _ _ scratchAddress _ _ => some scratchAddress
      | _ => none

/-! ## Sample counter written to the uniform record -/

/-- The `sampleCount` values written into the camera uniform record in a
trace, in order. -/
def uboWrites (trace : List Event) : List Nat :=
  trace.filterMap fun e =>
    match e with
    | .writeCameraUBO _ sampleCount _ => some sampleCount
    | _ => none

/-- The update `drawFrame` applies to the sample counter in one cycle: none
when the cycle is abandoned, reset when the camera moved, increment otherwise. -/
def sampleStep (count : Nat) (input : AcquireResult × Bool) : Nat :=
  if isStale input.1.res then count
  else if input.2 then 0
  else add32 count 1

/-- Stated from the claim's words: the number of completed cycles without
camera motion since the most recent completed cycle with camera motion, or
since the start when there is none. -/
def nonMovedStreak (inputs : List (AcquireResult × Bool)) : Nat :=
  (((inputs.filter fun p => !isStale p.1.res).reverse).takeWhile fun p => !p.2).length

/-! ## Scene construction (`Scene::addSphere`, `Scene::buildScene`) -/

/-- Source `INT_MAX` of the 32-bit `int`. -/
def INT_MAX : Nat := 2 ^ 31 - 1

/-- An `int` result that is not negative: the value itself when it is
representable, `none` for signed overflow (undefined behaviour). -/
def intVal (x : Nat) : Option Nat :=
  if x ≤ INT_MAX then some x else none

/-- Componentwise product of a `glm::vec3` with a scalar. -/
def vec3Scale {F : Type} (ops : FloatOps F) (a : F × F × F) (k : F) : F × F × F :=
  (ops.mul a.1 k, ops.mul a.2.1 k, ops.mul a.2.2 k)

/-- The index pairs `(i, j)` visited by two nested counting loops,
`i` from 0 below `rows` outside, `j` from 0 below `cols` inside. -/
def gridPairs (rows cols : Nat) : List (Nat × Nat) :=
  (List.range rows).flatMap fun i => (List.range cols).map fun j => (i, j)

/-- Body of the vertex loops of `addSphere` for stack `i` and slice `j`.  The
literal `2.0f` is the float of the integer 2. -/
def sphereVertex {F : Type} (ops : FloatOps F) (center : F × F × F) (radius : F)
    (numStacks numSlices i j : Nat) : Vertex F :=
  let phi := ops.div (ops.mul ops.pi (ops.ofInt i)) (ops.ofInt numStacks)
  let theta := ops.div (ops.mul (ops.mul (ops.ofInt 2) ops.pi) (ops.ofInt j)) (ops.ofInt numSlices)
  let n : F × F × F :=
    (ops.mul (ops.sin phi) (ops.cos theta), ops.cos phi, ops.mul (ops.sin phi) (ops.sin theta))
  { pos := vec3Add ops center (vec3Scale ops n radius)
    normal := n
    uv := (ops.div (ops.ofInt j) (ops.ofInt numSlices), ops.div (ops.ofInt i) (ops.ofInt numStacks)) }

/-- The vertex loops of `addSphere` (`i <= stacks`, `j <= slices`) for `int`
arguments that are not negative; the loop counters reach `stacks + 1` and
`slices + 1`, which must be representable. -/
def sphereVertices {F : Type} (ops : FloatOps F) (center : F × F × F) (radius : F)
    (numStacks numSlices : Nat) : Option (List (Vertex F)) :=
  match intVal (numStacks + 1), intVal (numSlices + 1) with
  | some rows, some cols =>
    some ((gridPairs rows cols).map fun p => sphereVertex ops center radius numStacks numSlices p.1 p.2)
  | _, _ => none

/-- Body of the index loops of `addSphere` for stack `i` and slice `j`: the
`int` values `a = i * (slices + 1) + j` and `b = a + slices + 1`, and the six
values pushed, each converted to `uint32_t`. -/
def sphereQuad (numSlices i j : Nat) : Option (List Nat) :=
  match intVal (numSlices + 1) with
  | none => none
  | some s1 =>
    match intVal (i * s1) with
    | none => none
    | some m =>
      match intVal (m + j) with
      | none => none
      | some a =>
        match intVal (a + numSlices) with
        | none => none
        | some t =>
          match intVal (t + 1) with
          | none => none
          | some b =>
            match intVal (a + 1), intVal (b + 1) with
            | some a1, some b1 => some ([a, b, a1, b, b1, a1].map fun x => x % 2 ^ 32)
            | _, _ => none

/-- Concatenation of the results of a sequence of steps, `none` as soon as one
step is undefined. -/
def concatSome {α : Type} : List (Option (List α)) → Option (List α)
  | [] => some []
  | none :: _ => none
  | some x :: rest =>
    match concatSome rest with
    | none => none
    | some tail => some (x ++ tail)

/-- The index loops of `addSphere` (`i < stacks`, `j < slices`). -/
def sphereIndices (numStacks numSlices : Nat) : Option (List Nat) :=
  concatSome ((gridPairs numStacks numSlices).map fun p => sphereQuad numSlices p.1 p.2)

/-- Source `Scene::addSphere`, for `int` arguments `stacks` and `slices` that are
not negative; `none` stands for signed overflow. -/
def addSphere {F : Type} (ops : FloatOps F) (center : F × F × F) (radius : F)
    (materialIdx numStacks numSlices : Nat) (s : Scene F) : Option (Scene F) :=
  match sphereVertices ops center radius numStacks numSlices, sphereIndices numStacks numSlices with
  | some vertices, some indices =>
    let mesh : MeshData F :=
      { materialIndex := materialIdx, vertices := vertices, indices := indices }
    let meshIdx := s.meshes.length % 2 ^ 32
    some { s with
      meshes := s.meshes ++ [mesh]
      instances := s.instances ++
        [{ meshIndex := meshIdx, transform := glmIdentity ops, materialIndex := materialIdx }] }
  | _, _ => none

/-- A call of one of the two geometry helpers of `Scene`. -/
inductive SceneCall (F : Type) where
  | plane (center : F × F × F) (halfW halfD : F) (materialIdx : Nat)
  | sphere (center : F × F × F) (radius : F) (materialIdx numStacks numSlices : Nat)

/-- A sequence of `addPlane` and `addSphere` calls on a `Scene`. -/
def applyCalls {F : Type} (ops : FloatOps F) : List (SceneCall F) → Scene F → Option (Scene F)
  | [], s => some s
  | .plane center halfW halfD materialIdx :: rest, s =>
    applyCalls ops rest (addPlane ops center halfW halfD materialIdx s)
  | .sphere center radius materialIdx numStacks numSlices :: rest, s =>
    match addSphere ops center radius materialIdx numStacks numSlices s with
    | none => none
    | some s' => applyCalls ops rest s'

/-- The six materials `Scene::buildScene` pushes; `dec m e` is the float literal
with decimal digits `m` and `e` digits after the point (`dec 95 2` is `0.95f`),
and the integer zeros of `{0,0,0}` and `{0,0}` are converted from `int`. -/
def sceneMaterials {F : Type} (ops : FloatOps F) (dec : Int → Nat → F) : List (Material F) :=
  let z := ops.ofInt 0
  [ { baseColor := (dec 8 1, dec 8 1, dec 8 1), metallic := dec 0 1, emissive := (z, z, z),
      roughness := dec 95 2, ior := dec 15 1, type := 0, pad := (z, z) },
    { baseColor := (dec 8 1, dec 15 2, dec 1 1), metallic := dec 0 1, emissive := (z, z, z),
      roughness := dec 9 1, ior := dec 15 1, type := 0, pad := (z, z) },
    { baseColor := (dec 10 1, dec 78 2, dec 2 1), metallic := dec 10 1, emissive := (z, z, z),
      roughness := dec 1 1, ior := dec 15 1, type := 1, pad := (z, z) },
    { baseColor := (dec 95 2, dec 98 2, dec 10 1), metallic := dec 0 1, emissive := (z, z, z),
      roughness := dec 0 1, ior := dec 15 1, type := 2, pad := (z, z) },
    { baseColor := (dec 10 1, dec 9 1, dec 8 1), metallic := dec 0 1,
      emissive := (dec 60 1, dec 50 1, dec 45 1),
      roughness := dec 9 1, ior := dec 15 1, type := 0, pad := (z, z) },
    { baseColor := (dec 2 1, dec 3 1, dec 9 1), metallic := dec 0 1, emissive := (z, z, z),
      roughness := dec 85 2, ior := dec 15 1, type := 0, pad := (z, z) } ]

/-- The six geometry calls of `Scene::buildScene`; the spheres use the default
arguments `stacks = 16`, `slices = 32`. -/
def sceneCalls {F : Type} (ops : FloatOps F) (dec : Int → Nat → F) : List (SceneCall F) :=
  [ .plane (dec 0 1, ops.neg (dec 10 1), dec 0 1) (dec 60 1) (dec 60 1) 0,
    .sphere (ops.neg (dec 20 1), dec 0 1, dec 0 1) (dec 10 1) 1 16 32,
    .sphere (dec 0 1, dec 0 1, dec 0 1) (dec 10 1) 2 16 32,
    .sphere (dec 20 1, dec 0 1, dec 0 1) (dec 10 1) 3 16 32,
    .sphere (ops.neg (dec 20 1), dec 0 1, ops.neg (dec 30 1)) (dec 10 1) 5 16 32,
    .sphere (dec 0 1, dec 45 1, dec 0 1) (dec 6 1) 4 16 32 ]

/-- Source `Scene::buildScene`. -/
def buildScene {F : Type} (ops : FloatOps F) (dec : Int → Nat → F) (s : Scene F) :
    Option (Scene F) :=
  applyCalls ops (sceneCalls ops dec) { s with materials := s.materials ++ sceneMaterials ops dec }

/-! ## Scene upload (`Scene::uploadToGPU`) -/

/-- The flattening loop of `Scene::uploadToGPU`, with the three local vectors
`allVerts`, `allIndices` and `instData` as accumulators. -/
def uploadLoop {F : Type} :
    List (MeshData F) → List (Vertex F) → List Nat → List InstanceData →
      List (Vertex F) × List Nat × List InstanceData
  | [], allVerts, allIndices, instData => (allVerts, allIndices, instData)
  | mesh :: rest, allVerts, allIndices, instData =>
    uploadLoop rest (allVerts ++ mesh.vertices) (allIndices ++ mesh.indices)
      (instData ++
        [{ vertexOffset := allVerts.length % 2 ^ 32
           indexOffset := allIndices.length % 2 ^ 32
           materialIndex := mesh.materialIndex }])

/-- The four host arrays `Scene::uploadToGPU` hands to `upload`. -/
structure UploadData (F : Type) where
  allVerts : List (Vertex F)
  allIndices : List Nat
  materials : List (Material F)
  instData : List InstanceData

/-- Source `Scene::uploadToGPU`, host side: the arrays uploaded to the vertex,
index, material and instance-data buffers. -/
def uploadArrays {F : Type} (s : Scene F) : UploadData F :=
  let r := uploadLoop s.meshes [] [] []
  { allVerts := r.1, allIndices := r.2.1, materials := s.materials, instData := r.2.2 }

/-- Vertex and index addresses of the bottom-level builds submitted in a log,
in order. -/
def blasBuildAddresses (log : List DevCall) : List (Nat × Nat) :=
  (oneShotsOf log).flatMap fun cmds =>
    cmds.filterMap fun k =>
      match k with
      | .buildAccelerationStructure .bottomLevel _ _ _ (.triangles va _ _ ia _) => some (va, ia)
      | _ => none

/-- The invariant of `addPlane` and `addSphere`: as many instances as meshes,
and instance `i` refers to mesh `i`. -/
def Scene.Indexed {F : Type} (s : Scene F) : Prop :=
  s.instances.length = s.meshes.length ∧
  ∀ (i : Nat) (inst : SceneInstance F), s.instances[i]? = some inst → inst.meshIndex = i

/-- The material index argument of a geometry call. -/
def SceneCall.materialIdx {F : Type} : SceneCall F → Nat
  | .plane _ _ _ materialIdx => materialIdx
  | .sphere _ _ materialIdx _ _ => materialIdx

/-- A geometry call whose `int` arithmetic does not overflow: any `addPlane`
call, and an `addSphere` call whose vertex count is representable. -/
def SceneCall.Representable {F : Type} : SceneCall F → Prop
  | .plane _ _ _ _ => True
  | .sphere _ _ _ numStacks numSlices => (numStacks + 1) * (numSlices + 1) < 2 ^ 31

/-- The plane scene with a small sphere (2 stacks, 3 slices) added: two meshes
of 4 and 12 vertices, 6 and 36 indices. -/
def twoMeshScene : Scene Unit :=
  (addSphere unitOps ((), (), ()) () 1 2 3 planeScene).getD planeScene

set_option maxRecDepth 100000

/-! ## Arithmetic facts -/

theorem land_mask (w k x : Nat) (hk : k ≤ w) (hx : x < 2 ^ w) :
    x &&& (2 ^ w - 1 - (2 ^ k - 1)) = 2 ^ k * (x / 2 ^ k) := by
  have hm : 2 ^ w - 1 - (2 ^ k - 1) = 2 ^ k * (2 ^ (w - k) - 1) := by
    have h1 : 2 ^ w = 2 ^ k * 2 ^ (w - k) := by rw [← pow_add]; congr 1; omega
    have h2 : 0 < 2 ^ k := Nat.pow_pos (by norm_num)
    rw [Nat.mul_sub, h1]; simp; omega
  rw [hm]
  apply Nat.eq_of_testBit_eq
  intro i
  rw [Nat.testBit_and, Nat.testBit_mul_pow_two, Nat.testBit_mul_pow_two,
    Nat.testBit_two_pow_sub_one, ← Nat.shiftRight_eq_div_pow, Nat.testBit_shiftRight]
  by_cases hik : k ≤ i
  · by_cases hiw : i < w
    · simp [hik, show i - k < w - k by omega, show k + (i - k) = i by omega]
    · have hbit : x.testBit i = false :=
        Nat.testBit_lt_two_pow
          (lt_of_lt_of_le hx (Nat.pow_le_pow_right (by norm_num) (by omega)))
      simp [hik, hbit, show k + (i - k) = i by omega]
  · simp [hik]

theorem pow2_lt_iff (k : Nat) (h : 2 ^ k < 2 ^ 32) : k < 32 :=
  (Nat.pow_lt_pow_iff_right (by norm_num)).1 h

theorem sub32_lt (a b : Nat) : sub32 a b < 2 ^ 32 := Nat.mod_lt _ (by norm_num)

theorem sub32_one (a : Nat) (h1 : 0 < a) (h2 : a < 2 ^ 32) : sub32 a 1 = a - 1 := by
  unfold sub32
  omega

theorem sub32_add32_one (v a : Nat) (h1 : 0 < a) (h2 : v + a ≤ 2 ^ 32) :
    sub32 (add32 v a) 1 = v + a - 1 := by
  unfold sub32 add32
  omega

theorem not32_of_lt (a : Nat) (h2 : a < 2 ^ 32) : not32 a = 2 ^ 32 - 1 - a := by
  unfold not32
  omega

/-- For a power-of-two alignment that fits in 32 bits, `alignUp` clears the low
bits of `(v + a - 1) mod 2^32`. -/
theorem alignUp_pow2 (v k : Nat) (hk : k < 32) :
    alignUp v (2 ^ k) = 2 ^ k * (sub32 (add32 v (2 ^ k)) 1 / 2 ^ k) := by
  have hlt : 2 ^ k < 2 ^ 32 := Nat.pow_lt_pow_right (by norm_num) hk
  have hpos : 0 < 2 ^ k := Nat.pow_pos (by norm_num)
  unfold alignUp
  rw [sub32_one _ hpos hlt, not32_of_lt _ (by omega)]
  exact land_mask 32 k _ (le_of_lt hk) (sub32_lt _ _)

theorem alignUp_dvd (v a : Nat) (ha : IsPow2 a) (hlt : a < 2 ^ 32) : a ∣ alignUp v a := by
  obtain ⟨k, rfl⟩ := ha
  rw [alignUp_pow2 v k (pow2_lt_iff k hlt)]
  exact Dvd.intro _ rfl

theorem alignUp_lt (v a : Nat) : alignUp v a < 2 ^ 32 := by
  unfold alignUp
  exact lt_of_le_of_lt Nat.and_le_left (sub32_lt _ _)

theorem alignUp_eq_roundUp (v a : Nat) (ha : IsPow2 a) (hfit : v + a ≤ 2 ^ 32)
    (hlt : a < 2 ^ 32) : alignUp v a = roundUp v a := by
  obtain ⟨k, rfl⟩ := ha
  have hpos : 0 < 2 ^ k := Nat.pow_pos (by norm_num)
  rw [alignUp_pow2 v k (pow2_lt_iff k hlt), sub32_add32_one v _ hpos hfit, roundUp,
    Nat.mul_comm]

/-- Outside powers of two the bit mask does not round: `alignUp 4 3` is `4`,
not the multiple `6` of `3`. -/
theorem alignUp_three : alignUp 4 3 = 4 ∧ roundUp 4 3 = 6 := by decide

theorem roundUp_isLeastMultiple (x a : Nat) (ha : 0 < a) :
    IsLeastMultiple a x (roundUp x a) := by
  unfold roundUp
  refine ⟨Dvd.intro_left _ rfl, ?_, ?_⟩
  · have h := Nat.div_add_mod (x + a - 1) a
    have hr := Nat.mod_lt (x + a - 1) ha
    rw [Nat.mul_comm]
    generalize a * ((x + a - 1) / a) = p at h ⊢
    omega
  · rintro m' ⟨c, rfl⟩ hx
    rw [Nat.mul_comm a c]
    apply Nat.mul_le_mul_right
    apply Nat.le_of_lt_succ
    rw [Nat.div_lt_iff_lt_mul ha]
    rw [Nat.succ_mul, Nat.mul_comm c a]
    omega

theorem le_roundUp (x a : Nat) (ha : 0 < a) : x ≤ roundUp x a :=
  (roundUp_isLeastMultiple x a ha).2.1

theorem IsPow2.pos {a : Nat} (ha : IsPow2 a) : 0 < a := by
  obtain ⟨k, rfl⟩ := ha
  exact Nat.pow_pos (by norm_num)

/-- Everything `ValidLimits` and `Ah ∣ Ab` give about the 32-bit computation. -/
theorem sbtLayout_exact (H Ah Ab : Nat) (hv : ValidLimits H Ah Ab) (hd : Ah ∣ Ab) :
    sbtLayout H Ah Ab =
      { handleSize := H
        handleSizeAlgn := roundUp H Ah
        rgenSize := Ab
        missSize := roundUp (2 * roundUp H Ah) Ab
        hitSize := roundUp (roundUp H Ah) Ab
        totalSize := Ab + roundUp (2 * roundUp H Ah) Ab + roundUp (roundUp H Ah) Ab } := by
  obtain ⟨hAh, hAb, hfit⟩ := hv
  have hAhpos := hAh.pos
  have hAbpos := hAb.pos
  have hle : Ah ≤ Ab := Nat.le_of_dvd hAbpos hd
  have h1 := le_roundUp H Ah hAhpos
  have h2 := le_roundUp (roundUp H Ah) Ab hAbpos
  have h3 := le_roundUp (2 * roundUp H Ah) Ab hAbpos
  have e1 : alignUp H Ah = roundUp H Ah :=
    alignUp_eq_roundUp H Ah hAh (by omega) (by omega)
  have e2 : mul32 2 (roundUp H Ah) = 2 * roundUp H Ah := by
    unfold mul32; exact Nat.mod_eq_of_lt (by omega)
  have e3 : mul32 1 (roundUp H Ah) = roundUp H Ah := by
    unfold mul32; rw [Nat.one_mul]; exact Nat.mod_eq_of_lt (by omega)
  have e4 : alignUp (2 * roundUp H Ah) Ab = roundUp (2 * roundUp H Ah) Ab :=
    alignUp_eq_roundUp _ Ab hAb (by omega) (by omega)
  have e5 : alignUp (roundUp H Ah) Ab = roundUp (roundUp H Ah) Ab :=
    alignUp_eq_roundUp _ Ab hAb (by omega) (by omega)
  have e6 : add32 (add32 Ab (roundUp (2 * roundUp H Ah) Ab)) (roundUp (roundUp H Ah) Ab)
      = Ab + roundUp (2 * roundUp H Ah) Ab + roundUp (roundUp H Ah) Ab := by
    unfold add32
    rw [Nat.mod_eq_of_lt (a := Ab + _) (by omega), Nat.mod_eq_of_lt (by omega)]
  simp only [sbtLayout, e1, e2, e3, e4, e5, e6]

/-! ## Dispatch-table sizes and alignment (C1–C3) -/

/-- C1. For valid device limits `(H, Ah, Ab)` with `Ah ∣ Ab`, `buildSBT`
computes a generation-region size of exactly `Ab`, a miss-region size that is
the least multiple of `Ab` that is `≥ 2·roundUp(H,Ah)`, a hit-region size that
is the least multiple of `Ab` that is `≥ roundUp(H,Ah)`, and a total size that
is the sum of the three; `roundUp(H,Ah)` is the least multiple of `Ah` that is
`≥ H`. -/
theorem sbtLayout_sizes (H Ah Ab : Nat) (hv : ValidLimits H Ah Ab) (hd : Ah ∣ Ab) :
    (sbtLayout H Ah Ab).rgenSize = Ab ∧
    IsLeastMultiple Ah H (roundUp H Ah) ∧
    IsLeastMultiple Ab (2 * roundUp H Ah) (sbtLayout H Ah Ab).missSize ∧
    IsLeastMultiple Ab (roundUp H Ah) (sbtLayout H Ah Ab).hitSize ∧
    (sbtLayout H Ah Ab).totalSize =
      (sbtLayout H Ah Ab).rgenSize + (sbtLayout H Ah Ab).missSize
        + (sbtLayout H Ah Ab).hitSize := by
  rw [sbtLayout_exact H Ah Ab hv hd]
  obtain ⟨hAh, hAb, -⟩ := hv
  exact ⟨rfl, roundUp_isLeastMultiple _ _ hAh.pos, roundUp_isLeastMultiple _ _ hAb.pos,
    roundUp_isLeastMultiple _ _ hAb.pos, rfl⟩

/-- Witness for C1: the limits of a typical device, `H = 32`, `Ah = 32`,
`Ab = 64`. -/
theorem sbtLayout_sizes_witness :
    ValidLimits 32 32 64 ∧ 32 ∣ 64 ∧
    (sbtLayout 32 32 64).rgenSize = 64 ∧
    IsLeastMultiple 32 32 (roundUp 32 32) ∧
    IsLeastMultiple 64 (2 * roundUp 32 32) (sbtLayout 32 32 64).missSize ∧
    IsLeastMultiple 64 (roundUp 32 32) (sbtLayout 32 32 64).hitSize ∧
    (sbtLayout 32 32 64).totalSize =
      (sbtLayout 32 32 64).rgenSize + (sbtLayout 32 32 64).missSize
        + (sbtLayout 32 32 64).hitSize :=
  ⟨⟨⟨5, by norm_num⟩, ⟨6, by norm_num⟩, by decide⟩, ⟨2, by norm_num⟩,
    sbtLayout_sizes 32 32 64 ⟨⟨5, by norm_num⟩, ⟨6, by norm_num⟩, by decide⟩
      ⟨2, by norm_num⟩⟩

/-- C2. For valid `(H, Ah, Ab)` with `Ah ∣ Ab`, the four record start offsets
are `0`, `Ab`, `Ab + alignUp(H,Ah)` and `Ab + missSize`, each a multiple of
`Ah`; the three region start offsets are `0`, `rgenSize` and
`rgenSize + missSize`, each a multiple of `Ab`. -/
theorem sbt_offsets_aligned (H Ah Ab : Nat) (hv : ValidLimits H Ah Ab) (hd : Ah ∣ Ab) :
    recordOffsets (sbtLayout H Ah Ab) =
        [0, Ab, Ab + alignUp H Ah, Ab + (sbtLayout H Ah Ab).missSize] ∧
    regionOffsets (sbtLayout H Ah Ab) =
        [0, (sbtLayout H Ah Ab).rgenSize,
          (sbtLayout H Ah Ab).rgenSize + (sbtLayout H Ah Ab).missSize] ∧
    (∀ o ∈ recordOffsets (sbtLayout H Ah Ab), Ah ∣ o) ∧
    (∀ o ∈ regionOffsets (sbtLayout H Ah Ab), Ab ∣ o) := by
  obtain ⟨hAh, hAb, hfit⟩ := hv
  have hAblt : Ab < 2 ^ 32 := by omega
  have hAhlt : Ah < 2 ^ 32 := lt_of_le_of_lt (Nat.le_of_dvd hAb.pos hd) hAblt
  have h0 : mul32 0 (alignUp H Ah) = 0 := by simp [mul32]
  have h1 : mul32 1 (alignUp H Ah) = alignUp H Ah := by
    unfold mul32; rw [Nat.one_mul]; exact Nat.mod_eq_of_lt (alignUp_lt _ _)
  have hr : Ah ∣ alignUp H Ah := alignUp_dvd H Ah hAh hAhlt
  have hm : Ab ∣ alignUp (mul32 2 (alignUp H Ah)) Ab := alignUp_dvd _ Ab hAb hAblt
  refine ⟨by simp [recordOffsets, sbtLayout, h0, h1], rfl, ?_, ?_⟩
  · intro o ho
    simp only [recordOffsets, sbtLayout, h0, h1, List.mem_cons, List.mem_singleton,
      List.not_mem_nil, or_false, Nat.add_zero] at ho
    rcases ho with rfl | rfl | rfl | rfl
    · exact Nat.dvd_zero _
    · exact hd
    · exact Nat.dvd_add hd hr
    · exact Nat.dvd_add hd (Nat.dvd_trans hd hm)
  · intro o ho
    simp only [regionOffsets, sbtLayout, List.mem_cons, List.mem_singleton,
      List.not_mem_nil, or_false] at ho
    rcases ho with rfl | rfl | rfl
    · exact Nat.dvd_zero _
    · exact Nat.dvd_refl _
    · exact Nat.dvd_add (Nat.dvd_refl _) hm

/-- Witness for C2 at `H = 32`, `Ah = 32`, `Ab = 64`. -/
theorem sbt_offsets_aligned_witness :
    ValidLimits 32 32 64 ∧ 32 ∣ 64 ∧
    recordOffsets (sbtLayout 32 32 64) =
        [0, 64, 64 + alignUp 32 32, 64 + (sbtLayout 32 32 64).missSize] ∧
    regionOffsets (sbtLayout 32 32 64) =
        [0, (sbtLayout 32 32 64).rgenSize,
          (sbtLayout 32 32 64).rgenSize + (sbtLayout 32 32 64).missSize] ∧
    (∀ o ∈ recordOffsets (sbtLayout 32 32 64), 32 ∣ o) ∧
    (∀ o ∈ regionOffsets (sbtLayout 32 32 64), 64 ∣ o) :=
  ⟨⟨⟨5, by norm_num⟩, ⟨6, by norm_num⟩, by decide⟩, ⟨2, by norm_num⟩,
    sbt_offsets_aligned 32 32 64 ⟨⟨5, by norm_num⟩, ⟨6, by norm_num⟩, by decide⟩
      ⟨2, by norm_num⟩⟩

/-- Shape of a successful `buildSBT`: the region descriptors are the ones the
source assigns from the layout and the buffer address. -/
theorem buildSBT_ok_regions (H Ah Ab : Nat) (drv : SBTDriver) (s : SBT)
    (hs : buildSBT H Ah Ab drv = .ok s) :
    ∃ base, drv.sbtAddress = some base ∧
      s.layout = sbtLayout H Ah Ab ∧
      s.rgenRegion = { deviceAddress := base, stride := (sbtLayout H Ah Ab).rgenSize,
                       size := (sbtLayout H Ah Ab).rgenSize } ∧
      s.missRegion = { deviceAddress := add64 base (sbtLayout H Ah Ab).rgenSize,
                       stride := (sbtLayout H Ah Ab).handleSizeAlgn,
                       size := (sbtLayout H Ah Ab).missSize } ∧
      s.hitRegion = { deviceAddress :=
                        add64 (add64 base (sbtLayout H Ah Ab).rgenSize)
                          (sbtLayout H Ah Ab).missSize,
                      stride := (sbtLayout H Ah Ab).handleSizeAlgn,
                      size := (sbtLayout H Ah Ab).hitSize } ∧
      s.callRegion = { deviceAddress := 0, stride := 0, size := 0 } := by
  unfold buildSBT at hs
  simp only at hs
  split at hs
  · cases hs
  · split at hs
    · cases hs
    · split at hs
      · cases hs
      · split at hs
        · cases hs
        · rename_i base hbase
          injection hs with hs
          subst hs
          exact ⟨base, hbase, rfl, rfl, rfl, rfl, rfl⟩

theorem dvd_add64 (a x y : Nat) (ha : IsPow2 a) (hlt : a < 2 ^ 32) (hx : a ∣ x)
    (hy : a ∣ y) : a ∣ add64 x y := by
  obtain ⟨k, rfl⟩ := ha
  unfold add64
  have h64 : 2 ^ k ∣ 2 ^ 64 :=
    Nat.pow_dvd_pow 2 (by have := pow2_lt_iff k hlt; omega)
  exact (Nat.dvd_mod_iff h64).2 (Nat.dvd_add hx hy)

/-- The claim C3 as stated fails: for the valid limits `(32, 32, 64)` and the
buffer address `4112` (a multiple of 16, not of 64) the generation region starts
at `4112`, which is not a multiple of the base alignment `64`. -/
theorem sbt_region_address_counterexample :
    ValidLimits 32 32 64 ∧
    ∃ s, buildSBT 32 32 64
          { handles := some (List.replicate 128 0), stagingOk := true,
            sbtAddress := some 4112 } = .ok s ∧
      ¬ 64 ∣ s.rgenRegion.deviceAddress :=
  ⟨⟨⟨5, by norm_num⟩, ⟨6, by norm_num⟩, by decide⟩, _, rfl, by decide⟩

/-- C3 (amended). When the device address returned for the dispatch-table
buffer is itself a multiple of the base alignment `Ab` (limits valid), every
non-empty region descriptor produced by `buildSBT` has a `deviceAddress` that is
a multiple of `Ab`. -/
theorem sbt_region_address_aligned (H Ah Ab : Nat) (drv : SBTDriver) (s : SBT)
    (base : Nat) (hv : ValidLimits H Ah Ab) (hb : drv.sbtAddress = some base)
    (hbase : Ab ∣ base) (hs : buildSBT H Ah Ab drv = .ok s) :
    Ab ∣ s.rgenRegion.deviceAddress ∧ Ab ∣ s.missRegion.deviceAddress ∧
      Ab ∣ s.hitRegion.deviceAddress := by
  obtain ⟨base', hb', -, hr, hm, hh, -⟩ := buildSBT_ok_regions H Ah Ab drv s hs
  rw [hb] at hb'
  injection hb' with hb'
  subst hb'
  obtain ⟨-, hAb, hfit⟩ := hv
  have hAblt : Ab < 2 ^ 32 := by omega
  have hmiss : Ab ∣ (sbtLayout H Ah Ab).missSize := alignUp_dvd _ Ab hAb hAblt
  have hrg : (sbtLayout H Ah Ab).rgenSize = Ab := rfl
  have h1 : Ab ∣ add64 base (sbtLayout H Ah Ab).rgenSize :=
    dvd_add64 Ab _ _ hAb hAblt hbase (by rw [hrg])
  rw [hr, hm, hh]
  exact ⟨hbase, h1, dvd_add64 Ab _ _ hAb hAblt h1 hmiss⟩

/-- Witness for C3 (amended): limits `(32, 32, 64)`, buffer address `4096`. -/
theorem sbt_region_address_aligned_witness :
    ValidLimits 32 32 64 ∧ 64 ∣ 4096 ∧
    ∃ s, buildSBT 32 32 64
          { handles := some (List.replicate 128 0), stagingOk := true,
            sbtAddress := some 4096 } = .ok s ∧
      64 ∣ s.rgenRegion.deviceAddress ∧ 64 ∣ s.missRegion.deviceAddress ∧
        64 ∣ s.hitRegion.deviceAddress :=
  ⟨⟨⟨5, by norm_num⟩, ⟨6, by norm_num⟩, by decide⟩, ⟨64, by norm_num⟩, _, rfl,
    sbt_region_address_aligned 32 32 64
      { handles := some (List.replicate 128 0), stagingOk := true,
        sbtAddress := some 4096 } _ 4096
      ⟨⟨5, by norm_num⟩, ⟨6, by norm_num⟩, by decide⟩ rfl ⟨64, by norm_num⟩ rfl⟩

/-! ## Byte-vector facts for the packing -/

theorem memcpyAt_eq_some (dst src : List Nat) (off : Nat)
    (h : off + src.length ≤ dst.length) :
    memcpyAt dst off src = some (dst.take off ++ src ++ dst.drop (off + src.length)) := by
  simp [memcpyAt, h]

theorem memcpyAt_length (dst src r : List Nat) (off : Nat)
    (h : memcpyAt dst off src = some r) : r.length = dst.length := by
  unfold memcpyAt at h
  split at h
  · injection h with h
    subst h
    simp
    omega
  · cases h

theorem memcpyAt_getElem?_outside (dst src r : List Nat) (off p : Nat)
    (h : memcpyAt dst off src = some r) (hp : p < off ∨ off + src.length ≤ p) :
    r[p]? = dst[p]? := by
  unfold memcpyAt at h
  split at h
  · rename_i hle
    injection h with h
    subst h
    rcases hp with hp | hp
    · rw [List.append_assoc, List.getElem?_append_left (by simp; omega),
        List.getElem?_take_of_lt hp]
    · rw [List.getElem?_append_right (by simp; omega), List.getElem?_drop]
      congr 1
      simp
      omega
  · cases h

theorem memcpyAt_getElem?_inside (dst src r : List Nat) (off i : Nat)
    (h : memcpyAt dst off src = some r) (hi : i < src.length) :
    r[off + i]? = src[i]? := by
  unfold memcpyAt at h
  split at h
  · rename_i hle
    injection h with h
    subst h
    rw [List.getElem?_append_left (by simp; omega),
      List.getElem?_append_right (by simp)]
    congr 1
    simp only [List.length_take]
    omega
  · cases h

theorem readAt_getElem? (buf l : List Nat) (o n : Nat) (h : readAt buf o n = some l)
    (i : Nat) : l[i]? = if i < n then buf[o + i]? else none := by
  unfold readAt at h
  split at h
  · injection h with h
    subst h
    rw [List.getElem?_take]
    split
    · rw [List.getElem?_drop]
    · rfl
  · cases h

theorem readAt_eq_some (buf : List Nat) (o n : Nat) (h : o + n ≤ buf.length) :
    readAt buf o n = some ((buf.drop o).take n) := by
  simp [readAt, h]

/-- Reading back exactly what a `memcpy` wrote. -/
theorem readAt_memcpyAt_same (dst src r : List Nat) (off : Nat)
    (h : memcpyAt dst off src = some r) : readAt r off src.length = some src := by
  have hlen := memcpyAt_length dst src r off h
  have hle : off + src.length ≤ dst.length := by
    unfold memcpyAt at h
    split at h
    · assumption
    · cases h
  rw [readAt_eq_some r off _ (by omega)]
  congr 1
  apply List.ext_getElem?
  intro i
  rw [List.getElem?_take]
  split
  · rename_i hi
    rw [List.getElem?_drop, memcpyAt_getElem?_inside dst src r off i h hi]
  · rename_i hi
    rw [List.getElem?_eq_none (by omega)]

/-- A `memcpy` does not change what is read from a range it does not touch. -/
theorem readAt_memcpyAt_disjoint (dst src r : List Nat) (off o n : Nat)
    (h : memcpyAt dst off src = some r) (hd : o + n ≤ off ∨ off + src.length ≤ o) :
    readAt r o n = readAt dst o n := by
  have hlen := memcpyAt_length dst src r off h
  unfold readAt
  rw [hlen]
  split
  · congr 1
    apply List.ext_getElem?
    intro i
    rw [List.getElem?_take, List.getElem?_take]
    split
    · rw [List.getElem?_drop, List.getElem?_drop]
      exact memcpyAt_getElem?_outside dst src r off (o + i) h (by omega)
    · rfl
  · rfl

theorem memcpyAt_isSome (dst src : List Nat) (off : Nat)
    (h : off + src.length ≤ dst.length) : ∃ r, memcpyAt dst off src = some r :=
  ⟨_, memcpyAt_eq_some dst src off h⟩

theorem groupHandle_length (handles : List Nat) (H g : Nat)
    (hlen : handles.length = GROUP_COUNT * H) (hg : g < GROUP_COUNT) :
    (groupHandle handles H g).length = H := by
  unfold groupHandle
  simp only [List.length_take, List.length_drop, hlen, GROUP_COUNT] at *
  have : g * H + H ≤ 4 * H := by nlinarith
  omega

theorem copyHandle_eq_memcpyAt (handles sbt : List Nat) (H off g : Nat)
    (hlen : handles.length = GROUP_COUNT * H) (hfit : GROUP_COUNT * H < 2 ^ 32)
    (hg : g < GROUP_COUNT) :
    copyHandle handles H sbt off g = memcpyAt sbt off (groupHandle handles H g) := by
  have hle : g * H + H ≤ GROUP_COUNT * H := by
    simp only [GROUP_COUNT] at *; nlinarith
  have hm : mul32 g H = g * H := by
    unfold mul32; exact Nat.mod_eq_of_lt (by omega)
  unfold copyHandle
  rw [hm, readAt_eq_some handles (g * H) H (by omega)]
  rfl

/-- The packing of `buildSBT` written as four successive `memcpy`s, for limits
under which the 32-bit layout computation is exact. -/
theorem buildSBT_pack (H Ah Ab base : Nat) (handles : List Nat)
    (hv : ValidLimits H Ah Ab) (hd : Ah ∣ Ab) (hH : H ≤ Ab)
    (hlen : handles.length = GROUP_COUNT * H) :
    ∃ s1 s2 s3 s4,
      memcpyAt (List.replicate (sbtLayout H Ah Ab).totalSize 0) 0
        (groupHandle handles H GROUP_RGEN) = some s1 ∧
      memcpyAt s1 Ab (groupHandle handles H GROUP_MISS_SKY) = some s2 ∧
      memcpyAt s2 (Ab + roundUp H Ah) (groupHandle handles H GROUP_MISS_SHADOW) = some s3 ∧
      memcpyAt s3 (Ab + roundUp (2 * roundUp H Ah) Ab)
        (groupHandle handles H GROUP_HIT) = some s4 ∧
      buildSBT H Ah Ab { handles := some handles, stagingOk := true, sbtAddress := some base }
        = .ok { layout := sbtLayout H Ah Ab
                table := s4
                rgenRegion := { deviceAddress := base, stride := Ab, size := Ab }
                missRegion := { deviceAddress := add64 base Ab, stride := roundUp H Ah,
                                size := roundUp (2 * roundUp H Ah) Ab }
                hitRegion := { deviceAddress :=
                                 add64 (add64 base Ab) (roundUp (2 * roundUp H Ah) Ab),
                               stride := roundUp H Ah,
                               size := roundUp (roundUp H Ah) Ab }
                callRegion := {} } := by
  have hL := sbtLayout_exact H Ah Ab hv hd
  obtain ⟨hAh, hAb, hfit⟩ := hv
  have h1 := le_roundUp H Ah hAh.pos
  have h2 := le_roundUp (roundUp H Ah) Ab hAb.pos
  have h3 := le_roundUp (2 * roundUp H Ah) Ab hAb.pos
  have h4H : GROUP_COUNT * H < 2 ^ 32 := by simp only [GROUP_COUNT]; omega
  have hT : (sbtLayout H Ah Ab).totalSize
      = Ab + roundUp (2 * roundUp H Ah) Ab + roundUp (roundUp H Ah) Ab := by rw [hL]
  have g0 := groupHandle_length handles H GROUP_RGEN hlen (by decide)
  have g1 := groupHandle_length handles H GROUP_MISS_SKY hlen (by decide)
  have g2 := groupHandle_length handles H GROUP_MISS_SHADOW hlen (by decide)
  have g3 := groupHandle_length handles H GROUP_HIT hlen (by decide)
  obtain ⟨s1, e1⟩ := memcpyAt_isSome (List.replicate (sbtLayout H Ah Ab).totalSize 0)
    (groupHandle handles H GROUP_RGEN) 0 (by simp only [List.length_replicate]; omega)
  have l1 := memcpyAt_length _ _ _ _ e1
  simp only [List.length_replicate] at l1
  obtain ⟨s2, e2⟩ := memcpyAt_isSome s1 (groupHandle handles H GROUP_MISS_SKY) Ab (by omega)
  have l2 := memcpyAt_length _ _ _ _ e2
  obtain ⟨s3, e3⟩ := memcpyAt_isSome s2 (groupHandle handles H GROUP_MISS_SHADOW)
    (Ab + roundUp H Ah) (by omega)
  have l3 := memcpyAt_length _ _ _ _ e3
  obtain ⟨s4, e4⟩ := memcpyAt_isSome s3 (groupHandle handles H GROUP_HIT)
    (Ab + roundUp (2 * roundUp H Ah) Ab) (by omega)
  refine ⟨s1, s2, s3, s4, e1, e2, e3, e4, ?_⟩
  have m0 : mul32 0 (roundUp H Ah) = 0 := by simp [mul32]
  have m1 : mul32 1 (roundUp H Ah) = roundUp H Ah := by
    unfold mul32; rw [Nat.one_mul]; exact Nat.mod_eq_of_lt (by omega)
  have hvec : handleVector H handles = handles := by
    unfold handleVector mul32
    rw [Nat.mod_eq_of_lt h4H, ← hlen]
    simp
  have hrg : (sbtLayout H Ah Ab).rgenSize = Ab := rfl
  have hhs : (sbtLayout H Ah Ab).handleSizeAlgn = roundUp H Ah := by rw [hL]
  have hms : (sbtLayout H Ah Ab).missSize = roundUp (2 * roundUp H Ah) Ab := by rw [hL]
  have hhi : (sbtLayout H Ah Ab).hitSize = roundUp (roundUp H Ah) Ab := by rw [hL]
  unfold buildSBT
  simp only [hvec, hrg, hhs, hms, hhi, m0, m1, Nat.add_zero,
    copyHandle_eq_memcpyAt handles _ H _ _ hlen h4H (show GROUP_RGEN < GROUP_COUNT by decide),
    copyHandle_eq_memcpyAt handles _ H _ _ hlen h4H (show GROUP_MISS_SKY < GROUP_COUNT by decide),
    copyHandle_eq_memcpyAt handles _ H _ _ hlen h4H
      (show GROUP_MISS_SHADOW < GROUP_COUNT by decide),
    copyHandle_eq_memcpyAt handles _ H _ _ hlen h4H (show GROUP_HIT < GROUP_COUNT by decide),
    Bool.not_true, Bool.false_eq_true]
  simp only [e1, Option.some_bind, e2, e3, e4, if_false]

/-! ## Packing then reading (C4) -/

/-- The claim C4 as stated fails: for the limits `(H, Ah, Ab) = (32, 16, 16)`
(powers of two, `Ah ∣ Ab`, table of 112 bytes) the generation record `[0, 32)`
overlaps the first miss record `[16, 48)`, and reading 32 bytes at the start of
the generation region does not return the handle of group 0. -/
theorem sbt_round_trip_counterexample :
    ValidLimits 32 16 16 ∧ 16 ∣ 16 ∧
    ∃ s, buildSBT 32 16 16
          { handles := some (distinctHandles 32), stagingOk := true,
            sbtAddress := some 4096 } = .ok s ∧
      readAt s.table (s.rgenRegion.deviceAddress - 4096 + 0 * s.rgenRegion.stride) 32
        ≠ some (groupHandle (distinctHandles 32) 32 GROUP_RGEN) :=
  ⟨⟨⟨4, by norm_num⟩, ⟨4, by norm_num⟩, by decide⟩, ⟨1, by norm_num⟩, _, rfl, by decide⟩

/-- C4 (amended). For valid `(H, Ah, Ab)` with `Ah ∣ Ab` and `H ≤ Ab`, every
array of 4 group handles of `H` bytes and every buffer placed below `2^64`:
`buildSBT` succeeds; reading `H` bytes of the packed table at
`(region.deviceAddress - base) + i * region.stride` returns the handle of group
0 for the generation region (`i = 0`), of groups 1 and 2 for the miss region
(`i = 0, 1`) and of group 3 for the hit region (`i = 0`); the four record
ranges are pairwise disjoint and inside the table; every byte outside them is
zero; the callable region descriptor is all zero. -/
theorem sbt_round_trip (H Ah Ab base : Nat) (handles : List Nat)
    (hv : ValidLimits H Ah Ab) (hd : Ah ∣ Ab) (hH : H ≤ Ab)
    (hlen : handles.length = GROUP_COUNT * H)
    (hbase : base + (sbtLayout H Ah Ab).totalSize < 2 ^ 64) :
    ∃ s, buildSBT H Ah Ab
          { handles := some handles, stagingOk := true, sbtAddress := some base } = .ok s ∧
      s.table.length = (sbtLayout H Ah Ab).totalSize ∧
      readAt s.table (s.rgenRegion.deviceAddress - base + 0 * s.rgenRegion.stride) H
        = some (groupHandle handles H GROUP_RGEN) ∧
      readAt s.table (s.missRegion.deviceAddress - base + 0 * s.missRegion.stride) H
        = some (groupHandle handles H GROUP_MISS_SKY) ∧
      readAt s.table (s.missRegion.deviceAddress - base + 1 * s.missRegion.stride) H
        = some (groupHandle handles H GROUP_MISS_SHADOW) ∧
      readAt s.table (s.hitRegion.deviceAddress - base + 0 * s.hitRegion.stride) H
        = some (groupHandle handles H GROUP_HIT) ∧
      List.Pairwise (fun a b => a + H ≤ b ∨ b + H ≤ a) (recordOffsets s.layout) ∧
      (∀ o ∈ recordOffsets s.layout, o + H ≤ s.table.length) ∧
      (∀ p, p < s.table.length →
        (∀ o ∈ recordOffsets s.layout, p < o ∨ o + H ≤ p) → s.table[p]? = some 0) ∧
      s.callRegion = { deviceAddress := 0, stride := 0, size := 0 } := by
  obtain ⟨s1, s2, s3, s4, e1, e2, e3, e4, hb⟩ :=
    buildSBT_pack H Ah Ab base handles hv hd hH hlen
  have hL := sbtLayout_exact H Ah Ab hv hd
  obtain ⟨hAh, hAb, hfit⟩ := hv
  have h1 := le_roundUp H Ah hAh.pos
  have h2 := le_roundUp (roundUp H Ah) Ab hAb.pos
  have h3 := le_roundUp (2 * roundUp H Ah) Ab hAb.pos
  have hT : (sbtLayout H Ah Ab).totalSize
      = Ab + roundUp (2 * roundUp H Ah) Ab + roundUp (roundUp H Ah) Ab := by rw [hL]
  have g0 := groupHandle_length handles H GROUP_RGEN hlen (by decide)
  have g1 := groupHandle_length handles H GROUP_MISS_SKY hlen (by decide)
  have g2 := groupHandle_length handles H GROUP_MISS_SHADOW hlen (by decide)
  have g3 := groupHandle_length handles H GROUP_HIT hlen (by decide)
  have l1 := memcpyAt_length _ _ _ _ e1
  simp only [List.length_replicate] at l1
  have l2 := memcpyAt_length _ _ _ _ e2
  have l3 := memcpyAt_length _ _ _ _ e3
  have l4 := memcpyAt_length _ _ _ _ e4
  have a1 : add64 base Ab - base = Ab := by
    unfold add64; rw [Nat.mod_eq_of_lt (by omega)]; omega
  have a2 : add64 (add64 base Ab) (roundUp (2 * roundUp H Ah) Ab) - base
      = Ab + roundUp (2 * roundUp H Ah) Ab := by
    unfold add64
    rw [Nat.mod_eq_of_lt (a := base + Ab) (by omega), Nat.mod_eq_of_lt (by omega)]
    omega
  have offs : recordOffsets (sbtLayout H Ah Ab)
      = [0, Ab, Ab + roundUp H Ah, Ab + roundUp (2 * roundUp H Ah) Ab] := by
    have m0 : mul32 0 (roundUp H Ah) = 0 := by simp [mul32]
    have m1 : mul32 1 (roundUp H Ah) = roundUp H Ah := by
      unfold mul32; rw [Nat.one_mul]; exact Nat.mod_eq_of_lt (by omega)
    rw [hL]; simp [recordOffsets, m0, m1]
  refine ⟨_, hb, ?_, ?_, ?_, ?_, ?_, ?_, ?_, ?_, rfl⟩
  · show s4.length = _
    omega
  · show readAt s4 (base - base + 0 * Ab) H = _
    rw [Nat.sub_self, Nat.zero_mul, Nat.add_zero,
      readAt_memcpyAt_disjoint _ _ _ _ 0 H e4 (by omega),
      readAt_memcpyAt_disjoint _ _ _ _ 0 H e3 (by omega),
      readAt_memcpyAt_disjoint _ _ _ _ 0 H e2 (by omega)]
    have := readAt_memcpyAt_same _ _ _ _ e1
    rwa [g0] at this
  · show readAt s4 (add64 base Ab - base + 0 * roundUp H Ah) H = _
    rw [a1, Nat.zero_mul, Nat.add_zero,
      readAt_memcpyAt_disjoint _ _ _ _ Ab H e4 (by omega),
      readAt_memcpyAt_disjoint _ _ _ _ Ab H e3 (by omega)]
    have := readAt_memcpyAt_same _ _ _ _ e2
    rwa [g1] at this
  · show readAt s4 (add64 base Ab - base + 1 * roundUp H Ah) H = _
    rw [a1, Nat.one_mul,
      readAt_memcpyAt_disjoint _ _ _ _ (Ab + roundUp H Ah) H e4 (by omega)]
    have := readAt_memcpyAt_same _ _ _ _ e3
    rwa [g2] at this
  · show readAt s4 (add64 (add64 base Ab) (roundUp (2 * roundUp H Ah) Ab) - base
        + 0 * roundUp H Ah) H = _
    rw [a2, Nat.zero_mul, Nat.add_zero]
    have := readAt_memcpyAt_same _ _ _ _ e4
    rwa [g3] at this
  · show List.Pairwise _ (recordOffsets (sbtLayout H Ah Ab))
    rw [offs]
    simp only [List.pairwise_cons, List.mem_cons, List.mem_singleton, List.not_mem_nil,
      or_false, forall_eq_or_imp, forall_eq, List.Pairwise.nil, and_true, false_implies,
      implies_true]
    omega
  · show ∀ o ∈ recordOffsets (sbtLayout H Ah Ab), o + H ≤ s4.length
    rw [offs]
    simp only [List.mem_cons, List.mem_singleton, List.not_mem_nil, or_false,
      forall_eq_or_imp, forall_eq]
    omega
  · show ∀ p, p < s4.length →
      (∀ o ∈ recordOffsets (sbtLayout H Ah Ab), p < o ∨ o + H ≤ p) → s4[p]? = some 0
    rw [offs]
    intro p hp hout
    simp only [List.mem_cons, List.mem_singleton, List.not_mem_nil, or_false,
      forall_eq_or_imp, forall_eq] at hout
    rw [memcpyAt_getElem?_outside _ _ _ _ p e4 (by omega),
      memcpyAt_getElem?_outside _ _ _ _ p e3 (by omega),
      memcpyAt_getElem?_outside _ _ _ _ p e2 (by omega),
      memcpyAt_getElem?_outside _ _ _ _ p e1 (by omega),
      List.getElem?_replicate]
    simp
    omega

/-- Witness for C4 (amended): limits `(32, 32, 64)`, four distinct handles,
buffer at address `4096`. -/
theorem sbt_round_trip_witness :
    ValidLimits 32 32 64 ∧ 32 ∣ 64 ∧ 32 ≤ 64 ∧
    (distinctHandles 32).length = GROUP_COUNT * 32 ∧
    4096 + (sbtLayout 32 32 64).totalSize < 2 ^ 64 ∧
    ∃ s, buildSBT 32 32 64
          { handles := some (distinctHandles 32), stagingOk := true,
            sbtAddress := some 4096 } = .ok s ∧
      s.table.length = (sbtLayout 32 32 64).totalSize ∧
      readAt s.table (s.rgenRegion.deviceAddress - 4096 + 0 * s.rgenRegion.stride) 32
        = some (groupHandle (distinctHandles 32) 32 GROUP_RGEN) ∧
      readAt s.table (s.missRegion.deviceAddress - 4096 + 0 * s.missRegion.stride) 32
        = some (groupHandle (distinctHandles 32) 32 GROUP_MISS_SKY) ∧
      readAt s.table (s.missRegion.deviceAddress - 4096 + 1 * s.missRegion.stride) 32
        = some (groupHandle (distinctHandles 32) 32 GROUP_MISS_SHADOW) ∧
      readAt s.table (s.hitRegion.deviceAddress - 4096 + 0 * s.hitRegion.stride) 32
        = some (groupHandle (distinctHandles 32) 32 GROUP_HIT) ∧
      List.Pairwise (fun a b => a + 32 ≤ b ∨ b + 32 ≤ a) (recordOffsets s.layout) ∧
      (∀ o ∈ recordOffsets s.layout, o + 32 ≤ s.table.length) ∧
      (∀ p, p < s.table.length →
        (∀ o ∈ recordOffsets s.layout, p < o ∨ o + 32 ≤ p) → s.table[p]? = some 0) ∧
      s.callRegion = { deviceAddress := 0, stride := 0, size := 0 } :=
  ⟨⟨⟨5, by norm_num⟩, ⟨6, by norm_num⟩, by decide⟩, ⟨2, by norm_num⟩, by decide, rfl,
    by decide,
    sbt_round_trip 32 32 64 4096 (distinctHandles 32)
      ⟨⟨5, by norm_num⟩, ⟨6, by norm_num⟩, by decide⟩ ⟨2, by norm_num⟩ (by decide) rfl
      (by decide)⟩

/-! ## Frame orchestration: facts about `drawFrame` -/

theorem getElem?_of_lt_length {α : Type} (l : List α) (i : Nat) (h : i < l.length) :
    ∃ x, l[i]? = some x :=
  ⟨l[i], List.getElem?_eq_getElem h⟩

/-- The early-return path of `drawFrame`. -/
theorem drawFrame_of_stale (ctx : FrameCtx) (r : Renderer) (acq : AcquireResult)
    (moved : Bool) (fence sem : Nat)
    (hf : r.inFlightFences[r.currentFrame]? = some fence)
    (hsem : r.imageAvailableSems[r.currentFrame]? = some sem)
    (hst : isStale acq.res = true) :
    drawFrame ctx r acq moved
      = some (r, [Event.waitForFences fence, Event.acquireNextImage sem]) := by
  simp [drawFrame, hf, hsem, hst]

/-- The full path of `drawFrame`, with every array access resolved. -/
theorem drawFrame_of_not_stale (ctx : FrameCtx) (r : Renderer) (acq : AcquireResult)
    (moved : Bool) (fence sem prev ds cmd img rf : Nat)
    (hf : r.inFlightFences[r.currentFrame]? = some fence)
    (hsem : r.imageAvailableSems[r.currentFrame]? = some sem)
    (hst : isStale acq.res = false)
    (hprev : r.imagesInFlight[acq.imageIndex]? = some prev)
    (hds : r.descriptorSets[r.currentFrame]? = some ds)
    (hcmd : r.commandBuffers[r.currentFrame]? = some cmd)
    (himg : ctx.swapchainImages[acq.imageIndex]? = some img)
    (hrf : r.renderFinishedSems[acq.imageIndex]? = some rf) :
    drawFrame ctx r acq moved
      = some
          ({ r with imagesInFlight := r.imagesInFlight.set acq.imageIndex fence
                    sampleCount := if moved then 0 else add32 r.sampleCount 1
                    currentFrame := add32 r.currentFrame 1 % MAX_FRAMES_IN_FLIGHT },
           [Event.waitForFences fence, Event.acquireNextImage sem] ++
             (if prev ≠ VK_NULL_HANDLE then [Event.waitForFences prev] else []) ++
             [Event.setImageInFlight acq.imageIndex fence,
              Event.resetFences fence,
              Event.writeCameraUBO r.currentFrame r.sampleCount r.currentFrame,
              Event.resetCommandBuffer cmd,
              Event.beginCommandBuffer cmd] ++
             (frameCommands ctx r.storageImage ds img).map (Event.record cmd) ++
             [Event.endCommandBuffer cmd,
              Event.queueSubmit sem .rayTracingShader cmd rf fence,
              Event.queuePresent rf acq.imageIndex]) := by
  simp [drawFrame, hf, hsem, hst, hprev, hds, hcmd, himg, hrf]

/-- A well-formed renderer completes every cycle whose acquired index is a
swapchain image index, and stays well formed. -/
theorem drawFrame_total (ctx : FrameCtx) (r : Renderer) (acq : AcquireResult)
    (moved : Bool) (hwf : r.WellFormed ctx)
    (hk : isStale acq.res = true ∨ acq.imageIndex < ctx.swapchainImages.length) :
    ∃ r' trace, drawFrame ctx r acq moved = some (r', trace) ∧ r'.WellFormed ctx := by
  obtain ⟨h1, h2, h3, h4, h5, h6, h7⟩ := hwf
  obtain ⟨fence, hf⟩ := getElem?_of_lt_length r.inFlightFences r.currentFrame (by omega)
  obtain ⟨sem, hsem⟩ := getElem?_of_lt_length r.imageAvailableSems r.currentFrame (by omega)
  cases hst : isStale acq.res
  · have hk' : acq.imageIndex < ctx.swapchainImages.length := by
      rcases hk with hk | hk
      · rw [hst] at hk; cases hk
      · exact hk
    obtain ⟨prev, hprev⟩ := getElem?_of_lt_length r.imagesInFlight acq.imageIndex (by omega)
    obtain ⟨ds, hds⟩ := getElem?_of_lt_length r.descriptorSets r.currentFrame (by omega)
    obtain ⟨cmd, hcmd⟩ := getElem?_of_lt_length r.commandBuffers r.currentFrame (by omega)
    obtain ⟨img, himg⟩ := getElem?_of_lt_length ctx.swapchainImages acq.imageIndex hk'
    obtain ⟨rf, hrf⟩ := getElem?_of_lt_length r.renderFinishedSems acq.imageIndex (by omega)
    refine ⟨_, _, drawFrame_of_not_stale ctx r acq moved fence sem prev ds cmd img rf
      hf hsem hst hprev hds hcmd himg hrf, ?_⟩
    refine ⟨?_, h2, h3, h4, h5, h6, ?_⟩
    · exact Nat.mod_lt _ (by decide)
    · simpa using h7
  · exact ⟨_, _, drawFrame_of_stale ctx r acq moved fence sem hf hsem hst,
      h1, h2, h3, h4, h5, h6, h7⟩

theorem init_wellFormed (ctx : FrameCtx) (h : InitHandles)
    (hds : h.descriptorSets.length = MAX_FRAMES_IN_FLIGHT)
    (hcb : h.commandBuffers.length = MAX_FRAMES_IN_FLIGHT)
    (himg : ctx.swapchainImages.length < 2 ^ 32) :
    (Renderer.init ctx h).WellFormed ctx := by
  unfold Renderer.init createSyncObjects Renderer.WellFormed
  simp only [Nat.mod_eq_of_lt himg]
  simp [hds, hcb, MAX_FRAMES_IN_FLIGHT]

/-- In a list with a single element satisfying `p`, the position of that
element is determined. -/
theorem append_cons_unique {α : Type} (p : α → Prop) (A B : List α) (x : α)
    (hA : ∀ a ∈ A, ¬ p a) (hB : ∀ b ∈ B, ¬ p b) :
    ∀ (pre post : List α) (y : α), p y → A ++ x :: B = pre ++ y :: post →
      pre = A ∧ y = x ∧ post = B := by
  induction A with
  | nil =>
    intro pre post y hy h
    cases pre with
    | nil =>
      simp only [List.nil_append, List.cons.injEq] at h
      exact ⟨rfl, h.1.symm, h.2.symm⟩
    | cons a pre =>
      simp only [List.nil_append, List.cons_append, List.cons.injEq] at h
      exact absurd hy (hB y (by rw [h.2]; simp))
  | cons a A ih =>
    intro pre post y hy h
    cases pre with
    | nil =>
      simp only [List.nil_append, List.cons_append, List.cons.injEq] at h
      exact absurd hy (by rw [← h.1]; exact hA a (by simp))
    | cons b pre =>
      simp only [List.cons_append, List.cons.injEq] at h
      obtain ⟨e1, e2, e3⟩ :=
        ih (fun a' ha' => hA a' (List.mem_cons_of_mem _ ha')) pre post y hy h.2
      exact ⟨by rw [h.1, e1], e2, e3⟩

/-- Inversion of `drawFrame`: a call that returns took either the early-return
path or the full path, with every array access in range. -/
theorem drawFrame_inv (ctx : FrameCtx) (r r' : Renderer) (acq : AcquireResult)
    (moved : Bool) (trace : List Event)
    (h : drawFrame ctx r acq moved = some (r', trace)) :
    ∃ fence sem, r.inFlightFences[r.currentFrame]? = some fence ∧
      r.imageAvailableSems[r.currentFrame]? = some sem ∧
      ((isStale acq.res = true ∧ r' = r ∧
          trace = [Event.waitForFences fence, Event.acquireNextImage sem]) ∨
       (isStale acq.res = false ∧
        ∃ prev ds cmd img rf,
          r.imagesInFlight[acq.imageIndex]? = some prev ∧
          r.descriptorSets[r.currentFrame]? = some ds ∧
          r.commandBuffers[r.currentFrame]? = some cmd ∧
          ctx.swapchainImages[acq.imageIndex]? = some img ∧
          r.renderFinishedSems[acq.imageIndex]? = some rf ∧
          r' = { r with imagesInFlight := r.imagesInFlight.set acq.imageIndex fence
                        sampleCount := if moved then 0 else add32 r.sampleCount 1
                        currentFrame := add32 r.currentFrame 1 % MAX_FRAMES_IN_FLIGHT } ∧
          trace =
            ([Event.waitForFences fence, Event.acquireNextImage sem] ++
              (if prev ≠ VK_NULL_HANDLE then [Event.waitForFences prev] else [])) ++
            Event.setImageInFlight acq.imageIndex fence ::
              ([Event.resetFences fence,
                Event.writeCameraUBO r.currentFrame r.sampleCount r.currentFrame,
                Event.resetCommandBuffer cmd,
                Event.beginCommandBuffer cmd] ++
               (frameCommands ctx r.storageImage ds img).map (Event.record cmd) ++
               [Event.endCommandBuffer cmd,
                Event.queueSubmit sem .rayTracingShader cmd rf fence,
                Event.queuePresent rf acq.imageIndex]))) := by
  cases hf : r.inFlightFences[r.currentFrame]? with
  | none => simp [drawFrame, hf] at h
  | some fence =>
  cases hsem : r.imageAvailableSems[r.currentFrame]? with
  | none => simp [drawFrame, hf, hsem] at h
  | some sem =>
  refine ⟨fence, sem, rfl, rfl, ?_⟩
  cases hst : isStale acq.res with
  | true =>
    rw [drawFrame_of_stale ctx r acq moved fence sem hf hsem hst] at h
    injection h with h
    injection h with h1 h2
    exact Or.inl ⟨rfl, h1.symm, h2.symm⟩
  | false =>
  cases hprev : r.imagesInFlight[acq.imageIndex]? with
  | none => simp [drawFrame, hf, hsem, hst, hprev] at h
  | some prev =>
  cases hds : r.descriptorSets[r.currentFrame]? with
  | none => simp [drawFrame, hf, hsem, hst, hprev, hds] at h
  | some ds =>
  cases hcmd : r.commandBuffers[r.currentFrame]? with
  | none => simp [drawFrame, hf, hsem, hst, hprev, hds, hcmd] at h
  | some cmd =>
  cases himg : ctx.swapchainImages[acq.imageIndex]? with
  | none => simp [drawFrame, hf, hsem, hst, hprev, hds, hcmd, himg] at h
  | some img =>
  cases hrf : r.renderFinishedSems[acq.imageIndex]? with
  | none => simp [drawFrame, hf, hsem, hst, hprev, hds, hcmd, himg, hrf] at h
  | some rf =>
    rw [drawFrame_of_not_stale ctx r acq moved fence sem prev ds cmd img rf
      hf hsem hst hprev hds hcmd himg hrf] at h
    injection h with h
    injection h with h1 h2
    refine Or.inr ⟨rfl, prev, ds, cmd, img, rf, rfl, rfl, rfl, rfl, rfl, h1.symm, ?_⟩
    rw [← h2]
    simp

/-- Being an assignment to `imagesInFlight`. -/
theorem not_rebind_of_mem_tail (ctx : FrameCtx) (storageImage ds img cmd sem rf fence : Nat)
    (slot sc fi k : Nat) :
    ∀ b ∈ ([Event.resetFences fence, Event.writeCameraUBO slot sc fi,
            Event.resetCommandBuffer cmd, Event.beginCommandBuffer cmd] ++
           (frameCommands ctx storageImage ds img).map (Event.record cmd) ++
           [Event.endCommandBuffer cmd,
            Event.queueSubmit sem .rayTracingShader cmd rf fence,
            Event.queuePresent rf k]),
      ¬ ∃ k' f', b = Event.setImageInFlight k' f' := by
  intro b hb
  rintro ⟨k', f', rfl⟩
  simp [frameCommands] at hb

/-- One cycle: the assignment `imagesInFlight[k] = inFlightFences[f]` happens
once, for the acquired index, and when the previous value is not null a wait on
that previous fence comes earlier in the same cycle. -/
theorem drawFrame_rebind (ctx : FrameCtx) (r r' : Renderer) (acq : AcquireResult)
    (moved : Bool) (trace : List Event)
    (h : drawFrame ctx r acq moved = some (r', trace))
    (pre post : List Event) (k fence : Nat)
    (hsplit : trace = pre ++ Event.setImageInFlight k fence :: post) :
    k = acq.imageIndex ∧
    r.inFlightFences[r.currentFrame]? = some fence ∧
    r'.imagesInFlight = r.imagesInFlight.set k fence ∧
    ∃ prev, r.imagesInFlight[k]? = some prev ∧
      (prev = VK_NULL_HANDLE ∨ Event.waitForFences prev ∈ pre) := by
  obtain ⟨fence0, sem, hf, -, hcase⟩ := drawFrame_inv ctx r r' acq moved trace h
  rcases hcase with ⟨-, -, htr⟩ | ⟨-, prev, ds, cmd, img, rf, hprev, -, -, -, -, hr', htr⟩
  · rw [htr] at hsplit
    have hmem : Event.setImageInFlight k fence ∈
        [Event.waitForFences fence0, Event.acquireNextImage sem] := by
      rw [hsplit]; simp
    simp at hmem
  · rw [htr] at hsplit
    have hA : ∀ a ∈ ([Event.waitForFences fence0, Event.acquireNextImage sem] ++
        (if prev ≠ VK_NULL_HANDLE then [Event.waitForFences prev] else [])),
        ¬ ∃ k' f', a = Event.setImageInFlight k' f' := by
      intro a ha
      rintro ⟨k', f', rfl⟩
      split at ha <;> simp at ha
    obtain ⟨e1, e2, -⟩ :=
      append_cons_unique (fun e => ∃ k' f', e = Event.setImageInFlight k' f') _ _ _ hA
        (not_rebind_of_mem_tail ctx r.storageImage ds img cmd sem rf fence0
          r.currentFrame r.sampleCount r.currentFrame acq.imageIndex)
        pre post (Event.setImageInFlight k fence) ⟨k, fence, rfl⟩ hsplit
    injection e2 with hk hfe
    subst hk hfe
    refine ⟨rfl, hf, by rw [hr'], prev, hprev, ?_⟩
    by_cases hp : prev = VK_NULL_HANDLE
    · exact Or.inl hp
    · right
      rw [e1]
      simp [hp]

/-! ## Frame-slot reuse, stale surfaces, sample accumulation (C5–C7) -/

/-- C5. Frame-slot reuse safety.  From any well-formed renderer, any number of
consecutive successful `drawFrame` cycles (in particular `M > 2`) with any
sequence of acquired image indices run to completion, every cycle rebinds
`imagesInFlight[k]` exactly where the trace says so, and whenever
`imagesInFlight[k]` is reassigned to slot `f`'s fence its previous value is
either null or a fence that was waited on earlier in the same cycle. -/
theorem frame_slot_reuse_safety (ctx : FrameCtx) (inputs : List (AcquireResult × Bool)) :
    ∀ (r : Renderer), r.WellFormed ctx →
    (∀ x ∈ inputs, x.1.res = VkResult.success ∧
        x.1.imageIndex < ctx.swapchainImages.length) →
    ∃ recs rf, runFrames ctx r inputs = some (recs, rf) ∧
      recs.length = inputs.length ∧
      ∀ rec ∈ recs,
        (∃ pre post k fence, rec.2 = pre ++ Event.setImageInFlight k fence :: post) ∧
        ∀ pre post k fence, rec.2 = pre ++ Event.setImageInFlight k fence :: post →
          rec.1.inFlightFences[rec.1.currentFrame]? = some fence ∧
          ∃ prev, rec.1.imagesInFlight[k]? = some prev ∧
            (prev = VK_NULL_HANDLE ∨ Event.waitForFences prev ∈ pre) := by
  induction inputs with
  | nil =>
    intro r _ _
    exact ⟨[], r, rfl, rfl, by simp⟩
  | cons x rest ih =>
    intro r hwf hsucc
    obtain ⟨acq, moved⟩ := x
    have hx := hsucc (acq, moved) (by simp)
    have hst : isStale acq.res = false := by
      have : acq.res = VkResult.success := hx.1
      rw [this]; rfl
    obtain ⟨r', trace, hd, hwf'⟩ := drawFrame_total ctx r acq moved hwf (Or.inr hx.2)
    obtain ⟨recs, rf, hrun, hlen, hall⟩ :=
      ih r' hwf' (fun y hy => hsucc y (List.mem_cons_of_mem _ hy))
    refine ⟨(r, trace) :: recs, rf, ?_, by simp [hlen], ?_⟩
    · simp [runFrames, hd, hrun]
    · intro rec hrec
      rcases List.mem_cons.1 hrec with rfl | hrec
      · constructor
        · obtain ⟨fence, sem, -, -, hcase⟩ := drawFrame_inv ctx r r' acq moved trace hd
          rcases hcase with ⟨hs, -, -⟩ | ⟨-, prev, ds, cmd, img, rfs, -, -, -, -, -, -, htr⟩
          · rw [hst] at hs; cases hs
          · exact ⟨_, _, _, _, htr⟩
        · intro pre post k fence hsplit
          obtain ⟨-, hf, -, hprev⟩ :=
            drawFrame_rebind ctx r r' acq moved trace hd pre post k fence hsplit
          exact ⟨hf, hprev⟩
      · exact hall rec hrec

/-- Witness for C5: four successful cycles on a three-image swapchain, the
fourth one reusing image `0`. -/
theorem frame_slot_reuse_safety_witness :
    exampleRenderer.WellFormed exampleCtx ∧
    ∃ recs rf,
      runFrames exampleCtx exampleRenderer
        [(⟨.success, 0⟩, true), (⟨.success, 1⟩, false), (⟨.success, 2⟩, false),
         (⟨.success, 0⟩, false)] = some (recs, rf) ∧
      recs.length = 4 ∧
      ∀ rec ∈ recs,
        (∃ pre post k fence, rec.2 = pre ++ Event.setImageInFlight k fence :: post) ∧
        ∀ pre post k fence, rec.2 = pre ++ Event.setImageInFlight k fence :: post →
          rec.1.inFlightFences[rec.1.currentFrame]? = some fence ∧
          ∃ prev, rec.1.imagesInFlight[k]? = some prev ∧
            (prev = VK_NULL_HANDLE ∨ Event.waitForFences prev ∈ pre) :=
  ⟨init_wellFormed exampleCtx exampleHandles rfl rfl (by decide),
   frame_slot_reuse_safety exampleCtx _ exampleRenderer
    (init_wellFormed exampleCtx exampleHandles rfl rfl (by decide))
    (by decide)⟩

/-- C6. When image acquisition reports a stale or suboptimal surface, the
cycle consists of the wait on slot `f`'s fence and the acquire call only:
nothing is recorded, submitted or presented, no fence is reset (replaying the
trace leaves every fence status as it was), and the `Renderer` state, hence
`currentFrame`, `sampleCount` and `imagesInFlight`, is unchanged. -/
theorem drawFrame_stale_surface (ctx : FrameCtx) (r : Renderer) (acq : AcquireResult)
    (moved : Bool) (hwf : r.WellFormed ctx)
    (hst : acq.res = VkResult.errorOutOfDateKHR ∨ acq.res = VkResult.suboptimalKHR) :
    ∃ fence sem,
      r.inFlightFences[r.currentFrame]? = some fence ∧
      r.imageAvailableSems[r.currentFrame]? = some sem ∧
      drawFrame ctx r acq moved
        = some (r, [Event.waitForFences fence, Event.acquireNextImage sem]) ∧
      (∀ status, fencesAfter status
          [Event.waitForFences fence, Event.acquireNextImage sem] = status) := by
  obtain ⟨h1, -, -, h4, h5, -, -⟩ := hwf
  obtain ⟨fence, hf⟩ := getElem?_of_lt_length r.inFlightFences r.currentFrame (by omega)
  obtain ⟨sem, hsem⟩ := getElem?_of_lt_length r.imageAvailableSems r.currentFrame (by omega)
  have hs : isStale acq.res = true := by
    rcases hst with h | h <;> rw [h] <;> rfl
  exact ⟨fence, sem, hf, hsem, drawFrame_of_stale ctx r acq moved fence sem hf hsem hs,
    fun _ => rfl⟩

/-- Witness for C6: a suboptimal surface reported on the first cycle. -/
theorem drawFrame_stale_surface_witness :
    exampleRenderer.WellFormed exampleCtx ∧
    ∃ fence sem,
      exampleRenderer.inFlightFences[exampleRenderer.currentFrame]? = some fence ∧
      exampleRenderer.imageAvailableSems[exampleRenderer.currentFrame]? = some sem ∧
      drawFrame exampleCtx exampleRenderer ⟨.suboptimalKHR, 1⟩ true
        = some (exampleRenderer,
            [Event.waitForFences fence, Event.acquireNextImage sem]) ∧
      (∀ status, fencesAfter status
          [Event.waitForFences fence, Event.acquireNextImage sem] = status) :=
  ⟨init_wellFormed exampleCtx exampleHandles rfl rfl (by decide),
   drawFrame_stale_surface exampleCtx exampleRenderer ⟨.suboptimalKHR, 1⟩ true
    (init_wellFormed exampleCtx exampleHandles rfl rfl (by decide)) (Or.inr rfl)⟩

/-- C7. The accumulated-sample counter is `0` after `init`; on every
`drawFrame` cycle that is not abandoned it becomes `0` when the camera moved and
otherwise increases by exactly 1 as a 32-bit unsigned value, so that (short of
wrap-around) it is `0` after the cycle exactly when the camera moved. -/
theorem sampleCount_update (ctx : FrameCtx) (h : InitHandles) :
    (Renderer.init ctx h).sampleCount = 0 ∧
    ∀ (r r' : Renderer) (acq : AcquireResult) (moved : Bool) (trace : List Event),
      drawFrame ctx r acq moved = some (r', trace) → isStale acq.res = false →
      (moved = true → r'.sampleCount = 0) ∧
      (moved = false → r'.sampleCount = (r.sampleCount + 1) % 2 ^ 32) ∧
      (r.sampleCount + 1 < 2 ^ 32 → (r'.sampleCount = 0 ↔ moved = true)) := by
  refine ⟨rfl, ?_⟩
  intro r r' acq moved trace hd hst
  obtain ⟨fence, sem, -, -, hcase⟩ := drawFrame_inv ctx r r' acq moved trace hd
  rcases hcase with ⟨hs, -, -⟩ | ⟨-, prev, ds, cmd, img, rfs, -, -, -, -, -, hr', -⟩
  · rw [hst] at hs; cases hs
  · subst hr'
    cases moved with
    | true => simp
    | false =>
      simp only [add32, Bool.false_eq_true, if_false, false_implies, true_implies,
        iff_false, true_and]
      intro hlt
      rw [Nat.mod_eq_of_lt hlt]
      omega

/-- Witness for C7: the first cycle with a moving camera, then one without. -/
theorem sampleCount_update_witness :
    (∃ r' trace, drawFrame exampleCtx exampleRenderer ⟨.success, 0⟩ false = some (r', trace) ∧
      r'.sampleCount = 1) ∧
    (∃ r' trace, drawFrame exampleCtx exampleRenderer ⟨.success, 0⟩ true = some (r', trace) ∧
      r'.sampleCount = 0) :=
  ⟨⟨_, _, rfl,
      ((sampleCount_update exampleCtx exampleHandles).2 exampleRenderer _ ⟨.success, 0⟩ false _
        rfl rfl).2.1 rfl⟩,
   ⟨_, _, rfl,
      ((sampleCount_update exampleCtx exampleHandles).2 exampleRenderer _ ⟨.success, 0⟩ true _
        rfl rfl).1 rfl⟩⟩

/-! ## Device calls: elementary facts -/

theorem createBuffer_ok (drv : Driver) (size : Nat) (usage : List BufferUsage)
    (dev dev' : Device) (buf : AllocatedBuffer)
    (h : createBuffer drv size usage dev = .ok buf dev') :
    buf.buffer = dev.lastHandle + 1 ∧
    dev'.log = dev.log ++ [.createBuffer buf.buffer size usage] ∧
    dev'.lastHandle = dev.lastHandle + 1 ∧
    dev'.liveBuffers = dev.liveBuffers ++ [buf.buffer] ∧
    dev'.liveAS = dev.liveAS := by
  unfold createBuffer at h
  simp only at h
  split at h
  · injection h with h1 h2
    subst h1 h2
    exact ⟨rfl, rfl, rfl, rfl, rfl⟩
  · cases h

theorem createAccelerationStructure_log (drv : Driver) (old buffer size : Nat)
    (type : ASType) (dev : Device) :
    (createAccelerationStructure drv old buffer size type dev).2.log
      = dev.log ++ [.createAccelerationStructure
          (createAccelerationStructure drv old buffer size type dev).1 buffer size type] := by
  unfold createAccelerationStructure
  simp only
  split <;> rfl

theorem destroyBuffer_log (buf : AllocatedBuffer) (dev : Device)
    (h : buf.buffer ≠ VK_NULL_HANDLE) :
    (destroyBuffer buf dev).2.log = dev.log ++ [.destroyBuffer buf.buffer] := by
  simp [destroyBuffer, h]

/-- Shape of a successful `buildSingleBLAS`: the value returned and the calls
appended to the device log, in program order. -/
theorem buildSingleBLAS_ok {F : Type} (drv : Driver) (mesh : MeshData F)
    (vb ib vo io : Nat) (dev dev' : Device) (blas : BLAS)
    (h : buildSingleBLAS drv mesh vb ib vo io dev = .ok blas dev') :
    ∃ (storage scratch : AllocatedBuffer) (handle : Nat),
      blas = { handle := handle, buffer := storage, address := drv.asAddress handle } ∧
      dev'.log = dev.log ++
        [ .getBuildSizes .bottomLevel (blasPrimitiveCount mesh),
          .createBuffer storage.buffer
            (drv.buildSizes .bottomLevel (blasPrimitiveCount mesh)).accelerationStructureSize
            [.accelerationStructureStorage, .shaderDeviceAddress],
          .createAccelerationStructure handle storage.buffer
            (drv.buildSizes .bottomLevel (blasPrimitiveCount mesh)).accelerationStructureSize
            .bottomLevel,
          .createBuffer scratch.buffer
            (blasScratchSize
              (drv.buildSizes .bottomLevel (blasPrimitiveCount mesh)).buildScratchSize
              drv.scratchAlign)
            [.storageBuffer, .shaderDeviceAddress],
          .submitOneShot
            [.buildAccelerationStructure .bottomLevel handle
              (alignScratchAddress scratch.address drv.scratchAlign)
              (blasPrimitiveCount mesh)
              (.triangles (add64 vb (vo * sizeofVertex % 2 ^ 64)) sizeofVertex
                (sub32 (mesh.vertices.length % 2 ^ 32) 1)
                (add64 ib (io * sizeofIndex % 2 ^ 64)) VK_GEOMETRY_OPAQUE_BIT_KHR)],
          .destroyBuffer scratch.buffer,
          .getAccelerationStructureDeviceAddress handle ] := by
  unfold buildSingleBLAS at h
  simp only at h
  split at h
  · cases h
  · rename_i storage dev2 hst
    split at h
    · cases h
    · rename_i scratch dev4 hsc
      injection h with h1 h2
      obtain ⟨-, l2, -, -, -⟩ := createBuffer_ok _ _ _ _ _ _ hst
      obtain ⟨hb, l4, -, -, -⟩ := createBuffer_ok _ _ _ _ _ _ hsc
      have hne : scratch.buffer ≠ VK_NULL_HANDLE := by
        rw [hb]; exact Nat.succ_ne_zero _
      refine ⟨storage, scratch, _, h1.symm, ?_⟩
      rw [← h2]
      simp only [destroyBuffer_log _ _ hne, submitOneShot, l4,
        createAccelerationStructure_log, l2, List.append_assoc, List.cons_append,
        List.nil_append]

theorem makeInstances_length {F : Type} (blases : List BLAS) :
    ∀ (insts : List (SceneInstance F)) (out : List (VkAccelerationStructureInstance F)),
      makeInstances blases insts = some out → out.length = insts.length := by
  intro insts
  induction insts with
  | nil =>
    intro out h
    simp only [makeInstances, Option.some.injEq] at h
    subst h; rfl
  | cons si rest ih =>
    intro out h
    unfold makeInstances at h
    split at h
    · cases h
    · split at h
      · cases h
      · rename_i tail htail
        injection h with h
        subst h
        simp [ih tail htail]

/-- Shape of a successful `buildTLAS`: the staged entries come from the
instance loop, and the calls appended to the device log, in program order. -/
theorem buildTLAS_ok {F : Type} (drv : Driver) (scene : Scene F) (a a' : AccelStructure)
    (dev dev' : Device) (vkInstances : List (VkAccelerationStructureInstance F))
    (h : buildTLAS drv scene a dev = (a', .ok vkInstances dev')) :
    makeInstances a.blases scene.instances = some vkInstances ∧
    ∃ (staging instanceBuffer tlasBuffer scratch : AllocatedBuffer) (tlas : Nat),
      a' = { a with instanceBuffer := instanceBuffer, tlasBuffer := tlasBuffer, tlas := tlas } ∧
      dev'.log = dev.log ++
        [ .createBuffer staging.buffer (vkInstances.length * sizeofInstance % 2 ^ 64)
            [.transferSrc],
          .createBuffer instanceBuffer.buffer (vkInstances.length * sizeofInstance % 2 ^ 64)
            [.transferDst, .shaderDeviceAddress, .accelerationStructureBuildInputReadOnly],
          .getBuildSizes .topLevel (vkInstances.length % 2 ^ 32),
          .createBuffer tlasBuffer.buffer
            (drv.buildSizes .topLevel (vkInstances.length % 2 ^ 32)).accelerationStructureSize
            [.accelerationStructureStorage, .shaderDeviceAddress],
          .createAccelerationStructure tlas tlasBuffer.buffer
            (drv.buildSizes .topLevel (vkInstances.length % 2 ^ 32)).accelerationStructureSize
            .topLevel,
          .createBuffer scratch.buffer
            (tlasScratchSize
              (drv.buildSizes .topLevel (vkInstances.length % 2 ^ 32)).buildScratchSize
              drv.scratchAlign)
            [.storageBuffer, .shaderDeviceAddress],
          .submitOneShot
            [.copyBuffer staging.buffer instanceBuffer.buffer
                (vkInstances.length * sizeofInstance % 2 ^ 64),
             .memoryBarrier VK_ACCESS_TRANSFER_WRITE_BIT
                VK_ACCESS_ACCELERATION_STRUCTURE_WRITE_BIT_KHR
                VK_PIPELINE_STAGE_TRANSFER_BIT
                VK_PIPELINE_STAGE_ACCELERATION_STRUCTURE_BUILD_BIT_KHR,
             .buildAccelerationStructure .topLevel tlas
                (alignScratchAddress scratch.address drv.scratchAlign)
                (vkInstances.length % 2 ^ 32) (.instances instanceBuffer.address)],
          .destroyBuffer staging.buffer,
          .destroyBuffer scratch.buffer ] := by
  unfold buildTLAS at h
  split at h
  · cases h
  · rename_i insts hinst
    simp only at h
    split at h
    · cases h
    · rename_i staging dev1 hstg
      split at h
      · cases h
      · rename_i instanceBuffer dev2 hib
        split at h
        · cases h
        · rename_i tlasBuffer dev4 htb
          split at h
          · cases h
          · rename_i scratch dev6 hsc
            injection h with ha hr
            injection hr with hv hd
            subst hv
            obtain ⟨hb1, l1, -, -, -⟩ := createBuffer_ok _ _ _ _ _ _ hstg
            obtain ⟨-, l2, -, -, -⟩ := createBuffer_ok _ _ _ _ _ _ hib
            obtain ⟨-, l4, -, -, -⟩ := createBuffer_ok _ _ _ _ _ _ htb
            obtain ⟨hb6, l6, -, -, -⟩ := createBuffer_ok _ _ _ _ _ _ hsc
            have hne1 : staging.buffer ≠ VK_NULL_HANDLE := by
              rw [hb1]; exact Nat.succ_ne_zero _
            have hne6 : scratch.buffer ≠ VK_NULL_HANDLE := by
              rw [hb6]; exact Nat.succ_ne_zero _
            refine ⟨hinst, staging, instanceBuffer, tlasBuffer, scratch, _, ha.symm, ?_⟩
            rw [← hd]
            simp only [destroyBuffer_log _ _ hne6, destroyBuffer_log _ _ hne1, submitOneShot,
              l6, createAccelerationStructure_log, l4, l2, l1, List.append_assoc,
              List.cons_append, List.nil_append]

/-- With a driver on which every buffer allocation succeeds, `buildSingleBLAS`
returns a structure. -/
theorem buildSingleBLAS_total {F : Type} (drv : Driver) (hok : ∀ h n, drv.allocOk h n = true)
    (mesh : MeshData F) (vb ib vo io : Nat) (dev : Device) :
    ∃ blas dev', buildSingleBLAS drv mesh vb ib vo io dev = .ok blas dev' := by
  simp [buildSingleBLAS, createBuffer, hok]

theorem buildBLASesLoop_total {F : Type} (drv : Driver)
    (hok : ∀ h n, drv.allocOk h n = true) (vb ib : Nat) :
    ∀ (meshes : List (MeshData F)) (vo io : Nat) (a : AccelStructure) (dev : Device),
      ∃ a' dev', buildBLASesLoop drv vb ib meshes vo io a dev = (a', .ok () dev') := by
  intro meshes
  induction meshes with
  | nil => intro vo io a dev; exact ⟨a, dev, rfl⟩
  | cons m ms ih =>
    intro vo io a dev
    obtain ⟨blas, d, hb⟩ := buildSingleBLAS_total drv hok m vb ib vo io dev
    unfold buildBLASesLoop
    rw [hb]
    exact ih _ _ _ _

/-- With a driver on which every buffer allocation succeeds, `buildBLASes`
completes for every scene. -/
theorem buildBLASes_total {F : Type} (drv : Driver) (hok : ∀ h n, drv.allocOk h n = true)
    (scene : Scene F) (a : AccelStructure) (dev : Device) :
    ∃ a' dev', buildBLASes drv scene a dev = (a', .ok () dev') :=
  buildBLASesLoop_total drv hok _ _ _ _ _ _ _

/-! ## Scratch buffers, primitive counts, one BLAS per mesh (C8–C10) -/

theorem roundUp_le_add (S A : Nat) : roundUp S A ≤ S + A := by
  unfold roundUp
  have := Nat.div_mul_le_self (S + A - 1) A
  omega

theorem blasScratchSize_eq (S A : Nat) (hA : IsPow2 A) (hA32 : A < 2 ^ 32)
    (hfit : S + A ≤ 2 ^ 32) : blasScratchSize S A = S + roundUp S A := by
  have hpos := hA.pos
  have hS : S % 2 ^ 32 = S := Nat.mod_eq_of_lt (by omega)
  have hr := roundUp_le_add S A
  unfold blasScratchSize add64
  rw [hS, alignUp_eq_roundUp S A hA hfit hA32]
  exact Nat.mod_eq_of_lt (by omega)

theorem tlasScratchSize_eq (S A : Nat) (hfit : S + A < 2 ^ 64) :
    tlasScratchSize S A = S + A := by
  unfold tlasScratchSize add64
  exact Nat.mod_eq_of_lt hfit

/-- The claim C8 as stated fails.  With a device reporting a scratch alignment
of 128 and a scratch size of 256 for the bottom-level build and 1000 for the
top-level build, `buildSingleBLAS` (through `buildBLASes`) allocates a scratch
buffer of 512 bytes and `buildTLAS` one of 1128 bytes, while the sizes rounded
up to the alignment are 256 and 1024. -/
theorem scratch_size_counterexample :
    exampleDriver.scratchAlign = 128 ∧
    (exampleDriver.buildSizes .bottomLevel (blasPrimitiveCount planeMesh)).buildScratchSize
      = 256 ∧
    (exampleDriver.buildSizes .topLevel (planeScene.instances.length % 2 ^ 32)).buildScratchSize
      = 1000 ∧
    roundUp 256 128 = 256 ∧ roundUp 1000 128 = 1024 ∧
    ∃ a dev, buildBLASes exampleDriver planeScene {} planeDevice = (a, .ok () dev) ∧
      scratchAllocSizes dev.log = [512] ∧
      ∃ a' insts dev', buildTLAS exampleDriver planeScene a dev = (a', .ok insts dev') ∧
        scratchAllocSizes dev'.log = [512, 1128] :=
  ⟨rfl, rfl, rfl, by decide, by decide, _, _, rfl, by decide, _, _, _, rfl, by decide⟩

/-- C8 (amended). For a power-of-two scratch alignment `A` and a build scratch
size `S` with `S + A ≤ 2^32`: the one scratch buffer a successful
`buildSingleBLAS` allocates has the size the source computes
(`blasScratchSize S A`), which is at least `S` rounded up to `A`; the one
scratch buffer a successful `buildTLAS` allocates has size exactly `S + A`,
which is also at least `S` rounded up to `A`. -/
theorem scratch_buffer_sizes {F : Type} (drv : Driver) (hA : IsPow2 drv.scratchAlign)
    (hA32 : drv.scratchAlign < 2 ^ 32) :
    (∀ (mesh : MeshData F) (vb ib vo io : Nat) (dev dev' : Device) (blas : BLAS),
      buildSingleBLAS drv mesh vb ib vo io dev = .ok blas dev' →
      (drv.buildSizes .bottomLevel (blasPrimitiveCount mesh)).buildScratchSize
        + drv.scratchAlign ≤ 2 ^ 32 →
      ∃ new, dev'.log = dev.log ++ new ∧
        scratchAllocSizes new =
          [blasScratchSize
            (drv.buildSizes .bottomLevel (blasPrimitiveCount mesh)).buildScratchSize
            drv.scratchAlign] ∧
        roundUp (drv.buildSizes .bottomLevel (blasPrimitiveCount mesh)).buildScratchSize
            drv.scratchAlign
          ≤ blasScratchSize
              (drv.buildSizes .bottomLevel (blasPrimitiveCount mesh)).buildScratchSize
              drv.scratchAlign) ∧
    (∀ (scene : Scene F) (a a' : AccelStructure) (dev dev' : Device)
        (insts : List (VkAccelerationStructureInstance F)),
      buildTLAS drv scene a dev = (a', .ok insts dev') →
      (drv.buildSizes .topLevel (scene.instances.length % 2 ^ 32)).buildScratchSize
        + drv.scratchAlign ≤ 2 ^ 32 →
      ∃ new, dev'.log = dev.log ++ new ∧
        scratchAllocSizes new =
          [(drv.buildSizes .topLevel (scene.instances.length % 2 ^ 32)).buildScratchSize
            + drv.scratchAlign] ∧
        roundUp (drv.buildSizes .topLevel (scene.instances.length % 2 ^ 32)).buildScratchSize
            drv.scratchAlign
          ≤ (drv.buildSizes .topLevel (scene.instances.length % 2 ^ 32)).buildScratchSize
              + drv.scratchAlign) := by
  constructor
  · intro mesh vb ib vo io dev dev' blas h hfit
    obtain ⟨storage, scratch, handle, -, hlog⟩ :=
      buildSingleBLAS_ok drv mesh vb ib vo io dev dev' blas h
    refine ⟨_, hlog, ?_, ?_⟩
    · simp [scratchAllocSizes]
    · rw [blasScratchSize_eq _ _ hA hA32 hfit]
      exact Nat.le_add_left _ _
  · intro scene a a' dev dev' insts h hfit
    obtain ⟨hmk, staging, instanceBuffer, tlasBuffer, scratch, tlas, -, hlog⟩ :=
      buildTLAS_ok drv scene a a' dev dev' insts h
    have hlen := makeInstances_length _ _ _ hmk
    rw [hlen] at hlog
    refine ⟨_, hlog, ?_, roundUp_le_add _ _⟩
    rw [← tlasScratchSize_eq _ _ (by omega)]
    simp [scratchAllocSizes]

/-- Witness for C8 (amended): the plane scene on the example driver. -/
theorem scratch_buffer_sizes_witness :
    IsPow2 exampleDriver.scratchAlign ∧ exampleDriver.scratchAlign < 2 ^ 32 ∧
    ∃ blas dev', buildSingleBLAS exampleDriver planeMesh 65552 131088 0 0 planeDevice
        = .ok blas dev' ∧
      ∃ new, dev'.log = planeDevice.log ++ new ∧
        scratchAllocSizes new = [blasScratchSize 256 128] ∧
        roundUp 256 128 ≤ blasScratchSize 256 128 :=
  ⟨⟨7, by decide⟩, by decide, _, _, rfl,
    (scratch_buffer_sizes exampleDriver ⟨7, by decide⟩ (by decide)).1
      planeMesh 65552 131088 0 0 planeDevice _ _ rfl (by decide)⟩

/-- C9. For a mesh whose index count fits the `uint32_t` it is cast to, the
primitive count `buildSingleBLAS` passes to the device size query and the one it
puts into the build range are both `floor(index count / 3)`; for a mesh with
`T` triangles (an index list of `3 * T` entries) that number is `T`. -/
theorem blas_primitive_count {F : Type} (drv : Driver) (mesh : MeshData F)
    (vb ib vo io : Nat) (dev dev' : Device) (blas : BLAS)
    (hfit : mesh.indices.length < 2 ^ 32)
    (h : buildSingleBLAS drv mesh vb ib vo io dev = .ok blas dev') :
    ∃ new, dev'.log = dev.log ++ new ∧
      sizeQueryCounts .bottomLevel new = [mesh.indices.length / 3] ∧
      buildRangeCounts .bottomLevel new = [mesh.indices.length / 3] ∧
      ∀ T, mesh.indices.length = 3 * T → mesh.indices.length / 3 = T := by
  obtain ⟨storage, scratch, handle, -, hlog⟩ :=
    buildSingleBLAS_ok drv mesh vb ib vo io dev dev' blas h
  have hpc : blasPrimitiveCount mesh = mesh.indices.length / 3 := by
    unfold blasPrimitiveCount; rw [Nat.mod_eq_of_lt hfit]
  rw [hpc] at hlog
  refine ⟨_, hlog, ?_, ?_, ?_⟩
  · simp [sizeQueryCounts]
  · simp [buildRangeCounts]
  · intro T hT
    omega

/-- Witness for C9: the plane mesh, two triangles. -/
theorem blas_primitive_count_witness :
    planeMesh.indices.length = 3 * 2 ∧ planeMesh.indices.length < 2 ^ 32 ∧
    ∃ blas dev', buildSingleBLAS exampleDriver planeMesh 65552 131088 0 0 planeDevice
        = .ok blas dev' ∧
      ∃ new, dev'.log = planeDevice.log ++ new ∧
        sizeQueryCounts .bottomLevel new = [planeMesh.indices.length / 3] ∧
        buildRangeCounts .bottomLevel new = [planeMesh.indices.length / 3] ∧
        ∀ T, planeMesh.indices.length = 3 * T → planeMesh.indices.length / 3 = T :=
  ⟨rfl, by decide, _, _, rfl,
    blas_primitive_count exampleDriver planeMesh 65552 131088 0 0 planeDevice _ _
      (by decide) rfl⟩

/-- Running offset of `buildBLASes` started from `start`. -/
theorem foldl_offset_cons (start n : Nat) (counts : List Nat) :
    (n :: counts).foldl (fun acc k => add32 acc (k % 2 ^ 32)) start
      = counts.foldl (fun acc k => add32 acc (k % 2 ^ 32)) (add32 start (n % 2 ^ 32)) :=
  rfl

/-- The loop of `buildBLASes`, when it completes, appends one structure per
mesh, in mesh order; the structure at position `i` is the value of
`buildSingleBLAS` on mesh `i`, called in the device state reached after the
first `i` meshes and with the offsets accumulated over them. -/
theorem buildBLASesLoop_ok {F : Type} (drv : Driver) (vb ib : Nat) :
    ∀ (meshes : List (MeshData F)) (vo io : Nat) (a a' : AccelStructure) (dev dev' : Device),
      buildBLASesLoop drv vb ib meshes vo io a dev = (a', .ok () dev') →
      ∃ built : List BLAS,
        a' = { a with blases := a.blases ++ built } ∧
        built.length = meshes.length ∧
        ∀ i, i < meshes.length →
          ∃ (m : MeshData F) (blas : BLAS) (aPrev : AccelStructure) (devBefore devAfter : Device),
            meshes[i]? = some m ∧ built[i]? = some blas ∧
            buildBLASesLoop drv vb ib (meshes.take i) vo io a dev
              = (aPrev, .ok () devBefore) ∧
            buildSingleBLAS drv m vb ib
              (((meshes.take i).map fun x => x.vertices.length).foldl
                (fun acc k => add32 acc (k % 2 ^ 32)) vo)
              (((meshes.take i).map fun x => x.indices.length).foldl
                (fun acc k => add32 acc (k % 2 ^ 32)) io)
              devBefore = .ok blas devAfter := by
  intro meshes
  induction meshes with
  | nil =>
    intro vo io a a' dev dev' h
    simp only [buildBLASesLoop, Prod.mk.injEq] at h
    refine ⟨[], ?_, rfl, ?_⟩
    · rw [← h.1]; simp
    · intro i hi; simp at hi
  | cons m ms ih =>
    intro vo io a a' dev dev' h
    unfold buildBLASesLoop at h
    split at h
    · simp at h
    · rename_i b d hb
      obtain ⟨built, ha', hlen, hall⟩ := ih _ _ _ _ _ _ h
      refine ⟨b :: built, ?_, by simp [hlen], ?_⟩
      · rw [ha']; simp
      · intro i hi
        cases i with
        | zero =>
          exact ⟨m, b, a, dev, d, by simp, by simp, by simp [buildBLASesLoop], by simpa using hb⟩
        | succ j =>
          obtain ⟨m', blas, aPrev, devBefore, devAfter, hm, hbl, hloop, hbuild⟩ :=
            hall j (by simpa using hi)
          refine ⟨m', blas, aPrev, devBefore, devAfter, by simpa using hm,
            by simpa using hbl, ?_, ?_⟩
          · simp only [List.take_succ_cons]
            unfold buildBLASesLoop
            rw [hb]
            exact hloop
          · simpa [List.take_succ_cons] using hbuild

/-- C10. After a completed `buildBLASes` on a freshly constructed
`AccelStructure`, the number of bottom-level structures equals the number of
meshes, and `blases[i]` is the structure `buildSingleBLAS` built from
`scene.meshes[i]` (called after the first `i` meshes were built, with the vertex
and index offsets accumulated over them). -/
theorem one_blas_per_mesh {F : Type} (drv : Driver) (scene : Scene F) (a' : AccelStructure)
    (dev dev' : Device) (h : buildBLASes drv scene {} dev = (a', .ok () dev')) :
    a'.blases.length = scene.meshes.length ∧
    ∀ i, i < scene.meshes.length →
      ∃ (m : MeshData F) (blas : BLAS) (aPrev : AccelStructure) (devBefore devAfter : Device),
        scene.meshes[i]? = some m ∧ a'.blases[i]? = some blas ∧
        buildBLASes drv { scene with meshes := scene.meshes.take i } {} dev
          = (aPrev, .ok () devBefore) ∧
        buildSingleBLAS drv m scene.vertexBuffer.address scene.indexBuffer.address
          (offsetAfter ((scene.meshes.take i).map fun x => x.vertices.length))
          (offsetAfter ((scene.meshes.take i).map fun x => x.indices.length))
          devBefore = .ok blas devAfter := by
  unfold buildBLASes at h
  obtain ⟨built, ha', hlen, hall⟩ := buildBLASesLoop_ok drv _ _ _ _ _ _ _ _ _ h
  have hb : a'.blases = built := by rw [ha']; simp
  refine ⟨by rw [hb, hlen], ?_⟩
  intro i hi
  obtain ⟨m, blas, aPrev, devBefore, devAfter, hm, hbl, hloop, hbuild⟩ := hall i hi
  exact ⟨m, blas, aPrev, devBefore, devAfter, hm, by rw [hb]; exact hbl, hloop, hbuild⟩

/-- Witness for C10: the plane scene on the example driver. -/
theorem one_blas_per_mesh_witness :
    ∃ a' dev', buildBLASes exampleDriver planeScene {} planeDevice = (a', .ok () dev') ∧
      a'.blases.length = planeScene.meshes.length ∧
      ∀ i, i < planeScene.meshes.length →
        ∃ (m : MeshData Unit) (blas : BLAS) (aPrev : AccelStructure)
            (devBefore devAfter : Device),
          planeScene.meshes[i]? = some m ∧ a'.blases[i]? = some blas ∧
          buildBLASes exampleDriver { planeScene with meshes := planeScene.meshes.take i } {}
              planeDevice = (aPrev, .ok () devBefore) ∧
          buildSingleBLAS exampleDriver m planeScene.vertexBuffer.address
            planeScene.indexBuffer.address
            (offsetAfter ((planeScene.meshes.take i).map fun x => x.vertices.length))
            (offsetAfter ((planeScene.meshes.take i).map fun x => x.indices.length))
            devBefore = .ok blas devAfter :=
  ⟨_, _, rfl, one_blas_per_mesh exampleDriver planeScene _ planeDevice _ rfl⟩

/-! ## Top-level build (C11–C14) -/

/-- With a driver on which every buffer allocation succeeds, `buildTLAS`
completes as soon as every instance names an existing bottom-level structure. -/
theorem buildTLAS_total {F : Type} (drv : Driver) (hok : ∀ h n, drv.allocOk h n = true)
    (scene : Scene F) (a : AccelStructure) (dev : Device)
    (insts : List (VkAccelerationStructureInstance F))
    (hmk : makeInstances a.blases scene.instances = some insts) :
    ∃ a' dev', buildTLAS drv scene a dev = (a', .ok insts dev') := by
  simp [buildTLAS, createBuffer, hok, hmk]

theorem createBuffer_refused (drv : Driver) (size : Nat) (usage : List BufferUsage)
    (dev : Device) (hno : drv.allocOk (dev.lastHandle + 1) size = false) :
    createBuffer drv size usage dev = .fail (.exception "Failed to create buffer") dev := by
  simp [createBuffer, hno]

/-- When the allocator refuses the staging buffer, `buildTLAS` throws before
anything is created. -/
theorem buildTLAS_staging_refused {F : Type} (drv : Driver) (scene : Scene F)
    (a : AccelStructure) (dev : Device) (insts : List (VkAccelerationStructureInstance F))
    (hmk : makeInstances a.blases scene.instances = some insts)
    (hno : drv.allocOk (dev.lastHandle + 1) (insts.length * sizeofInstance % 2 ^ 64) = false) :
    buildTLAS drv scene a dev = (a, .fail (.exception "Failed to create buffer") dev) := by
  unfold buildTLAS
  rw [hmk]
  simp only
  rw [createBuffer_refused drv _ _ dev hno]

/-- The claim C11 as stated fails: on a driver whose allocator refuses
zero-byte buffers, `buildTLAS` on a scene without instances throws
"Failed to create buffer" and builds nothing. -/
theorem tlas_zero_instances_counterexample :
    emptyInstanceScene.instances.length = 0 ∧
    buildTLAS zeroRejectingDriver emptyInstanceScene {} planeDevice
      = ({}, .fail (.exception "Failed to create buffer") planeDevice) :=
  ⟨rfl, rfl⟩

/-- C11 (amended). For every scene with fewer than `2^32` instances, the
instance count a completed `buildTLAS` passes to the size query and to the
top-level build equals the number of scene instances.  For a scene with zero
instances `buildTLAS` asks for zero-byte staging and instance buffers: it
completes, with instance count 0, when the allocator grants every request, and
it throws "Failed to create buffer" when the allocator refuses the zero-byte
request. -/
theorem tlas_instance_count {F : Type} (drv : Driver) :
    (∀ (scene : Scene F) (a a' : AccelStructure) (dev dev' : Device)
        (insts : List (VkAccelerationStructureInstance F)),
      buildTLAS drv scene a dev = (a', .ok insts dev') →
      scene.instances.length < 2 ^ 32 →
      ∃ new, dev'.log = dev.log ++ new ∧
        sizeQueryCounts .topLevel new = [scene.instances.length] ∧
        buildRangeCounts .topLevel new = [scene.instances.length]) ∧
    (∀ (scene : Scene F) (a : AccelStructure) (dev : Device),
      scene.instances = [] → (∀ h n, drv.allocOk h n = true) →
      ∃ a' dev' new, buildTLAS drv scene a dev = (a', .ok [] dev') ∧
        dev'.log = dev.log ++ new ∧
        buildRangeCounts .topLevel new = [0] ∧
        ∃ staging, DevCall.createBuffer staging 0 [.transferSrc] ∈ new) ∧
    (∀ (scene : Scene F) (a : AccelStructure) (dev : Device),
      scene.instances = [] → drv.allocOk (dev.lastHandle + 1) 0 = false →
      buildTLAS drv scene a dev = (a, .fail (.exception "Failed to create buffer") dev)) := by
  refine ⟨?_, ?_, ?_⟩
  · intro scene a a' dev dev' insts h hfit
    obtain ⟨hmk, staging, instanceBuffer, tlasBuffer, scratch, tlas, -, hlog⟩ :=
      buildTLAS_ok drv scene a a' dev dev' insts h
    have hlen := makeInstances_length _ _ _ hmk
    rw [hlen, Nat.mod_eq_of_lt hfit] at hlog
    refine ⟨_, hlog, ?_, ?_⟩
    · simp [sizeQueryCounts]
    · simp [buildRangeCounts]
  · intro scene a dev hnil hok
    have hmk : makeInstances a.blases scene.instances
        = some ([] : List (VkAccelerationStructureInstance F)) := by
      rw [hnil]; rfl
    obtain ⟨a', dev', h⟩ := buildTLAS_total drv hok scene a dev [] hmk
    obtain ⟨-, staging, instanceBuffer, tlasBuffer, scratch, tlas, -, hlog⟩ :=
      buildTLAS_ok drv scene a a' dev dev' [] h
    refine ⟨a', dev', _, h, hlog, ?_, ?_⟩
    · simp [buildRangeCounts]
    · exact ⟨staging.buffer, by simp [sizeofInstance]⟩
  · intro scene a dev hnil hno
    have hmk : makeInstances a.blases scene.instances
        = some ([] : List (VkAccelerationStructureInstance F)) := by
      rw [hnil]; rfl
    exact buildTLAS_staging_refused drv scene a dev [] hmk (by simpa [sizeofInstance] using hno)

/-- Witness for C11 (amended): the scene without instances, on a driver that
grants every request and on one that refuses zero-byte buffers. -/
theorem tlas_instance_count_witness :
    (∃ a' dev' new, buildTLAS exampleDriver emptyInstanceScene {} planeDevice
        = (a', .ok [] dev') ∧
      dev'.log = planeDevice.log ++ new ∧
      buildRangeCounts .topLevel new = [0] ∧
      ∃ staging, DevCall.createBuffer staging 0 [.transferSrc] ∈ new) ∧
    buildTLAS zeroRejectingDriver emptyInstanceScene {} planeDevice
      = ({}, .fail (.exception "Failed to create buffer") planeDevice) :=
  ⟨(tlas_instance_count exampleDriver).2.1 emptyInstanceScene {} planeDevice rfl
      (fun _ _ => rfl),
   (tlas_instance_count zeroRejectingDriver).2.2 emptyInstanceScene {} planeDevice rfl rfl⟩

theorem makeInstance_some_iff {F : Type} (blases : List BLAS) (si : SceneInstance F)
    (e : VkAccelerationStructureInstance F) (h : makeInstance blases si = some e) :
    ∃ blas, blases[si.meshIndex]? = some blas ∧ si.meshIndex < blases.length ∧
      e = { transform := copyTransform (glmTranspose si.transform)
            instanceCustomIndex := si.meshIndex % 2 ^ 24
            mask := 0xFF
            instanceShaderBindingTableRecordOffset := 0
            flags := VK_GEOMETRY_INSTANCE_TRIANGLE_FACING_CULL_DISABLE_BIT_KHR
            accelerationStructureReference := blas.address } := by
  unfold makeInstance at h
  split at h
  · cases h
  · rename_i blas hb
    injection h with h
    refine ⟨blas, hb, ?_, h.symm⟩
    by_contra hlt
    rw [List.getElem?_eq_none (by omega)] at hb
    cases hb

theorem makeInstance_of_lt {F : Type} (blases : List BLAS) (si : SceneInstance F)
    (h : si.meshIndex < blases.length) : ∃ e, makeInstance blases si = some e := by
  obtain ⟨blas, hb⟩ := getElem?_of_lt_length blases si.meshIndex h
  unfold makeInstance
  rw [hb]
  exact ⟨_, rfl⟩

/-- The instance loop keeps instance order: entry `i` comes from instance `i`. -/
theorem makeInstances_getElem? {F : Type} (blases : List BLAS) :
    ∀ (insts : List (SceneInstance F)) (out : List (VkAccelerationStructureInstance F)),
      makeInstances blases insts = some out →
      ∀ (i : Nat) (si : SceneInstance F), insts[i]? = some si →
        ∃ e, makeInstance blases si = some e ∧ out[i]? = some e := by
  intro insts
  induction insts with
  | nil => intro out _ i si hi; simp at hi
  | cons s rest ih =>
    intro out h i si hi
    unfold makeInstances at h
    split at h
    · cases h
    · rename_i e0 he0
      split at h
      · cases h
      · rename_i tail htail
        injection h with h
        subst h
        cases i with
        | zero =>
          simp only [List.getElem?_cons_zero, Option.some.injEq] at hi
          subst hi
          exact ⟨e0, he0, by simp⟩
        | succ j =>
          simp only [List.getElem?_cons_succ] at hi
          obtain ⟨e, he, hout⟩ := ih tail htail j si hi
          exact ⟨e, he, by simpa using hout⟩

/-- C12. For every instance whose `meshIndex` is below the number of built
bottom-level structures, the entry `buildTLAS` emits for it has
`accelerationStructureReference = blases[meshIndex].address`, a custom index
equal to `meshIndex` as a 24-bit value, mask `0xFF` and record offset `0`; in a
completed `buildTLAS` the entries are as many as the instances and entry `i` is
the one emitted for instance `i`. -/
theorem tlas_entries {F : Type} (drv : Driver) :
    (∀ (blases : List BLAS) (si : SceneInstance F), si.meshIndex < blases.length →
      ∃ blas e, blases[si.meshIndex]? = some blas ∧ makeInstance blases si = some e ∧
        e.accelerationStructureReference = blas.address ∧
        e.instanceCustomIndex = si.meshIndex % 2 ^ 24 ∧
        (si.meshIndex < 2 ^ 24 → e.instanceCustomIndex = si.meshIndex) ∧
        e.mask = 0xFF ∧
        e.instanceShaderBindingTableRecordOffset = 0) ∧
    (∀ (scene : Scene F) (a a' : AccelStructure) (dev dev' : Device)
        (insts : List (VkAccelerationStructureInstance F)),
      buildTLAS drv scene a dev = (a', .ok insts dev') →
      insts.length = scene.instances.length ∧
      ∀ (i : Nat) (si : SceneInstance F), scene.instances[i]? = some si →
        si.meshIndex < a.blases.length ∧
        ∃ e, makeInstance a.blases si = some e ∧ insts[i]? = some e) := by
  constructor
  · intro blases si hlt
    obtain ⟨e, he⟩ := makeInstance_of_lt blases si hlt
    obtain ⟨blas, hb, -, hE⟩ := makeInstance_some_iff blases si e he
    refine ⟨blas, e, hb, he, ?_, ?_, ?_, ?_, ?_⟩ <;> subst hE
    · rfl
    · rfl
    · intro h24; exact Nat.mod_eq_of_lt h24
    · rfl
    · rfl
  · intro scene a a' dev dev' insts h
    obtain ⟨hmk, -⟩ := buildTLAS_ok drv scene a a' dev dev' insts h
    refine ⟨makeInstances_length _ _ _ hmk, ?_⟩
    intro i si hi
    obtain ⟨e, he, hout⟩ := makeInstances_getElem? _ _ _ hmk i si hi
    obtain ⟨-, -, hlt, -⟩ := makeInstance_some_iff _ _ _ he
    exact ⟨hlt, e, he, hout⟩

/-- C13. The transform conversion is a pure data permutation: the emitted
row-major 3×4 matrix has at row `r`, column `c` the component `r` of column `c`
of the column-major instance transform, which is float `4r + c` of the storage
of the transposed matrix (what `memcpy` reads) and float `4c + r` of the storage
of the original; the identity transform gives the 3×4 identity. -/
theorem tlas_transform {F : Type} (blases : List BLAS) (si : SceneInstance F)
    (e : VkAccelerationStructureInstance F) (h : makeInstance blases si = some e) :
    (∀ (r : Fin 3) (c : Fin 4),
      e.transform r c = si.transform c (Fin.castLE (by decide) r) ∧
      (mat4Storage (glmTranspose si.transform))[4 * r.val + c.val]? = some (e.transform r c) ∧
      (mat4Storage si.transform)[4 * c.val + r.val]? = some (e.transform r c)) ∧
    (∀ ops : FloatOps F, si.transform = glmIdentity ops →
      ∀ (r : Fin 3) (c : Fin 4),
        e.transform r c = if r.val = c.val then ops.one else ops.zero) := by
  obtain ⟨blas, -, -, hE⟩ := makeInstance_some_iff blases si e h
  subst hE
  constructor
  · intro r c
    refine ⟨rfl, ?_, ?_⟩
    · fin_cases r <;> fin_cases c <;> rfl
    · fin_cases r <;> fin_cases c <;> rfl
  · intro ops hid r c
    simp only [copyTransform, glmTranspose, hid, glmIdentity]
    fin_cases r <;> fin_cases c <;> rfl

/-- Witness for C12: the plane scene, after its bottom-level build. -/
theorem tlas_entries_witness :
    ∃ a' dev' insts,
      buildTLAS exampleDriver planeScene planeAccel planeDevice = (a', .ok insts dev') ∧
      insts.length = planeScene.instances.length ∧
      ∀ (i : Nat) (si : SceneInstance Unit), planeScene.instances[i]? = some si →
        si.meshIndex < planeAccel.blases.length ∧
        ∃ e, makeInstance planeAccel.blases si = some e ∧ insts[i]? = some e := by
  obtain ⟨a', insts, dev', h⟩ :
      ∃ a' insts dev', buildTLAS exampleDriver planeScene planeAccel planeDevice
        = (a', .ok insts dev') := ⟨_, _, _, rfl⟩
  exact ⟨a', dev', insts, h, (tlas_entries exampleDriver).2 planeScene planeAccel a'
    planeDevice dev' insts h⟩

/-- Witness for C13: the instance of the plane scene. -/
theorem tlas_transform_witness :
    ∃ e, makeInstance [({ handle := 4, buffer := {}, address := 4194304 } : BLAS)]
        ({ meshIndex := 0, transform := glmIdentity unitOps, materialIndex := 0 }
          : SceneInstance Unit) = some e ∧
      (∀ (r : Fin 3) (c : Fin 4),
        e.transform r c = glmIdentity unitOps c (Fin.castLE (by decide) r) ∧
        (mat4Storage (glmTranspose (glmIdentity unitOps)))[4 * r.val + c.val]?
          = some (e.transform r c) ∧
        (mat4Storage (glmIdentity unitOps))[4 * c.val + r.val]? = some (e.transform r c)) :=
  ⟨_, rfl,
    (tlas_transform [({ handle := 4, buffer := {}, address := 4194304 } : BLAS)]
      ({ meshIndex := 0, transform := glmIdentity unitOps, materialIndex := 0 }
        : SceneInstance Unit) _ rfl).1⟩

/-- C14. End-to-end: the scene produced by a single `addPlane` call has one
mesh with 2 triangles and one instance at the identity transform; on a driver
that grants every allocation `buildBLASes` builds exactly 1 bottom-level
structure with triangle count 2, and `buildTLAS` builds a top-level structure
with instance count 1 whose single entry refers to that structure's address. -/
theorem plane_scene_end_to_end {F : Type} (ops : FloatOps F) (center : F × F × F)
    (halfW halfD : F) (materialIdx : Nat) (vb ib : AllocatedBuffer) (drv : Driver)
    (hok : ∀ h n, drv.allocOk h n = true) (dev : Device) :
    (∃ mesh, (singlePlaneScene ops center halfW halfD materialIdx vb ib).meshes = [mesh] ∧
      mesh.indices.length = 3 * 2) ∧
    (∃ inst, (singlePlaneScene ops center halfW halfD materialIdx vb ib).instances = [inst] ∧
      inst.meshIndex = 0 ∧ inst.transform = glmIdentity ops) ∧
    ∃ a d new₁ blas,
      buildBLASes drv (singlePlaneScene ops center halfW halfD materialIdx vb ib) {} dev
        = (a, .ok () d) ∧
      a.blases = [blas] ∧
      d.log = dev.log ++ new₁ ∧
      buildRangeCounts .bottomLevel new₁ = [2] ∧
      ∃ a' d' insts new₂ e,
        buildTLAS drv (singlePlaneScene ops center halfW halfD materialIdx vb ib) a d
          = (a', .ok insts d') ∧
        d'.log = d.log ++ new₂ ∧
        buildRangeCounts .topLevel new₂ = [1] ∧
        insts = [e] ∧
        e.accelerationStructureReference = blas.address := by
  refine ⟨⟨_, rfl, rfl⟩, ⟨_, rfl, rfl, rfl⟩, ?_⟩
  obtain ⟨mesh, hmesh⟩ :
      ∃ mesh, (singlePlaneScene ops center halfW halfD materialIdx vb ib).meshes = [mesh] ∧
        blasPrimitiveCount mesh = 2 := ⟨_, rfl, by simp [blasPrimitiveCount]⟩
  obtain ⟨blas, d, hb⟩ := buildSingleBLAS_total drv hok mesh vb.address ib.address 0 0 dev
  obtain ⟨storage, scratch, handle, hblas, hlog⟩ :=
    buildSingleBLAS_ok drv mesh vb.address ib.address 0 0 dev d blas hb
  have hbuild : buildBLASes drv (singlePlaneScene ops center halfW halfD materialIdx vb ib)
      {} dev = ({ blases := [blas] }, .ok () d) := by
    unfold buildBLASes
    rw [hmesh.1]
    have h1 : (singlePlaneScene ops center halfW halfD materialIdx vb ib).vertexBuffer = vb :=
      rfl
    have h2 : (singlePlaneScene ops center halfW halfD materialIdx vb ib).indexBuffer = ib :=
      rfl
    rw [h1, h2]
    unfold buildBLASesLoop
    rw [hb]
    rfl
  rw [hmesh.2] at hlog
  have hmk : makeInstances ({ blases := [blas] } : AccelStructure).blases
      (singlePlaneScene ops center halfW halfD materialIdx vb ib).instances
      = some [{ transform := copyTransform (glmTranspose (glmIdentity ops))
                instanceCustomIndex := 0
                mask := 0xFF
                instanceShaderBindingTableRecordOffset := 0
                flags := VK_GEOMETRY_INSTANCE_TRIANGLE_FACING_CULL_DISABLE_BIT_KHR
                accelerationStructureReference := blas.address }] := rfl
  obtain ⟨a', d', ht⟩ := buildTLAS_total drv hok _ { blases := [blas] } d _ hmk
  obtain ⟨-, staging, instanceBuffer, tlasBuffer, scratch', tlas, -, hlog'⟩ :=
    buildTLAS_ok drv _ _ a' d d' _ ht
  refine ⟨_, d, _, blas, hbuild, rfl, hlog, by simp [buildRangeCounts], a', d', _, _, _,
    ht, hlog', by simp [buildRangeCounts], rfl, rfl⟩

/-- Witness for C14: the single-plane scene with the floating-point payload
erased, on the example driver. -/
theorem plane_scene_end_to_end_witness :
    (∀ h n, exampleDriver.allocOk h n = true) ∧
    ∃ a d new₁ blas,
      buildBLASes exampleDriver
          (singlePlaneScene unitOps ((), (), ()) () () 0 planeScene.vertexBuffer
            planeScene.indexBuffer) {} planeDevice = (a, .ok () d) ∧
      a.blases = [blas] ∧
      d.log = planeDevice.log ++ new₁ ∧
      buildRangeCounts .bottomLevel new₁ = [2] ∧
      ∃ a' d' insts new₂ e,
        buildTLAS exampleDriver
            (singlePlaneScene unitOps ((), (), ()) () () 0 planeScene.vertexBuffer
              planeScene.indexBuffer) a d = (a', .ok insts d') ∧
        d'.log = d.log ++ new₂ ∧
        buildRangeCounts .topLevel new₂ = [1] ∧
        insts = [e] ∧
        e.accelerationStructureReference = blas.address :=
  ⟨fun _ _ => rfl,
    (plane_scene_end_to_end unitOps ((), (), ()) () () 0 planeScene.vertexBuffer
      planeScene.indexBuffer exampleDriver (fun _ _ => rfl) planeDevice).2.2⟩

/-! ## Failures at run time and at set-up (C15, C16) -/

/-- `drawFrame` looks at the acquire result only to detect staleness: with any
other result, failures included, it does what it does on success with the same
value in `imageIndex`. -/
theorem drawFrame_result_ignored (ctx : FrameCtx) (r : Renderer) (acq : AcquireResult)
    (moved : Bool) (hst : isStale acq.res = false) :
    drawFrame ctx r acq moved
      = drawFrame ctx r { res := .success, imageIndex := acq.imageIndex } moved := by
  have hs : isStale VkResult.success = false := rfl
  simp [drawFrame, hst, hs]

/-- C15 (code at the failing input). When `vkAcquireNextImageKHR` fails with
`VK_ERROR_DEVICE_LOST`, leaving `0` in `imageIndex`, `drawFrame` returns
normally after the very trace of a successful cycle on image 0: it records,
submits and presents, and advances the frame index. -/
theorem drawFrame_acquire_error :
    ∃ r' trace,
      drawFrame exampleCtx exampleRenderer ⟨.errorDeviceLost, 0⟩ false = some (r', trace) ∧
      drawFrame exampleCtx exampleRenderer ⟨.success, 0⟩ false = some (r', trace) ∧
      recordedCmds trace = frameCommands exampleCtx 50 60 101 ∧
      submitsOf trace = [Event.queueSubmit 10 .rayTracingShader 70 30 20] ∧
      presentsOf trace = [Event.queuePresent 30 0] ∧
      r'.currentFrame = 1 :=
  ⟨_, _, rfl, rfl, by decide, by decide, by decide, rfl⟩

/-- C16 (code at the failing input). When the allocator refuses the scratch
buffer of the first mesh, `buildBLASes` throws with nothing in `blases`, while
the storage buffer (handle 3) and the acceleration structure (handle 4) already
created for that mesh are live; `AccelStructure::destroy` then issues no call
and leaves both live. -/
theorem blas_scratch_failure_leak :
    ∃ a dev,
      buildBLASes scratchRefusingDriver planeScene {} planeDevice
        = (a, .fail (.exception "Failed to create buffer") dev) ∧
      a.blases = [] ∧
      dev.liveBuffers = [1, 2, 3] ∧ dev.liveAS = [4] ∧
      (AccelStructure.destroy a dev).2.log = dev.log ∧
      3 ∈ (AccelStructure.destroy a dev).2.liveBuffers ∧
      4 ∈ (AccelStructure.destroy a dev).2.liveAS :=
  ⟨_, _, rfl, rfl, rfl, rfl, rfl, by decide, by decide⟩

/-! ## Frame synchronisation objects and the frame index (C17, C18) -/

/-- C17. The render-complete semaphores and the `imagesInFlight` mapping made
by `createSyncObjects` have one entry per presentable image, so every image
index is in bounds; and in a cycle that is not abandoned, with frame slot `f`
and acquired image `k`, the one submission waits on `imageAvailableSems[f]` at
the ray-tracing-shader stage and signals `renderFinishedSems[k]` and
`inFlightFences[f]`, and the one present waits on the same
`renderFinishedSems[k]`. -/
theorem submit_present_semaphores (ctx : FrameCtx) (h : InitHandles) (r₀ r : Renderer)
    (acq : AcquireResult) (moved : Bool)
    (himg : ctx.swapchainImages.length < 2 ^ 32)
    (hwf : r.WellFormed ctx) (hst : isStale acq.res = false)
    (hk : acq.imageIndex < ctx.swapchainImages.length) :
    ((createSyncObjects ctx h r₀).renderFinishedSems.length = ctx.swapchainImages.length ∧
     (createSyncObjects ctx h r₀).imagesInFlight.length = ctx.swapchainImages.length ∧
     (createSyncObjects ctx h r₀).imageAvailableSems.length = MAX_FRAMES_IN_FLIGHT ∧
     (createSyncObjects ctx h r₀).inFlightFences.length = MAX_FRAMES_IN_FLIGHT) ∧
    (∀ k, k < ctx.swapchainImages.length →
      (∃ s, r.renderFinishedSems[k]? = some s) ∧ ∃ p, r.imagesInFlight[k]? = some p) ∧
    ∃ r' trace sem fence cmd rf,
      drawFrame ctx r acq moved = some (r', trace) ∧
      r.imageAvailableSems[r.currentFrame]? = some sem ∧
      r.inFlightFences[r.currentFrame]? = some fence ∧
      r.commandBuffers[r.currentFrame]? = some cmd ∧
      r.renderFinishedSems[acq.imageIndex]? = some rf ∧
      submitsOf trace = [Event.queueSubmit sem .rayTracingShader cmd rf fence] ∧
      presentsOf trace = [Event.queuePresent rf acq.imageIndex] ∧
      r'.WellFormed ctx := by
  refine ⟨?_, ?_, ?_⟩
  · unfold createSyncObjects
    simp only [Nat.mod_eq_of_lt himg]
    simp [MAX_FRAMES_IN_FLIGHT]
  · intro k hk'
    obtain ⟨h1, h2, h3, h4, h5, h6, h7⟩ := hwf
    exact ⟨getElem?_of_lt_length r.renderFinishedSems k (by omega),
      getElem?_of_lt_length r.imagesInFlight k (by omega)⟩
  · obtain ⟨h1, h2, h3, h4, h5, h6, h7⟩ := hwf
    obtain ⟨fence, hf⟩ := getElem?_of_lt_length r.inFlightFences r.currentFrame (by omega)
    obtain ⟨sem, hsem⟩ := getElem?_of_lt_length r.imageAvailableSems r.currentFrame (by omega)
    obtain ⟨prev, hprev⟩ := getElem?_of_lt_length r.imagesInFlight acq.imageIndex (by omega)
    obtain ⟨ds, hds⟩ := getElem?_of_lt_length r.descriptorSets r.currentFrame (by omega)
    obtain ⟨cmd, hcmd⟩ := getElem?_of_lt_length r.commandBuffers r.currentFrame (by omega)
    obtain ⟨img, himg'⟩ := getElem?_of_lt_length ctx.swapchainImages acq.imageIndex hk
    obtain ⟨rf, hrf⟩ := getElem?_of_lt_length r.renderFinishedSems acq.imageIndex (by omega)
    refine ⟨_, _, sem, fence, cmd, rf,
      drawFrame_of_not_stale ctx r acq moved fence sem prev ds cmd img rf
        hf hsem hst hprev hds hcmd himg' hrf, hsem, hf, hcmd, hrf, ?_, ?_, ?_⟩
    · by_cases hp : prev = VK_NULL_HANDLE <;> simp [submitsOf, frameCommands, hp]
    · by_cases hp : prev = VK_NULL_HANDLE <;> simp [presentsOf, frameCommands, hp]
    · refine ⟨Nat.mod_lt _ (by decide), h2, h3, h4, h5, h6, ?_⟩
      simpa using h7

/-- Witness for C17: the first cycle of the example renderer (two frame slots,
three presentable images) on image 2. -/
theorem submit_present_semaphores_witness :
    ((createSyncObjects exampleCtx exampleHandles {}).renderFinishedSems.length = 3 ∧
     (createSyncObjects exampleCtx exampleHandles {}).imagesInFlight.length = 3 ∧
     (createSyncObjects exampleCtx exampleHandles {}).imageAvailableSems.length = 2 ∧
     (createSyncObjects exampleCtx exampleHandles {}).inFlightFences.length = 2) ∧
    (drawFrame exampleCtx exampleRenderer ⟨.success, 2⟩ false).map (fun p => submitsOf p.2)
      = some [Event.queueSubmit 10 .rayTracingShader 70 32 20] ∧
    (drawFrame exampleCtx exampleRenderer ⟨.success, 2⟩ false).map (fun p => presentsOf p.2)
      = some [Event.queuePresent 32 2] := by
  have h := submit_present_semaphores exampleCtx exampleHandles {} exampleRenderer
    ⟨.success, 2⟩ false (by decide)
    (init_wellFormed exampleCtx exampleHandles rfl rfl (by decide)) rfl (by decide)
  exact ⟨h.1, by decide, by decide⟩

/-- One call of `drawFrame` leaves the frame index alone on the early return
and otherwise advances it with wrap-around at `MAX_FRAMES_IN_FLIGHT`. -/
theorem drawFrame_currentFrame (ctx : FrameCtx) (r r' : Renderer) (acq : AcquireResult)
    (moved : Bool) (trace : List Event)
    (h : drawFrame ctx r acq moved = some (r', trace)) :
    r'.currentFrame
      = if isStale acq.res then r.currentFrame
        else add32 r.currentFrame 1 % MAX_FRAMES_IN_FLIGHT := by
  obtain ⟨fence, sem, -, -, hcase⟩ := drawFrame_inv ctx r r' acq moved trace h
  rcases hcase with ⟨hst, hr, -⟩ | ⟨hst, prev, ds, cmd, img, rf, -, -, -, -, -, hr, -⟩
  · simp [hst, hr]
  · simp [hst, hr]

theorem add32_one_mod_two (f : Nat) :
    add32 f 1 % MAX_FRAMES_IN_FLIGHT = (f + 1) % 2 := by
  unfold add32 MAX_FRAMES_IN_FLIGHT
  omega

/-- Along a run the frame index stays below two and counts the cycles that
were not abandoned, modulo two. -/
theorem runFrames_currentFrame (ctx : FrameCtx) :
    ∀ (inputs : List (AcquireResult × Bool)) (r rf : Renderer)
      (recs : List (Renderer × List Event)),
      r.currentFrame < 2 → runFrames ctx r inputs = some (recs, rf) →
      rf.currentFrame = (r.currentFrame + completedCycles inputs) % 2 ∧
      ∀ p ∈ recs, p.1.currentFrame < 2 := by
  intro inputs
  induction inputs with
  | nil =>
    intro r rf recs hlt h
    simp only [runFrames, Option.some.injEq, Prod.mk.injEq] at h
    obtain ⟨h1, h2⟩ := h
    subst h1 h2
    refine ⟨?_, by simp⟩
    simp [completedCycles]
    omega
  | cons inp rest ih =>
    intro r rf recs hlt h
    obtain ⟨acq, moved⟩ := inp
    simp only [runFrames] at h
    cases hd : drawFrame ctx r acq moved with
    | none => rw [hd] at h; cases h
    | some p =>
      obtain ⟨r', trace⟩ := p
      rw [hd] at h
      simp only at h
      cases hr : runFrames ctx r' rest with
      | none => rw [hr] at h; cases h
      | some q =>
        obtain ⟨recs', rf'⟩ := q
        rw [hr] at h
        simp only [Option.some.injEq, Prod.mk.injEq] at h
        obtain ⟨h1, h2⟩ := h
        subst h1 h2
        have hcf := drawFrame_currentFrame ctx r r' acq moved trace hd
        have hlt' : r'.currentFrame < 2 := by
          rw [hcf]
          split
          · exact hlt
          · exact Nat.mod_lt _ (by decide)
        obtain ⟨ih1, ih2⟩ := ih r' rf' recs' hlt' hr
        refine ⟨?_, ?_⟩
        · rw [ih1, hcf]
          cases hst : isStale acq.res
          · simp only [completedCycles, List.filter, hst, Bool.not_false, List.length_cons,
              Bool.false_eq_true, if_false]
            rw [add32_one_mod_two]
            omega
          · simp [completedCycles, List.filter, hst]
        · intro p hp
          rcases List.mem_cons.mp hp with hp | hp
          · subst hp; exact hlt
          · exact ih2 p hp

/-- C18. A call of `drawFrame` that returns early on a stale surface leaves
`currentFrame` unchanged, and a call that runs to its last statement sets it to
`(f + 1) mod 2`.  Hence along every run from `Renderer::init` the frame index
is 0 or 1 at the start of each cycle and at the end, and after the run it equals
the number of cycles not abandoned, modulo 2. -/
theorem frame_index_advance (ctx : FrameCtx) (h : InitHandles)
    (inputs : List (AcquireResult × Bool)) (recs : List (Renderer × List Event))
    (rf : Renderer)
    (hrun : runFrames ctx (Renderer.init ctx h) inputs = some (recs, rf)) :
    (∀ (r r' : Renderer) (acq : AcquireResult) (moved : Bool) (trace : List Event),
      drawFrame ctx r acq moved = some (r', trace) →
      (isStale acq.res = true → r'.currentFrame = r.currentFrame) ∧
      (isStale acq.res = false → r'.currentFrame = (r.currentFrame + 1) % 2)) ∧
    (Renderer.init ctx h).currentFrame = 0 ∧
    (rf.currentFrame = 0 ∨ rf.currentFrame = 1) ∧
    (∀ p ∈ recs, p.1.currentFrame = 0 ∨ p.1.currentFrame = 1) ∧
    rf.currentFrame = completedCycles inputs % 2 ∧
    ((∀ p ∈ inputs, isStale p.1.res = false) → rf.currentFrame = inputs.length % 2) := by
  have h0 : (Renderer.init ctx h).currentFrame = 0 := rfl
  obtain ⟨h1, h2⟩ := runFrames_currentFrame ctx inputs _ rf recs (by rw [h0]; decide) hrun
  rw [h0, Nat.zero_add] at h1
  have hlt : rf.currentFrame < 2 := by rw [h1]; exact Nat.mod_lt _ (by decide)
  refine ⟨?_, h0, by omega, ?_, h1, ?_⟩
  · intro r r' acq moved trace hd
    have hcf := drawFrame_currentFrame ctx r r' acq moved trace hd
    constructor
    · intro hst; simpa [hst] using hcf
    · intro hst
      rw [← add32_one_mod_two]
      simpa [hst] using hcf
  · intro p hp
    have := h2 p hp
    omega
  · intro hall
    rw [h1]
    congr 1
    unfold completedCycles
    rw [List.filter_eq_self.mpr]
    intro p hp
    simp [hall p hp]

/-- Witness for C18: three cycles of the example renderer, the second one
abandoned on an out-of-date surface. -/
theorem frame_index_advance_witness :
    ∃ recs rf,
      runFrames exampleCtx (Renderer.init exampleCtx exampleHandles)
        [(⟨.success, 0⟩, false), (⟨.errorOutOfDateKHR, 0⟩, false), (⟨.success, 1⟩, true)]
        = some (recs, rf) ∧
      recs.map (fun p => p.1.currentFrame) = [0, 1, 1] ∧
      rf.currentFrame = 0 ∧
      rf.currentFrame
        = completedCycles
            [(⟨.success, 0⟩, false), (⟨.errorOutOfDateKHR, 0⟩, false), (⟨.success, 1⟩, true)]
          % 2 := by
  obtain ⟨recs, rf, h⟩ : ∃ recs rf,
      runFrames exampleCtx (Renderer.init exampleCtx exampleHandles)
        [(⟨.success, 0⟩, false), (⟨.errorOutOfDateKHR, 0⟩, false), (⟨.success, 1⟩, true)]
        = some (recs, rf) := ⟨_, _, rfl⟩
  refine ⟨recs, rf, h, ?_, ?_, (frame_index_advance exampleCtx exampleHandles _ recs rf h).2.2.2.2.1⟩
  · cases h; rfl
  · cases h; rfl

/-! ## Recorded commands and image layouts (C19) -/

/-- What a returning call of `drawFrame` recorded: nothing on the early return,
and otherwise the nine commands of `frameCommands` for the slot's descriptor
set and the acquired image.  The accumulation image handle is never changed. -/
theorem drawFrame_recorded (ctx : FrameCtx) (r r' : Renderer) (acq : AcquireResult)
    (moved : Bool) (trace : List Event)
    (h : drawFrame ctx r acq moved = some (r', trace)) :
    r'.storageImage = r.storageImage ∧
    ((isStale acq.res = true ∧ recordedCmds trace = []) ∨
     (isStale acq.res = false ∧ ∃ ds img,
        r.descriptorSets[r.currentFrame]? = some ds ∧
        ctx.swapchainImages[acq.imageIndex]? = some img ∧
        recordedCmds trace = frameCommands ctx r.storageImage ds img)) := by
  obtain ⟨fence, sem, -, -, hcase⟩ := drawFrame_inv ctx r r' acq moved trace h
  rcases hcase with ⟨hst, hr, ht⟩ | ⟨hst, prev, ds, cmd, img, rf, -, hds, -, himg, -, hr, ht⟩
  · subst hr ht
    exact ⟨rfl, Or.inl ⟨hst, rfl⟩⟩
  · subst hr ht
    refine ⟨rfl, Or.inr ⟨hst, ds, img, hds, himg, ?_⟩⟩
    by_cases hp : prev = VK_NULL_HANDLE <;> simp [recordedCmds, frameCommands, hp]

theorem transitionsOf_append (image : Nat) (a b : List Cmd) :
    transitionsOf image (a ++ b) = transitionsOf image a ++ transitionsOf image b := by
  simp [transitionsOf, List.filterMap_append]

theorem transitionsOf_storage (ctx : FrameCtx) (s ds img : Nat) (hne : s ≠ img) :
    transitionsOf s (frameCommands ctx s ds img)
      = [(.general, .transferSrcOptimal), (.transferSrcOptimal, .general)] := by
  have hne' : ¬ img = s := fun e => hne e.symm
  simp [transitionsOf, frameCommands, hne']

theorem transitionsOf_swap (ctx : FrameCtx) (s ds img : Nat) (hne : s ≠ img) :
    transitionsOf img (frameCommands ctx s ds img)
      = [(.undefined, .transferDstOptimal), (.transferDstOptimal, .presentSrcKHR)] := by
  simp [transitionsOf, frameCommands, hne]

theorem transitionsOf_other (ctx : FrameCtx) (s ds img image : Nat)
    (h1 : image ≠ s) (h2 : image ≠ img) :
    transitionsOf image (frameCommands ctx s ds img) = [] := by
  have h1' : ¬ s = image := fun e => h1 e.symm
  have h2' : ¬ img = image := fun e => h2 e.symm
  simp [transitionsOf, frameCommands, h1', h2']

theorem frameCommands_chained (ctx : FrameCtx) (s ds img : Nat) (hne : s ≠ img)
    (image : Nat) : Chained (transitionsOf image (frameCommands ctx s ds img)) := by
  by_cases h1 : image = s
  · subst h1
    rw [transitionsOf_storage ctx _ ds img hne]
    simp [Chained]
  · by_cases h2 : image = img
    · subst h2
      rw [transitionsOf_swap ctx s ds _ hne]
      simp [Chained]
    · rw [transitionsOf_other ctx s ds img image h1 h2]
      simp [Chained]

/-- Along a run every cycle either records no transition of the accumulation
image or takes it from general to transfer-source and back. -/
theorem runFrames_storage_transitions (ctx : FrameCtx) :
    ∀ (inputs : List (AcquireResult × Bool)) (r rf : Renderer)
      (recs : List (Renderer × List Event)),
      r.storageImage ∉ ctx.swapchainImages → runFrames ctx r inputs = some (recs, rf) →
      ∀ p ∈ recs,
        transitionsOf r.storageImage (recordedCmds p.2) = [] ∨
        transitionsOf r.storageImage (recordedCmds p.2)
          = [(.general, .transferSrcOptimal), (.transferSrcOptimal, .general)] := by
  intro inputs
  induction inputs with
  | nil =>
    intro r rf recs _ h
    simp only [runFrames, Option.some.injEq, Prod.mk.injEq] at h
    obtain ⟨h1, -⟩ := h
    subst h1
    simp
  | cons inp rest ih =>
    intro r rf recs hS h
    obtain ⟨acq, moved⟩ := inp
    simp only [runFrames] at h
    cases hd : drawFrame ctx r acq moved with
    | none => rw [hd] at h; cases h
    | some q =>
      obtain ⟨r', trace⟩ := q
      rw [hd] at h
      simp only at h
      cases hr : runFrames ctx r' rest with
      | none => rw [hr] at h; cases h
      | some q =>
        obtain ⟨recs', rf'⟩ := q
        rw [hr] at h
        simp only [Option.some.injEq, Prod.mk.injEq] at h
        obtain ⟨h1, h2⟩ := h
        subst h1 h2
        obtain ⟨hsame, hcase⟩ := drawFrame_recorded ctx r r' acq moved trace hd
        intro p hp
        rcases List.mem_cons.mp hp with hp | hp
        · subst hp
          rcases hcase with ⟨-, hc⟩ | ⟨-, ds, img, -, himg, hc⟩
          · left; simp [hc, transitionsOf]
          · right
            simp only [hc]
            apply transitionsOf_storage
            intro e
            apply hS
            rw [e]
            exact List.getElem?_mem himg
        · have := ih r' rf' recs' (by rw [hsame]; exact hS) hr p hp
          rw [hsame] at this
          exact this

/-- Command lists that each leave the image's transitions empty or take it from
general to transfer-source and back keep an image that starts in general layout
chained, and leave it in general layout. -/
theorem general_round_trips (image : Nat) :
    ∀ (css : List (List Cmd)),
      (∀ cs ∈ css, transitionsOf image cs = [] ∨
        transitionsOf image cs
          = [(.general, .transferSrcOptimal), (.transferSrcOptimal, .general)]) →
      layoutAfter image .general css.flatten = .general ∧
      ∀ a : VkImageLayout × VkImageLayout, a.2 = .general →
        List.Chain (fun a b => a.2 = b.1) a (transitionsOf image css.flatten) := by
  intro css
  induction css with
  | nil =>
    intro _
    simp [layoutAfter, transitionsOf]
  | cons cs rest ih =>
    intro hall
    obtain ⟨ih1, ih2⟩ := ih (fun c hc => hall c (List.mem_cons_of_mem _ hc))
    unfold layoutAfter at ih1 ⊢
    rw [List.flatten_cons, transitionsOf_append]
    rcases hall cs (List.mem_cons_self _ _) with hc | hc
    · rw [hc]
      exact ⟨by simpa using ih1, fun a ha => by simpa using ih2 a ha⟩
    · rw [hc]
      refine ⟨by simpa using ih1, fun a ha => ?_⟩
      simp only [List.cons_append, List.nil_append, List.chain_cons]
      exact ⟨ha, trivial, ih2 _ rfl⟩

/-- C19 (amended). A cycle of `drawFrame` that is not abandoned records exactly nine
commands, in this order: bind pipeline, bind the slot's descriptor set, push
constants, trace rays over the swapchain extent, accumulation image general to
transfer-source, presentable image `k` to transfer-destination (declared old
layout: undefined), nearest-filter blit, accumulation image transfer-source to
general, image `k` transfer-destination to present.  Within the sequence every
transition of an image starts from the layout its previous transition left.
The accumulation image, left in general layout by `Renderer::init`, is in
general layout before and after every cycle of a run, and its transitions are
chained over the whole run.  The transitions of presentable image `k` in a
cycle are undefined to transfer-destination, then transfer-destination to
present: its first transition declares old layout undefined in every cycle,
whatever layout an earlier cycle left the image in. -/
theorem frame_commands_and_layouts (ctx : FrameCtx) (h : InitHandles)
    (inputs : List (AcquireResult × Bool)) (recs : List (Renderer × List Event))
    (rf : Renderer)
    (hS : h.storageImage ∉ ctx.swapchainImages)
    (hrun : runFrames ctx (Renderer.init ctx h) inputs = some (recs, rf)) :
    (∀ (r r' : Renderer) (acq : AcquireResult) (moved : Bool) (trace : List Event),
      r.storageImage ∉ ctx.swapchainImages → isStale acq.res = false →
      drawFrame ctx r acq moved = some (r', trace) →
      ∃ ds img,
        r.descriptorSets[r.currentFrame]? = some ds ∧
        ctx.swapchainImages[acq.imageIndex]? = some img ∧
        recordedCmds trace =
          [ .bindPipeline ctx.pipeline,
            .bindDescriptorSets ctx.pipelineLayout ds,
            .pushConstants ctx.pipelineLayout 4 1,
            .traceRays ctx.rgenRegion ctx.missRegion ctx.hitRegion ctx.callRegion
              ctx.width ctx.height 1,
            .imageBarrier r.storageImage .general .transferSrcOptimal
              .shaderWrite .transferRead .rayTracingShader .transfer,
            .imageBarrier img .undefined .transferDstOptimal
              .none .transferWrite .topOfPipe .transfer,
            .blitImage r.storageImage .transferSrcOptimal img .transferDstOptimal
              ctx.width ctx.height .nearest,
            .imageBarrier r.storageImage .transferSrcOptimal .general
              .transferRead .shaderWrite .transfer .rayTracingShader,
            .imageBarrier img .transferDstOptimal .presentSrcKHR
              .transferWrite .none .transfer .bottomOfPipe ] ∧
        transitionsOf r.storageImage (recordedCmds trace)
          = [(.general, .transferSrcOptimal), (.transferSrcOptimal, .general)] ∧
        transitionsOf img (recordedCmds trace)
          = [(.undefined, .transferDstOptimal), (.transferDstOptimal, .presentSrcKHR)] ∧
        (∀ image, Chained (transitionsOf image (recordedCmds trace))) ∧
        layoutAfter r.storageImage .general (recordedCmds trace) = .general) ∧
    layoutAfter h.storageImage .undefined (initCommands h.storageImage) = .general ∧
    (∀ n, layoutAfter h.storageImage .undefined
        (initCommands h.storageImage ++ runCommands (recs.take n)) = .general) ∧
    Chained (transitionsOf h.storageImage (initCommands h.storageImage ++ runCommands recs)) := by
  have hinit : transitionsOf h.storageImage (initCommands h.storageImage)
      = [(.undefined, .general)] := by
    simp [transitionsOf, initCommands]
  have hrecs := runFrames_storage_transitions ctx inputs _ rf recs hS hrun
  have hS0 : (Renderer.init ctx h).storageImage = h.storageImage := rfl
  rw [hS0] at hrecs
  refine ⟨?_, ?_, ?_, ?_⟩
  · intro r r' acq moved trace hr hst hd
    obtain ⟨-, hcase⟩ := drawFrame_recorded ctx r r' acq moved trace hd
    rcases hcase with ⟨hst', -⟩ | ⟨-, ds, img, hds, himg, hc⟩
    · rw [hst] at hst'; cases hst'
    · have hne : r.storageImage ≠ img := fun e => hr (e ▸ List.getElem?_mem himg)
      refine ⟨ds, img, hds, himg, by rw [hc]; rfl, ?_, ?_, ?_, ?_⟩
      · rw [hc]; exact transitionsOf_storage ctx _ ds img hne
      · rw [hc]; exact transitionsOf_swap ctx _ ds img hne
      · intro image; rw [hc]; exact frameCommands_chained ctx _ ds img hne image
      · unfold layoutAfter
        rw [hc, transitionsOf_storage ctx _ ds img hne]
        rfl
  · unfold layoutAfter
    rw [hinit]
    rfl
  · intro n
    have hall : ∀ cs ∈ (recs.take n).map (fun p => recordedCmds p.2),
        transitionsOf h.storageImage cs = [] ∨
        transitionsOf h.storageImage cs
          = [(.general, .transferSrcOptimal), (.transferSrcOptimal, .general)] := by
      intro cs hcs
      obtain ⟨p, hp, rfl⟩ := List.mem_map.mp hcs
      exact hrecs p (List.mem_of_mem_take hp)
    have hg := (general_round_trips h.storageImage _ hall).1
    unfold layoutAfter at hg ⊢
    unfold runCommands
    rw [transitionsOf_append, hinit]
    simpa using hg
  · have hall : ∀ cs ∈ recs.map (fun p => recordedCmds p.2),
        transitionsOf h.storageImage cs = [] ∨
        transitionsOf h.storageImage cs
          = [(.general, .transferSrcOptimal), (.transferSrcOptimal, .general)] := by
      intro cs hcs
      obtain ⟨p, hp, rfl⟩ := List.mem_map.mp hcs
      exact hrecs p hp
    have hg := (general_round_trips h.storageImage _ hall).2 (.undefined, .general) rfl
    unfold Chained runCommands
    rw [transitionsOf_append, hinit]
    exact hg

/-- Witness for C19: two cycles of the example renderer that both acquire
image 0.  The presentable image is taken from a declared undefined layout in
each cycle, whatever the previous cycle left. -/
theorem frame_commands_and_layouts_witness :
    exampleHandles.storageImage ∉ exampleCtx.swapchainImages ∧
    ∃ recs rf,
      runFrames exampleCtx (Renderer.init exampleCtx exampleHandles)
        [(⟨.success, 0⟩, false), (⟨.success, 0⟩, false)] = some (recs, rf) ∧
      Chained (transitionsOf exampleHandles.storageImage
        (initCommands exampleHandles.storageImage ++ runCommands recs)) ∧
      transitionsOf exampleHandles.storageImage
          (initCommands exampleHandles.storageImage ++ runCommands recs)
        = [(.undefined, .general),
           (.general, .transferSrcOptimal), (.transferSrcOptimal, .general),
           (.general, .transferSrcOptimal), (.transferSrcOptimal, .general)] ∧
      transitionsOf 101 (runCommands recs)
        = [(.undefined, .transferDstOptimal), (.transferDstOptimal, .presentSrcKHR),
           (.undefined, .transferDstOptimal), (.transferDstOptimal, .presentSrcKHR)] := by
  have hS : exampleHandles.storageImage ∉ exampleCtx.swapchainImages := by decide
  obtain ⟨recs, rf, h⟩ : ∃ recs rf,
      runFrames exampleCtx (Renderer.init exampleCtx exampleHandles)
        [(⟨.success, 0⟩, false), (⟨.success, 0⟩, false)] = some (recs, rf) := ⟨_, _, rfl⟩
  refine ⟨hS, recs, rf, h,
    (frame_commands_and_layouts exampleCtx exampleHandles _ recs rf hS h).2.2.2, ?_, ?_⟩
  · cases h; decide
  · cases h; decide

/-- Counterexample for C19 as stated: over a run, the transitions of a
presentable image are not chained.  In two cycles of the example renderer that
both acquire image 0 (handle 101), the first cycle leaves the image in present
layout and the second cycle's first transition of it declares old layout
undefined.  Hence it is false that in every run each transition's old layout
equals the layout left by the previous transition of that image. -/
theorem frame_layout_chain_counterexample :
    (∃ recs rf,
      runFrames exampleCtx (Renderer.init exampleCtx exampleHandles)
        [(⟨.success, 0⟩, false), (⟨.success, 0⟩, false)] = some (recs, rf) ∧
      exampleCtx.swapchainImages[0]? = some 101 ∧
      transitionsOf 101 (initCommands exampleHandles.storageImage ++ runCommands recs)
        = [(.undefined, .transferDstOptimal), (.transferDstOptimal, .presentSrcKHR),
           (.undefined, .transferDstOptimal), (.transferDstOptimal, .presentSrcKHR)] ∧
      ¬ Chained (transitionsOf 101
          (initCommands exampleHandles.storageImage ++ runCommands recs))) ∧
    ¬ (∀ (ctx : FrameCtx) (h : InitHandles) (inputs : List (AcquireResult × Bool))
        (recs : List (Renderer × List Event)) (rf : Renderer) (image : Nat),
        h.storageImage ∉ ctx.swapchainImages →
        runFrames ctx (Renderer.init ctx h) inputs = some (recs, rf) →
        Chained (transitionsOf image (initCommands h.storageImage ++ runCommands recs))) := by
  obtain ⟨recs, rf, h⟩ : ∃ recs rf,
      runFrames exampleCtx (Renderer.init exampleCtx exampleHandles)
        [(⟨.success, 0⟩, false), (⟨.success, 0⟩, false)] = some (recs, rf) := ⟨_, _, rfl⟩
  have htr : transitionsOf 101 (initCommands exampleHandles.storageImage ++ runCommands recs)
      = [(.undefined, .transferDstOptimal), (.transferDstOptimal, .presentSrcKHR),
         (.undefined, .transferDstOptimal), (.transferDstOptimal, .presentSrcKHR)] := by
    cases h; decide
  have hnot : ¬ Chained (transitionsOf 101
      (initCommands exampleHandles.storageImage ++ runCommands recs)) := by
    rw [htr]
    unfold Chained
    simp
  refine ⟨⟨recs, rf, h, by decide, htr, hnot⟩, fun hall => ?_⟩
  · exact hnot (hall exampleCtx exampleHandles _ recs rf 101 (by decide) h)

/-! ## Teardown in `main` (C20) -/

theorem runCalls_mem (throws : Nat → Bool) :
    ∀ (calls : List MainCall) (n : Nat) (c : MainCall),
      c ∈ (runCalls throws calls n).1 → c ∈ calls := by
  intro calls
  induction calls with
  | nil => intro n c h; simp [runCalls] at h
  | cons d rest ih =>
    intro n c h
    unfold runCalls at h
    by_cases ht : throws n = true
    · simp only [ht, if_true, List.mem_singleton] at h
      subst h
      exact List.mem_cons_self _ _
    · simp only [ht, Bool.false_eq_true, if_false, List.mem_cons] at h
      rcases h with h | h
      · subst h; exact List.mem_cons_self _ _
      · exact List.mem_cons_of_mem _ (ih (n + 1) c h)

theorem tryBody_no_destroy (iters : List Bool) :
    ∀ c ∈ tryBody iters, c.isDestroy = false := by
  intro c hc
  unfold tryBody at hc
  simp only [List.mem_append, List.mem_flatMap] at hc
  rcases hc with (hc | ⟨b, -, hc⟩) | hc
  · revert c; decide
  · cases b
    · revert c; simp [MainCall.isDestroy]
    · revert c; simp [MainCall.isDestroy]
  · revert c; decide

theorem runVkCalls_defined :
    ∀ (calls : List VkCall), (∀ c ∈ calls, c.Defined = true) →
      runVkCalls calls = (calls, false) := by
  intro calls
  induction calls with
  | nil => intro _; rfl
  | cons c rest ih =>
    intro h
    unfold runVkCalls
    rw [h c (List.mem_cons_self _ _), ih (fun x hx => h x (List.mem_cons_of_mem _ hx))]
    rfl

theorem runDestroys_defined :
    ∀ (l : List (MainCall × List VkCall)), (∀ p ∈ l, ∀ c ∈ p.2, c.Defined = true) →
      (runDestroys l).2 = false ∧ topLevelCalls (runDestroys l).1 = l.map Prod.fst := by
  intro l
  induction l with
  | nil => intro _; exact ⟨rfl, rfl⟩
  | cons p rest ih =>
    intro h
    obtain ⟨c, calls⟩ := p
    obtain ⟨ih1, ih2⟩ := ih (fun q hq => h q (List.mem_cons_of_mem _ hq))
    have hrun := runVkCalls_defined calls (h (c, calls) (List.mem_cons_self _ _))
    unfold runDestroys
    simp only [hrun, Bool.false_eq_true, if_false]
    refine ⟨ih1, ?_⟩
    simp only [topLevelCalls, List.filterMap_cons, List.filterMap_append, List.map_cons] at ih2 ⊢
    rw [ih2]
    simp [List.filterMap_map]

theorem destroyBufferCalls_defined (buf : AllocatedBuffer) :
    ∀ c ∈ destroyBufferCalls buf, c.Defined = true := by
  intro c hc
  unfold destroyBufferCalls at hc
  split at hc
  · simp only [List.mem_singleton] at hc; subst hc; rfl
  · simp at hc

theorem rendererDestroyCalls_defined (ctx : VulkanContext) (r : RendererResources)
    (hd : ctx.device ≠ VK_NULL_HANDLE) :
    ∀ c ∈ rendererDestroyCalls ctx r, c.Defined = true := by
  intro c hc
  simp only [rendererDestroyCalls, destroyImageCalls, List.mem_append, List.mem_flatMap,
    List.mem_map, List.mem_singleton, List.mem_cons, List.not_mem_nil, or_false] at hc
  rcases hc with (((rfl | hc | hc) | ⟨i, -, hc | rfl | rfl⟩) | ⟨s, -, rfl⟩) | rfl
  · simpa [VkCall.Defined] using hd
  · split at hc
    · simp only [List.mem_singleton] at hc; subst hc; simpa [VkCall.Defined] using hd
    · simp at hc
  · split at hc
    · simp only [List.mem_singleton] at hc; subst hc; rfl
    · simp at hc
  · exact destroyBufferCalls_defined _ c hc
  · simpa [VkCall.Defined] using hd
  · simpa [VkCall.Defined] using hd
  · simpa [VkCall.Defined] using hd
  · simpa [VkCall.Defined] using hd

theorem pipelineDestroyCalls_defined (ctx : VulkanContext) (p : RTPipelineResources)
    (hd : ctx.device ≠ VK_NULL_HANDLE) :
    ∀ c ∈ pipelineDestroyCalls ctx p, c.Defined = true := by
  intro c hc
  simp only [pipelineDestroyCalls, List.mem_append] at hc
  rcases hc with ((hc | hc) | hc) | hc
  · exact destroyBufferCalls_defined _ c hc
  all_goals
    split at hc
    · simp only [List.mem_singleton] at hc; subst hc; simpa [VkCall.Defined] using hd
    · simp at hc

theorem accelDestroyCalls_defined (ctx : VulkanContext) (a : AccelStructure)
    (hd : ctx.device ≠ VK_NULL_HANDLE) :
    ∀ c ∈ accelDestroyCalls ctx a, c.Defined = true := by
  intro c hc
  simp only [accelDestroyCalls, List.mem_filterMap] at hc
  obtain ⟨d, -, hd'⟩ := hc
  cases d <;> simp only [Option.some.injEq] at hd' <;> first
    | (subst hd'; simp [VkCall.Defined, hd])
    | cases hd'

theorem sceneDestroyCalls_defined (s : SceneBuffers) :
    ∀ c ∈ sceneDestroyCalls s, c.Defined = true := by
  intro c hc
  simp only [sceneDestroyCalls, List.mem_append] at hc
  rcases hc with ((hc | hc) | hc) | hc <;> exact destroyBufferCalls_defined _ c hc

theorem ctxDestroyCalls_defined (ctx : VulkanContext)
    (hd : ctx.device ≠ VK_NULL_HANDLE) (hi : ctx.vkInstance ≠ VK_NULL_HANDLE) :
    ∀ c ∈ ctxDestroyCalls ctx, c.Defined = true := by
  intro c hc
  simp only [ctxDestroyCalls, List.mem_append, List.mem_map, List.mem_singleton,
    List.mem_cons, List.not_mem_nil, or_false] at hc
  rcases hc with (rfl | ⟨v, -, rfl⟩) | rfl | rfl | rfl | rfl | rfl | rfl
  · simpa [VkCall.Defined] using hd
  · simpa [VkCall.Defined] using hd
  · rfl
  · simpa [VkCall.Defined] using hd
  · rfl
  · rfl
  · simpa [VkCall.Defined] using hi
  · rfl

theorem teardown_defined (ctx : VulkanContext) (c : Components)
    (hd : ctx.device ≠ VK_NULL_HANDLE) (hi : ctx.vkInstance ≠ VK_NULL_HANDLE) :
    (runDestroys
      [(.rendererDestroy, rendererDestroyCalls ctx c.renderer),
       (.pipelineDestroy, pipelineDestroyCalls ctx c.rtPipeline),
       (.accelDestroy, accelDestroyCalls ctx c.accel),
       (.sceneDestroy, sceneDestroyCalls c.scene),
       (.ctxDestroy, ctxDestroyCalls ctx)]).2 = false ∧
    topLevelCalls (runDestroys
      [(.rendererDestroy, rendererDestroyCalls ctx c.renderer),
       (.pipelineDestroy, pipelineDestroyCalls ctx c.rtPipeline),
       (.accelDestroy, accelDestroyCalls ctx c.accel),
       (.sceneDestroy, sceneDestroyCalls c.scene),
       (.ctxDestroy, ctxDestroyCalls ctx)]).1 = teardown := by
  have h := runDestroys_defined
    [(.rendererDestroy, rendererDestroyCalls ctx c.renderer),
     (.pipelineDestroy, pipelineDestroyCalls ctx c.rtPipeline),
     (.accelDestroy, accelDestroyCalls ctx c.accel),
     (.sceneDestroy, sceneDestroyCalls c.scene),
     (.ctxDestroy, ctxDestroyCalls ctx)] (by
      intro p hp
      simp only [List.mem_cons, List.not_mem_nil, or_false] at hp
      rcases hp with rfl | rfl | rfl | rfl | rfl
      · exact rendererDestroyCalls_defined ctx _ hd
      · exact pipelineDestroyCalls_defined ctx _ hd
      · exact accelDestroyCalls_defined ctx _ hd
      · exact sceneDestroyCalls_defined _
      · exact ctxDestroyCalls_defined ctx hd hi)
  exact ⟨h.1, h.2⟩

theorem init_device_created (h : CtxHandles) (fail : Option CtxInitThrow)
    (h1 : fail ≠ some .instanceBuild) (h2 : fail ≠ some .windowSurface)
    (h3 : fail ≠ some .physicalDevice) (h4 : fail ≠ some .logicalDevice) :
    (VulkanContext.init h fail).1.device = h.device ∧
    (VulkanContext.init h fail).1.vkInstance = h.vkInstance := by
  rcases fail with _ | f
  · exact ⟨rfl, rfl⟩
  · cases f
    · exact absurd rfl h1
    · exact absurd rfl h2
    · exact absurd rfl h3
    · exact absurd rfl h4
    all_goals exact ⟨rfl, rfl⟩

theorem topLevelCalls_append (a b : List MainEvent) :
    topLevelCalls (a ++ b) = topLevelCalls a ++ topLevelCalls b := by
  simp [topLevelCalls, List.filterMap_append]

theorem topLevelCalls_map_call (l : List MainCall) :
    topLevelCalls (l.map MainEvent.call) = l := by
  induction l with
  | nil => rfl
  | cons c rest ih =>
    simp only [topLevelCalls, List.map_cons, List.filterMap_cons] at ih ⊢
    rw [ih]

theorem filter_isDestroy_nil (l : List MainCall) (h : ∀ c ∈ l, c.isDestroy = false) :
    l.filter MainCall.isDestroy = [] := by
  rw [List.filter_eq_nil_iff]
  intro c hc
  simp [h c hc]

theorem mainRun_device_created (h : CtxHandles) (fail : Option CtxInitThrow)
    (throws : Nat → Bool) (iters : List Bool) (comps : Components)
    (hd : h.device ≠ VK_NULL_HANDLE) (hi : h.vkInstance ≠ VK_NULL_HANDLE)
    (h1 : fail ≠ some .instanceBuild) (h2 : fail ≠ some .windowSurface)
    (h3 : fail ≠ some .physicalDevice) (h4 : fail ≠ some .logicalDevice) :
    (mainRun h fail throws iters comps).2 = .returned 0 ∧
    (topLevelCalls (mainRun h fail throws iters comps).1).filter MainCall.isDestroy
      = teardown := by
  obtain ⟨e1, e2⟩ := init_device_created h fail h1 h2 h3 h4
  unfold mainRun
  rcases hinit : VulkanContext.init h fail with ⟨ctx, initThrew⟩
  rw [hinit] at e1 e2
  simp only at e1 e2
  have hcd : ctx.device ≠ VK_NULL_HANDLE := by rw [e1]; exact hd
  have hci : ctx.vkInstance ≠ VK_NULL_HANDLE := by rw [e2]; exact hi
  obtain ⟨t1, t2⟩ := teardown_defined ctx (if initThrew then {} else comps) hcd hci
  have hmade : ∀ c ∈ (if initThrew = true then ([MainCall.ctxInit], true)
      else (MainCall.ctxInit :: (runCalls throws (tryBody iters).tail 1).1,
            (runCalls throws (tryBody iters).tail 1).2)).1, c.isDestroy = false := by
    intro c hc
    split at hc
    · simp only [List.mem_singleton] at hc; subst hc; rfl
    · simp only [List.mem_cons] at hc
      rcases hc with rfl | hc
      · rfl
      · exact tryBody_no_destroy iters c
          (List.mem_of_mem_tail (runCalls_mem throws _ 1 c hc))
  simp only [t1, Bool.false_eq_true, if_false, topLevelCalls_append, topLevelCalls_map_call,
    List.filter_append, t2]
  refine ⟨trivial, ?_⟩
  rw [filter_isDestroy_nil _ hmade]
  have hfatal : ∀ b : Bool, (topLevelCalls
      (if b = true then [MainEvent.call MainCall.reportFatal] else [])).filter
        MainCall.isDestroy = [] := by
    intro b; cases b <;> rfl
  rw [hfatal]
  rfl

/-- C20 (code defect).  When `ctx.init` throws before the logical device exists
(instance build, window surface, physical-device selection or logical-device
build), the handler reports the error and `Renderer::destroy` is entered, whose
first statement is `vkDeviceWaitIdle(ctx.device)` with `ctx.device` still
`VK_NULL_HANDLE`: the run ends there in undefined behaviour, and neither the
other four `destroy` calls nor the two GLFW calls are reached.  This holds
whatever handles the platform would have handed out.  By contrast, on every
path on which the device was created (here with the example handles: no throw
in `ctx.init`, any later throw, any loop, any component state) `main` returns
0 and the `destroy` calls it makes are exactly the five, in the order
Renderer, RTPipeline, AccelStructure, Scene, VulkanContext. -/
theorem main_teardown_null_device :
    (∀ (h : CtxHandles) (throws : Nat → Bool) (iters : List Bool) (comps : Components),
      mainRun h (some .instanceBuild) throws iters comps =
        ([.call .ctxInit, .call .reportFatal, .call .rendererDestroy,
          .vk (.deviceWaitIdle VK_NULL_HANDLE)], .undefinedBehaviour)) ∧
    (∀ (h : CtxHandles) (throws : Nat → Bool) (iters : List Bool) (comps : Components),
      mainRun h (some .windowSurface) throws iters comps =
        ([.call .ctxInit, .call .reportFatal, .call .rendererDestroy,
          .vk (.deviceWaitIdle VK_NULL_HANDLE)], .undefinedBehaviour)) ∧
    (∀ (h : CtxHandles) (throws : Nat → Bool) (iters : List Bool) (comps : Components),
      mainRun h (some .physicalDevice) throws iters comps =
        ([.call .ctxInit, .call .reportFatal, .call .rendererDestroy,
          .vk (.deviceWaitIdle VK_NULL_HANDLE)], .undefinedBehaviour)) ∧
    (∀ (h : CtxHandles) (throws : Nat → Bool) (iters : List Bool) (comps : Components),
      mainRun h (some .logicalDevice) throws iters comps =
        ([.call .ctxInit, .call .reportFatal, .call .rendererDestroy,
          .vk (.deviceWaitIdle VK_NULL_HANDLE)], .undefinedBehaviour)) ∧
    (topLevelCalls (mainRun exampleCtxHandles (some .instanceBuild) (fun _ => false) [] {}).1
        ).filter MainCall.isDestroy ≠ teardown ∧
    (∀ (throws : Nat → Bool) (iters : List Bool) (comps : Components),
      (mainRun exampleCtxHandles none throws iters comps).2 = .returned 0 ∧
      (topLevelCalls (mainRun exampleCtxHandles none throws iters comps).1).filter
        MainCall.isDestroy = teardown) :=
  ⟨fun _ _ _ _ => rfl, fun _ _ _ _ => rfl, fun _ _ _ _ => rfl, fun _ _ _ _ => rfl,
   by decide,
   fun throws iters comps =>
     mainRun_device_created exampleCtxHandles none throws iters comps
       (by decide) (by decide) (by simp) (by simp) (by simp) (by simp)⟩

/-! ## Destroying twice (C21, C22) -/

/-- C21 (code at the failing input). On the fully built plane scene the first
`AccelStructure::destroy` destroys the bottom-level structure 4, its buffer 3,
the top-level structure 9 and the buffers 8 and 7.  It resets the three buffer
records but leaves `blases[0].handle` and `tlas` as they were, so a second
`destroy` calls `vkDestroyAccelerationStructureKHR` on the handles 4 and 9
again; it destroys no buffer again.  On a never-built object `destroy` issues
no call. -/
theorem accel_destroy_twice :
    (builtPlane.1.blases.map fun b => b.handle) = [4] ∧ builtPlane.1.tlas = 9 ∧
    (∃ a₁ d₁ a₂ d₂,
      AccelStructure.destroy builtPlane.1 builtPlane.2 = (a₁, d₁) ∧
      d₁.log = builtPlane.2.log ++
        [.destroyAccelerationStructure 4, .destroyBuffer 3,
         .destroyAccelerationStructure 9, .destroyBuffer 8, .destroyBuffer 7] ∧
      d₁.liveAS = [] ∧
      (a₁.blases.map fun b => b.handle) = [4] ∧ a₁.tlas = 9 ∧
      AccelStructure.destroy a₁ d₁ = (a₂, d₂) ∧
      d₂.log = d₁.log ++
        [.destroyAccelerationStructure 4, .destroyAccelerationStructure 9]) ∧
    ∀ dev : Device, AccelStructure.destroy {} dev = ({}, dev) :=
  ⟨rfl, rfl, ⟨_, _, _, _, rfl, rfl, rfl, rfl, rfl, rfl, rfl⟩, fun _ => rfl⟩

/-- C22. On a buffer record whose handle is null `destroyBuffer` makes no
device call and returns the record and the device state unchanged.  On a record
with a non-null handle it makes exactly one `vmaDestroyBuffer` call, for that
handle, and returns the record with handle, allocation and address reset.
Hence a second `destroyBuffer` on the returned record changes nothing, and the
two calls together free the buffer exactly once. -/
theorem destroyBuffer_idempotent (buf : AllocatedBuffer) (dev : Device) :
    (buf.buffer = VK_NULL_HANDLE → destroyBuffer buf dev = (buf, dev)) ∧
    (buf.buffer ≠ VK_NULL_HANDLE →
      destroyBuffer buf dev =
        ({ buffer := VK_NULL_HANDLE, allocation := VK_NULL_HANDLE, address := 0 },
         { dev with liveBuffers := dev.liveBuffers.erase buf.buffer
                    log := dev.log ++ [.destroyBuffer buf.buffer] })) ∧
    destroyBuffer (destroyBuffer buf dev).1 (destroyBuffer buf dev).2 = destroyBuffer buf dev ∧
    destroyedBuffers (destroyBuffer (destroyBuffer buf dev).1 (destroyBuffer buf dev).2).2.log
      = destroyedBuffers dev.log ++ (if buf.buffer ≠ VK_NULL_HANDLE then [buf.buffer] else []) := by
  by_cases h : buf.buffer = VK_NULL_HANDLE
  · have h1 : destroyBuffer buf dev = (buf, dev) := by simp [destroyBuffer, h]
    refine ⟨fun _ => h1, fun hne => absurd h hne, ?_, ?_⟩
    · rw [h1]; exact h1
    · rw [h1]; simp [h1, h]
  · have h1 : destroyBuffer buf dev =
        ({ buffer := VK_NULL_HANDLE, allocation := VK_NULL_HANDLE, address := 0 },
         { dev with liveBuffers := dev.liveBuffers.erase buf.buffer
                    log := dev.log ++ [.destroyBuffer buf.buffer] }) := by
      simp [destroyBuffer, h]
    have h2 : ∀ d : Device,
        destroyBuffer { buffer := VK_NULL_HANDLE, allocation := VK_NULL_HANDLE, address := 0 } d
          = ({ buffer := VK_NULL_HANDLE, allocation := VK_NULL_HANDLE, address := 0 }, d) := by
      intro d; simp [destroyBuffer]
    refine ⟨fun he => absurd he h, fun _ => h1, ?_, ?_⟩
    · rw [h1]; exact h2 _
    · rw [h1]
      simp only [h2]
      simp [destroyedBuffers, List.filterMap_append, h]

/-- Witness for C22: the vertex buffer of the plane scene (handle 1) and a
null record, on the device state after the upload. -/
theorem destroyBuffer_idempotent_witness :
    destroyBuffer {} planeDevice = ({}, planeDevice) ∧
    destroyBuffer planeScene.vertexBuffer planeDevice =
      ({ buffer := VK_NULL_HANDLE, allocation := VK_NULL_HANDLE, address := 0 },
       { planeDevice with liveBuffers := planeDevice.liveBuffers.erase 1
                          log := planeDevice.log ++ [.destroyBuffer 1] }) :=
  ⟨(destroyBuffer_idempotent {} planeDevice).1 rfl,
   (destroyBuffer_idempotent planeScene.vertexBuffer planeDevice).2.1 (by decide)⟩

/-! ## Command sequence of the top-level build (C23) -/

/-- C23. A completed `buildTLAS` makes exactly one one-shot submission.  It
holds three commands: first the copy of the staging buffer to the instance
buffer, second the memory barrier from transfer writes (transfer stage) to
acceleration-structure writes (acceleration-structure-build stage), last the
top-level build reading the instance buffer.  The number of bytes copied, which
is also the size of both buffers, is the number of instances times the size of
one entry. -/
theorem tlas_command_sequence {F : Type} (drv : Driver) (scene : Scene F)
    (a a' : AccelStructure) (dev dev' : Device)
    (insts : List (VkAccelerationStructureInstance F))
    (hfit : scene.instances.length * sizeofInstance < 2 ^ 64)
    (h : buildTLAS drv scene a dev = (a', .ok insts dev')) :
    insts.length = scene.instances.length ∧
    ∃ (new : List DevCall) (staging scratchAddr : Nat),
      dev'.log = dev.log ++ new ∧
      oneShotsOf new =
        [[.copyBuffer staging a'.instanceBuffer.buffer (insts.length * sizeofInstance),
          .memoryBarrier VK_ACCESS_TRANSFER_WRITE_BIT
            VK_ACCESS_ACCELERATION_STRUCTURE_WRITE_BIT_KHR
            VK_PIPELINE_STAGE_TRANSFER_BIT
            VK_PIPELINE_STAGE_ACCELERATION_STRUCTURE_BUILD_BIT_KHR,
          .buildAccelerationStructure .topLevel a'.tlas scratchAddr
            (insts.length % 2 ^ 32) (.instances a'.instanceBuffer.address)]] ∧
      allocsWithUsage [.transferSrc] new = [(staging, insts.length * sizeofInstance)] ∧
      allocsWithUsage
          [.transferDst, .shaderDeviceAddress, .accelerationStructureBuildInputReadOnly] new
        = [(a'.instanceBuffer.buffer, insts.length * sizeofInstance)] := by
  obtain ⟨hmk, staging, instanceBuffer, tlasBuffer, scratch, tlas, ha', hlog⟩ :=
    buildTLAS_ok drv scene a a' dev dev' insts h
  have hlen := makeInstances_length _ _ _ hmk
  rw [← hlen] at hfit
  rw [Nat.mod_eq_of_lt hfit] at hlog
  refine ⟨hlen, _, staging.buffer, alignScratchAddress scratch.address drv.scratchAlign,
    hlog, ?_, ?_, ?_⟩
  · subst ha'
    simp [oneShotsOf]
  · simp [allocsWithUsage]
  · subst ha'
    simp [allocsWithUsage]

/-- Witness for C23: the plane scene (one instance, 64 bytes) on the example
driver. -/
theorem tlas_command_sequence_witness :
    planeScene.instances.length * sizeofInstance < 2 ^ 64 ∧
    ∃ a' insts dev',
      buildTLAS exampleDriver planeScene planeAccel
        { lastHandle := 5, liveBuffers := [1, 2, 3], liveAS := [4] } = (a', .ok insts dev') ∧
      oneShotsOf dev'.log =
        [[.copyBuffer 6 7 64,
          .memoryBarrier 0x1000 0x400000 0x1000 0x2000000,
          .buildAccelerationStructure .topLevel 9 655488 1 (.instances 458768)]] ∧
      insts.length = planeScene.instances.length ∧
      ∃ (new : List DevCall) (staging scratchAddr : Nat),
        dev'.log = [] ++ new ∧
        oneShotsOf new =
          [[.copyBuffer staging a'.instanceBuffer.buffer (insts.length * sizeofInstance),
            .memoryBarrier VK_ACCESS_TRANSFER_WRITE_BIT
              VK_ACCESS_ACCELERATION_STRUCTURE_WRITE_BIT_KHR
              VK_PIPELINE_STAGE_TRANSFER_BIT
              VK_PIPELINE_STAGE_ACCELERATION_STRUCTURE_BUILD_BIT_KHR,
            .buildAccelerationStructure .topLevel a'.tlas scratchAddr
              (insts.length % 2 ^ 32) (.instances a'.instanceBuffer.address)]] ∧
        allocsWithUsage [.transferSrc] new = [(staging, insts.length * sizeofInstance)] ∧
        allocsWithUsage
            [.transferDst, .shaderDeviceAddress, .accelerationStructureBuildInputReadOnly] new
          = [(a'.instanceBuffer.buffer, insts.length * sizeofInstance)] := by
  obtain ⟨a', insts, dev', h⟩ : ∃ a' insts dev',
      buildTLAS exampleDriver planeScene planeAccel
        { lastHandle := 5, liveBuffers := [1, 2, 3], liveAS := [4] } = (a', .ok insts dev') :=
    ⟨_, _, _, rfl⟩
  refine ⟨by decide, a', insts, dev', h, ?_,
    tlas_command_sequence exampleDriver planeScene planeAccel a'
      { lastHandle := 5, liveBuffers := [1, 2, 3], liveAS := [4] } dev' insts (by decide) h⟩
  cases h
  decide

/-! ## Submissions and buffer lifetimes of the bottom-level builds (C24) -/

theorem createAccelerationStructure_state (drv : Driver) (old buffer size : Nat)
    (type : ASType) (dev : Device) :
    (createAccelerationStructure drv old buffer size type dev).2.liveBuffers = dev.liveBuffers ∧
    dev.lastHandle ≤ (createAccelerationStructure drv old buffer size type dev).2.lastHandle := by
  unfold createAccelerationStructure
  simp only
  split
  · exact ⟨rfl, Nat.le_succ _⟩
  · exact ⟨rfl, Nat.le_refl _⟩

/-- Effects of a successful `buildSingleBLAS` on a device whose live buffers all
carry issued handles: what it logs, seen through the projections, and which
buffers are live afterwards. -/
theorem buildSingleBLAS_effects {F : Type} (drv : Driver) (mesh : MeshData F)
    (vb ib vo io : Nat) (dev dev' : Device) (blas : BLAS)
    (h : buildSingleBLAS drv mesh vb ib vo io dev = .ok blas dev')
    (hdev : dev.HandlesIssued) :
    ∃ (new : List DevCall) (scratchH : Nat),
      dev'.log = dev.log ++ new ∧
      (oneShotsOf new).length = 1 ∧
      allocsWithUsage blasStorageUsage new =
        [(blas.buffer.buffer,
          (drv.buildSizes .bottomLevel (blasPrimitiveCount mesh)).accelerationStructureSize)] ∧
      (allocsWithUsage scratchUsage new).map Prod.fst = [scratchH] ∧
      destroyedBuffers new = [scratchH] ∧
      dev'.liveBuffers = dev.liveBuffers ++ [blas.buffer.buffer] ∧
      dev.lastHandle < blas.buffer.buffer ∧
      blas.buffer.buffer < scratchH ∧
      scratchH ≤ dev'.lastHandle ∧
      dev'.HandlesIssued := by
  unfold buildSingleBLAS at h
  simp only at h
  split at h
  · cases h
  · rename_i storage dev2 hst
    split at h
    · cases h
    · rename_i scratch dev4 hsc
      injection h with h1 h2
      obtain ⟨hb2, l2, n2, v2, -⟩ := createBuffer_ok _ _ _ _ _ _ hst
      obtain ⟨hb4, l4, n4, v4, -⟩ := createBuffer_ok _ _ _ _ _ _ hsc
      simp only at hb2 l2 n2 v2
      obtain ⟨v3, n3⟩ := createAccelerationStructure_state drv VK_NULL_HANDLE storage.buffer
        (drv.buildSizes .bottomLevel (blasPrimitiveCount mesh)).accelerationStructureSize
        .bottomLevel dev2
      have l3 := createAccelerationStructure_log drv VK_NULL_HANDLE storage.buffer
        (drv.buildSizes .bottomLevel (blasPrimitiveCount mesh)).accelerationStructureSize
        .bottomLevel dev2
      have hne : scratch.buffer ≠ VK_NULL_HANDLE := by
        rw [hb4]; exact Nat.succ_ne_zero _
      have hbuf : blas.buffer = storage := by rw [← h1]
      have hnot : scratch.buffer ∉ dev.liveBuffers ++ [storage.buffer] := by
        intro hmem
        rcases List.mem_append.mp hmem with hm | hm
        · have := hdev _ hm
          omega
        · simp only [List.mem_singleton] at hm
          omega
      have hlive : dev'.liveBuffers = dev.liveBuffers ++ [storage.buffer] := by
        rw [← h2]
        simp only [destroyBuffer, hne, ne_eq, not_false_eq_true, if_true, submitOneShot]
        rw [v4, v3, v2, List.erase_append_right _ hnot]
        simp
      have hlast : dev'.lastHandle = dev4.lastHandle := by
        rw [← h2]
        simp [destroyBuffer, hne, submitOneShot]
      have hlog : dev'.log = dev.log ++
          [ .getBuildSizes .bottomLevel (blasPrimitiveCount mesh),
            .createBuffer storage.buffer
              (drv.buildSizes .bottomLevel (blasPrimitiveCount mesh)).accelerationStructureSize
              [.accelerationStructureStorage, .shaderDeviceAddress],
            .createAccelerationStructure blas.handle storage.buffer
              (drv.buildSizes .bottomLevel (blasPrimitiveCount mesh)).accelerationStructureSize
              .bottomLevel,
            .createBuffer scratch.buffer
              (blasScratchSize
                (drv.buildSizes .bottomLevel (blasPrimitiveCount mesh)).buildScratchSize
                drv.scratchAlign)
              [.storageBuffer, .shaderDeviceAddress],
            .submitOneShot
              [.buildAccelerationStructure .bottomLevel blas.handle
                (alignScratchAddress scratch.address drv.scratchAlign)
                (blasPrimitiveCount mesh)
                (.triangles (add64 vb (vo * sizeofVertex % 2 ^ 64)) sizeofVertex
                  (sub32 (mesh.vertices.length % 2 ^ 32) 1)
                  (add64 ib (io * sizeofIndex % 2 ^ 64)) VK_GEOMETRY_OPAQUE_BIT_KHR)],
            .destroyBuffer scratch.buffer,
            .getAccelerationStructureDeviceAddress blas.handle ] := by
        rw [← h2, ← h1]
        simp only [destroyBuffer_log _ _ hne, submitOneShot, l4, l3, l2, List.append_assoc,
          List.cons_append, List.nil_append]
      refine ⟨_, scratch.buffer, hlog, ?_, ?_, ?_, ?_, ?_, ?_, ?_, ?_, ?_⟩
      · simp [oneShotsOf]
      · rw [hbuf]; simp [allocsWithUsage, blasStorageUsage]
      · simp [allocsWithUsage, scratchUsage]
      · simp [destroyedBuffers]
      · rw [hbuf]; exact hlive
      · rw [hbuf]; omega
      · rw [hbuf]; omega
      · omega
      · intro x hx
        rw [hlive] at hx
        rcases List.mem_append.mp hx with hm | hm
        · have := hdev _ hm
          omega
        · simp only [List.mem_singleton] at hm
          omega

theorem oneShotsOf_append (a b : List DevCall) :
    oneShotsOf (a ++ b) = oneShotsOf a ++ oneShotsOf b := by
  simp [oneShotsOf, List.filterMap_append]

theorem allocsWithUsage_append (u : List BufferUsage) (a b : List DevCall) :
    allocsWithUsage u (a ++ b) = allocsWithUsage u a ++ allocsWithUsage u b := by
  simp [allocsWithUsage, List.filterMap_append]

theorem destroyedBuffers_append (a b : List DevCall) :
    destroyedBuffers (a ++ b) = destroyedBuffers a ++ destroyedBuffers b := by
  simp [destroyedBuffers, List.filterMap_append]

/-- Effects of a completed loop of `buildBLASes`, by induction over the meshes. -/
theorem buildBLASesLoop_effects {F : Type} (drv : Driver) (vb ib : Nat) :
    ∀ (meshes : List (MeshData F)) (vo io : Nat) (a a' : AccelStructure) (dev dev' : Device),
      buildBLASesLoop drv vb ib meshes vo io a dev = (a', .ok () dev') →
      dev.HandlesIssued →
      ∃ (new : List DevCall) (built : List BLAS),
        a'.blases = a.blases ++ built ∧
        dev'.log = dev.log ++ new ∧
        (oneShotsOf new).length = meshes.length ∧
        allocsWithUsage blasStorageUsage new =
          List.zipWith (fun (b : BLAS) (m : MeshData F) =>
            (b.buffer.buffer,
              (drv.buildSizes .bottomLevel (blasPrimitiveCount m)).accelerationStructureSize))
            built meshes ∧
        built.length = meshes.length ∧
        (allocsWithUsage scratchUsage new).map Prod.fst = destroyedBuffers new ∧
        dev'.liveBuffers = dev.liveBuffers ++ built.map (fun b => b.buffer.buffer) ∧
        (∀ b ∈ built, dev.lastHandle < b.buffer.buffer) ∧
        (∀ s ∈ destroyedBuffers new, dev.lastHandle < s ∧ s ∉ dev'.liveBuffers) ∧
        dev.lastHandle ≤ dev'.lastHandle ∧
        dev'.HandlesIssued := by
  intro meshes
  induction meshes with
  | nil =>
    intro vo io a a' dev dev' h hdev
    simp only [buildBLASesLoop, Prod.mk.injEq, Result.ok.injEq, true_and] at h
    obtain ⟨h1, h2⟩ := h
    subst h1 h2
    exact ⟨[], [], by simp, by simp, rfl, rfl, rfl, rfl, by simp, by simp,
      by simp [destroyedBuffers], Nat.le_refl _, hdev⟩
  | cons m ms ih =>
    intro vo io a a' dev dev' h hdev
    unfold buildBLASesLoop at h
    split at h
    · simp at h
    · rename_i b d hb
      obtain ⟨new₁, s₁, hl₁, ho₁, hs₁, hc₁, hd₁, hv₁, hlt₁, hlt₁', hle₁, hdev₁⟩ :=
        buildSingleBLAS_effects drv m vb ib vo io dev d b hb hdev
      obtain ⟨new₂, built, ha, hl₂, ho₂, hs₂, hlen, hc₂, hv₂, hb₂, hd₂, hle₂, hdev₂⟩ :=
        ih _ _ _ _ _ _ h hdev₁
      refine ⟨new₁ ++ new₂, b :: built, ?_, ?_, ?_, ?_, ?_, ?_, ?_, ?_, ?_, ?_, hdev₂⟩
      · rw [ha]; simp
      · rw [hl₂, hl₁, List.append_assoc]
      · rw [oneShotsOf_append, List.length_append, ho₁, ho₂, List.length_cons]; omega
      · rw [allocsWithUsage_append, hs₁, hs₂]; rfl
      · simp [hlen]
      · rw [allocsWithUsage_append, destroyedBuffers_append, List.map_append, hc₁, hc₂, hd₁]
      · rw [hv₂, hv₁]; simp
      · intro x hx
        rcases List.mem_cons.mp hx with hx | hx
        · subst hx; exact hlt₁
        · have := hb₂ x hx
          omega
      · intro s hs
        rw [destroyedBuffers_append, hd₁] at hs
        rcases List.mem_append.mp hs with hs | hs
        · simp only [List.mem_singleton] at hs
          subst hs
          refine ⟨by omega, ?_⟩
          rw [hv₂, hv₁]
          intro hmem
          rcases List.mem_append.mp hmem with hm | hm
          · rcases List.mem_append.mp hm with hm | hm
            · have := hdev _ hm
              omega
            · simp only [List.mem_singleton] at hm
              omega
          · obtain ⟨x, hx, hxe⟩ := List.mem_map.mp hm
            have := hb₂ x hx
            omega
        · have := hd₂ s hs
          exact ⟨by omega, this.2⟩
      · omega

theorem zipWith_pair_fst {α β γ δ : Type} (f : α → γ) (g : β → δ) :
    ∀ (xs : List α) (ys : List β), xs.length = ys.length →
      (List.zipWith (fun x y => (f x, g y)) xs ys).map Prod.fst = xs.map f ∧
      (List.zipWith (fun x y => (f x, g y)) xs ys).map Prod.snd = ys.map g := by
  intro xs
  induction xs with
  | nil =>
    intro ys h
    cases ys with
    | nil => simp
    | cons y ys => simp at h
  | cons x xs ih =>
    intro ys h
    cases ys with
    | nil => simp at h
    | cons y ys =>
      obtain ⟨h1, h2⟩ := ih ys (by simpa using h)
      simp [h1, h2]

/-- C24. A completed `buildBLASes` on a scene with `m` meshes makes exactly `m`
one-shot submissions; the storage buffers it creates are those of the `m`
structures it appends, each allocated with the `accelerationStructureSize` the
size query reported for its mesh; every scratch buffer it created has been
destroyed and is not live when it returns, while every storage buffer, and
every buffer that was live before, is live. -/
theorem blas_submissions_and_buffers {F : Type} (drv : Driver) (scene : Scene F)
    (a a' : AccelStructure) (dev dev' : Device)
    (hdev : dev.HandlesIssued)
    (h : buildBLASes drv scene a dev = (a', .ok () dev')) :
    ∃ (new : List DevCall) (built : List BLAS),
      a'.blases = a.blases ++ built ∧
      built.length = scene.meshes.length ∧
      dev'.log = dev.log ++ new ∧
      (oneShotsOf new).length = scene.meshes.length ∧
      (allocsWithUsage blasStorageUsage new).map Prod.fst
        = built.map (fun b => b.buffer.buffer) ∧
      (allocsWithUsage blasStorageUsage new).map Prod.snd
        = scene.meshes.map (fun m =>
            (drv.buildSizes .bottomLevel (blasPrimitiveCount m)).accelerationStructureSize) ∧
      (∀ s ∈ (allocsWithUsage scratchUsage new).map Prod.fst,
        s ∈ destroyedBuffers new ∧ s ∉ dev'.liveBuffers) ∧
      (∀ b ∈ built, b.buffer.buffer ∈ dev'.liveBuffers ∧
        b.buffer.buffer ∉ destroyedBuffers new) ∧
      (∀ x ∈ dev.liveBuffers, x ∈ dev'.liveBuffers) := by
  unfold buildBLASes at h
  obtain ⟨new, built, ha, hl, ho, hs, hlen, hc, hv, hb, hd, -, -⟩ :=
    buildBLASesLoop_effects drv _ _ _ _ _ _ _ _ _ h hdev
  obtain ⟨hz1, hz2⟩ := zipWith_pair_fst (fun b : BLAS => b.buffer.buffer)
    (fun m : MeshData F =>
      (drv.buildSizes .bottomLevel (blasPrimitiveCount m)).accelerationStructureSize)
    built scene.meshes hlen
  refine ⟨new, built, ha, hlen, hl, ho, ?_, ?_, ?_, ?_, ?_⟩
  · rw [hs]; exact hz1
  · rw [hs]; exact hz2
  · intro s hsm
    rw [hc] at hsm
    exact ⟨hsm, (hd s hsm).2⟩
  · intro b hbm
    refine ⟨?_, ?_⟩
    · rw [hv]
      exact List.mem_append_right _ (List.mem_map.mpr ⟨b, hbm, rfl⟩)
    · intro hmem
      apply (hd _ hmem).2
      rw [hv]
      exact List.mem_append_right _ (List.mem_map.mpr ⟨b, hbm, rfl⟩)
  · intro x hx
    rw [hv]
    exact List.mem_append_left _ hx

/-- Witness for C24: the plane scene on the example driver; the storage buffer
gets handle 3 and stays live, the scratch buffer gets handle 5 and is
destroyed. -/
theorem blas_submissions_and_buffers_witness :
    planeDevice.HandlesIssued ∧
    ∃ a' dev',
      buildBLASes exampleDriver planeScene {} planeDevice = (a', .ok () dev') ∧
      dev'.liveBuffers = [1, 2, 3] ∧
      allocsWithUsage scratchUsage dev'.log = [(5, 512)] ∧
      ∃ (new : List DevCall) (built : List BLAS),
        a'.blases = ({} : AccelStructure).blases ++ built ∧
        built.length = planeScene.meshes.length ∧
        dev'.log = planeDevice.log ++ new ∧
        (oneShotsOf new).length = planeScene.meshes.length ∧
        (allocsWithUsage blasStorageUsage new).map Prod.fst
          = built.map (fun b => b.buffer.buffer) ∧
        (allocsWithUsage blasStorageUsage new).map Prod.snd
          = planeScene.meshes.map (fun m =>
              (exampleDriver.buildSizes .bottomLevel
                (blasPrimitiveCount m)).accelerationStructureSize) ∧
        (∀ s ∈ (allocsWithUsage scratchUsage new).map Prod.fst,
          s ∈ destroyedBuffers new ∧ s ∉ dev'.liveBuffers) ∧
        (∀ b ∈ built, b.buffer.buffer ∈ dev'.liveBuffers ∧
          b.buffer.buffer ∉ destroyedBuffers new) ∧
        (∀ x ∈ planeDevice.liveBuffers, x ∈ dev'.liveBuffers) := by
  have hdev : planeDevice.HandlesIssued := by
    intro x hx
    simp only [planeDevice, List.mem_cons, List.mem_singleton, List.not_mem_nil, or_false] at hx ⊢
    omega
  obtain ⟨a', dev', h⟩ : ∃ a' dev',
      buildBLASes exampleDriver planeScene {} planeDevice = (a', .ok () dev') := ⟨_, _, rfl⟩
  refine ⟨hdev, a', dev', h, ?_, ?_,
    blas_submissions_and_buffers exampleDriver planeScene {} a' planeDevice dev' hdev h⟩
  · cases h; rfl
  · cases h; decide

/-! ## Scratch address inside the scratch buffer (C26) -/

/-- For a power-of-two alignment held in a `uint32_t` and an address with
`addr + A ≤ 2^64`, the 64-bit mask computation of the builds rounds the address
up to the alignment. -/
theorem alignScratchAddress_eq_roundUp (addr A : Nat) (hA : IsPow2 A) (hA32 : A < 2 ^ 32)
    (hfit : addr + A ≤ 2 ^ 64) : alignScratchAddress addr A = roundUp addr A := by
  obtain ⟨k, rfl⟩ := hA
  have hk : k < 32 := pow2_lt_iff k hA32
  have hpos : 0 < 2 ^ k := Nat.pow_pos (by norm_num)
  unfold alignScratchAddress
  split
  · have h1 : sub64 (add64 addr (2 ^ k)) 1 = addr + 2 ^ k - 1 := by
      unfold sub64 add64
      omega
    have h2 : not64 (sub32 (2 ^ k) 1) = 2 ^ 64 - 1 - (2 ^ k - 1) := by
      rw [sub32_one _ hpos hA32]
      unfold not64
      omega
    rw [h1, h2, land_mask 64 k _ (by omega) (by omega), roundUp, Nat.mul_comm]
  · rename_i hle
    have h1 : (2 : Nat) ^ k = 1 := by omega
    rw [h1, roundUp]
    simp

theorem createBuffer_address (drv : Driver) (size : Nat) (usage : List BufferUsage)
    (dev dev' : Device) (buf : AllocatedBuffer)
    (h : createBuffer drv size usage dev = .ok buf dev') :
    buf.address
      = if BufferUsage.shaderDeviceAddress ∈ usage then drv.bufferAddress buf.buffer else 0 := by
  unfold createBuffer at h
  simp only at h
  split at h
  · injection h with h1 h2
    subst h1
    rfl
  · cases h

theorem buildScratchAddresses_append (a b : List DevCall) :
    buildScratchAddresses (a ++ b) = buildScratchAddresses a ++ buildScratchAddresses b := by
  simp [buildScratchAddresses, oneShotsOf_append]

/-- The scratch buffer of a successful `buildSingleBLAS`: its size, and the
scratch address of the build in terms of the address the driver gave the
buffer. -/
theorem buildSingleBLAS_scratch {F : Type} (drv : Driver) (mesh : MeshData F)
    (vb ib vo io : Nat) (dev dev' : Device) (blas : BLAS)
    (h : buildSingleBLAS drv mesh vb ib vo io dev = .ok blas dev') :
    ∃ (new : List DevCall) (scratchH : Nat),
      dev'.log = dev.log ++ new ∧
      allocsWithUsage scratchUsage new =
        [(scratchH,
          blasScratchSize (drv.buildSizes .bottomLevel (blasPrimitiveCount mesh)).buildScratchSize
            drv.scratchAlign)] ∧
      buildScratchAddresses new
        = [alignScratchAddress (drv.bufferAddress scratchH) drv.scratchAlign] := by
  unfold buildSingleBLAS at h
  simp only at h
  split at h
  · cases h
  · rename_i storage dev2 hst
    split at h
    · cases h
    · rename_i scratch dev4 hsc
      injection h with h1 h2
      obtain ⟨-, l2, -, -, -⟩ := createBuffer_ok _ _ _ _ _ _ hst
      obtain ⟨hb4, l4, -, -, -⟩ := createBuffer_ok _ _ _ _ _ _ hsc
      have hadr := createBuffer_address _ _ _ _ _ _ hsc
      simp only [List.mem_cons, List.mem_singleton, or_true, if_true] at hadr
      simp only at l2
      have l3 := createAccelerationStructure_log drv VK_NULL_HANDLE storage.buffer
        (drv.buildSizes .bottomLevel (blasPrimitiveCount mesh)).accelerationStructureSize
        .bottomLevel dev2
      have hne : scratch.buffer ≠ VK_NULL_HANDLE := by
        rw [hb4]; exact Nat.succ_ne_zero _
      have hlog : dev'.log = dev.log ++
          [ .getBuildSizes .bottomLevel (blasPrimitiveCount mesh),
            .createBuffer storage.buffer
              (drv.buildSizes .bottomLevel (blasPrimitiveCount mesh)).accelerationStructureSize
              [.accelerationStructureStorage, .shaderDeviceAddress],
            .createAccelerationStructure blas.handle storage.buffer
              (drv.buildSizes .bottomLevel (blasPrimitiveCount mesh)).accelerationStructureSize
              .bottomLevel,
            .createBuffer scratch.buffer
              (blasScratchSize
                (drv.buildSizes .bottomLevel (blasPrimitiveCount mesh)).buildScratchSize
                drv.scratchAlign)
              [.storageBuffer, .shaderDeviceAddress],
            .submitOneShot
              [.buildAccelerationStructure .bottomLevel blas.handle
                (alignScratchAddress scratch.address drv.scratchAlign)
                (blasPrimitiveCount mesh)
                (.triangles (add64 vb (vo * sizeofVertex % 2 ^ 64)) sizeofVertex
                  (sub32 (mesh.vertices.length % 2 ^ 32) 1)
                  (add64 ib (io * sizeofIndex % 2 ^ 64)) VK_GEOMETRY_OPAQUE_BIT_KHR)],
            .destroyBuffer scratch.buffer,
            .getAccelerationStructureDeviceAddress blas.handle ] := by
        rw [← h2, ← h1]
        simp only [destroyBuffer_log _ _ hne, submitOneShot, l4, l3, l2, List.append_assoc,
          List.cons_append, List.nil_append]
      refine ⟨_, scratch.buffer, hlog, ?_, ?_⟩
      · simp [allocsWithUsage, scratchUsage]
      · simp [buildScratchAddresses, oneShotsOf, hadr]

/-- The scratch buffer of a successful `buildTLAS`. -/
theorem buildTLAS_scratch {F : Type} (drv : Driver) (scene : Scene F) (a a' : AccelStructure)
    (dev dev' : Device) (vkInstances : List (VkAccelerationStructureInstance F))
    (h : buildTLAS drv scene a dev = (a', .ok vkInstances dev')) :
    ∃ (new : List DevCall) (scratchH : Nat),
      dev'.log = dev.log ++ new ∧
      allocsWithUsage scratchUsage new =
        [(scratchH,
          tlasScratchSize
            (drv.buildSizes .topLevel (vkInstances.length % 2 ^ 32)).buildScratchSize
            drv.scratchAlign)] ∧
      buildScratchAddresses new
        = [alignScratchAddress (drv.bufferAddress scratchH) drv.scratchAlign] := by
  unfold buildTLAS at h
  split at h
  · cases h
  · rename_i insts hinst
    simp only at h
    split at h
    · cases h
    · rename_i staging dev1 hstg
      split at h
      · cases h
      · rename_i instanceBuffer dev2 hib
        split at h
        · cases h
        · rename_i tlasBuffer dev4 htb
          split at h
          · cases h
          · rename_i scratch dev6 hsc
            injection h with ha hr
            injection hr with hv hd
            subst hv
            obtain ⟨hb1, l1, -, -, -⟩ := createBuffer_ok _ _ _ _ _ _ hstg
            obtain ⟨-, l2, -, -, -⟩ := createBuffer_ok _ _ _ _ _ _ hib
            obtain ⟨-, l4, -, -, -⟩ := createBuffer_ok _ _ _ _ _ _ htb
            obtain ⟨hb6, l6, -, -, -⟩ := createBuffer_ok _ _ _ _ _ _ hsc
            have hadr := createBuffer_address _ _ _ _ _ _ hsc
            simp only [List.mem_cons, List.mem_singleton, or_true, if_true] at hadr
            have hne1 : staging.buffer ≠ VK_NULL_HANDLE := by
              rw [hb1]; exact Nat.succ_ne_zero _
            have hne6 : scratch.buffer ≠ VK_NULL_HANDLE := by
              rw [hb6]; exact Nat.succ_ne_zero _
            have hlog : dev'.log = dev.log ++
                [ .createBuffer staging.buffer (insts.length * sizeofInstance % 2 ^ 64)
                    [.transferSrc],
                  .createBuffer instanceBuffer.buffer (insts.length * sizeofInstance % 2 ^ 64)
                    [.transferDst, .shaderDeviceAddress,
                     .accelerationStructureBuildInputReadOnly],
                  .getBuildSizes .topLevel (insts.length % 2 ^ 32),
                  .createBuffer tlasBuffer.buffer
                    (drv.buildSizes .topLevel (insts.length % 2 ^ 32)).accelerationStructureSize
                    [.accelerationStructureStorage, .shaderDeviceAddress],
                  .createAccelerationStructure a'.tlas tlasBuffer.buffer
                    (drv.buildSizes .topLevel (insts.length % 2 ^ 32)).accelerationStructureSize
                    .topLevel,
                  .createBuffer scratch.buffer
                    (tlasScratchSize
                      (drv.buildSizes .topLevel (insts.length % 2 ^ 32)).buildScratchSize
                      drv.scratchAlign)
                    [.storageBuffer, .shaderDeviceAddress],
                  .submitOneShot
                    [.copyBuffer staging.buffer instanceBuffer.buffer
                        (insts.length * sizeofInstance % 2 ^ 64),
                     .memoryBarrier VK_ACCESS_TRANSFER_WRITE_BIT
                        VK_ACCESS_ACCELERATION_STRUCTURE_WRITE_BIT_KHR
                        VK_PIPELINE_STAGE_TRANSFER_BIT
                        VK_PIPELINE_STAGE_ACCELERATION_STRUCTURE_BUILD_BIT_KHR,
                     .buildAccelerationStructure .topLevel a'.tlas
                        (alignScratchAddress scratch.address drv.scratchAlign)
                        (insts.length % 2 ^ 32) (.instances instanceBuffer.address)],
                  .destroyBuffer staging.buffer,
                  .destroyBuffer scratch.buffer ] := by
              rw [← hd, ← ha]
              simp only [destroyBuffer_log _ _ hne6, destroyBuffer_log _ _ hne1, submitOneShot,
                l6, createAccelerationStructure_log, l4, l2, l1, List.append_assoc,
                List.cons_append, List.nil_append]
            refine ⟨_, scratch.buffer, hlog, ?_, ?_⟩
            · simp [allocsWithUsage, scratchUsage]
            · simp [buildScratchAddresses, oneShotsOf, hadr]

theorem roundUp_le_pred (x a : Nat) : roundUp x a ≤ x + a - 1 := by
  unfold roundUp
  exact Nat.div_mul_le_self _ _

theorem le_roundUp_of_pos (S A : Nat) (hA : 0 < A) (hS : 0 < S) : A ≤ roundUp S A := by
  obtain ⟨⟨c, hc⟩, hle, -⟩ := roundUp_isLeastMultiple S A hA
  rw [hc]
  rcases Nat.eq_zero_or_pos c with h0 | hpos
  · rw [h0, Nat.mul_zero] at hc
    omega
  · exact Nat.le_mul_of_pos_right A hpos

/-- C26. For a power-of-two scratch alignment `A` (a `uint32_t`), with the
scratch buffer lying inside the 64-bit address space: the scratch address
handed to the build is the least multiple of `A` that is at least the buffer's
base address, and the `buildScratchSize` bytes from it end inside the buffer;
in `buildTLAS` for every `buildScratchSize` `S` (with `S + A` below `2^64`), in
`buildSingleBLAS` for every `buildScratchSize` `S` with `0 < S` and
`S + A - 1 < 2^32`. -/
theorem scratch_address_in_buffer {F : Type} (drv : Driver) (hA : IsPow2 drv.scratchAlign)
    (hA32 : drv.scratchAlign < 2 ^ 32) :
    (∀ (scene : Scene F) (a a' : AccelStructure) (dev dev' : Device)
        (insts : List (VkAccelerationStructureInstance F)),
      buildTLAS drv scene a dev = (a', .ok insts dev') →
      ∃ (new : List DevCall) (scratchH size addr : Nat),
        dev'.log = dev.log ++ new ∧
        allocsWithUsage scratchUsage new = [(scratchH, size)] ∧
        buildScratchAddresses new = [addr] ∧
        ((drv.buildSizes .topLevel (scene.instances.length % 2 ^ 32)).buildScratchSize
            + drv.scratchAlign < 2 ^ 64 →
          drv.bufferAddress scratchH + size ≤ 2 ^ 64 →
          IsLeastMultiple drv.scratchAlign (drv.bufferAddress scratchH) addr ∧
          drv.bufferAddress scratchH ≤ addr ∧
          addr + (drv.buildSizes .topLevel (scene.instances.length % 2 ^ 32)).buildScratchSize
            ≤ drv.bufferAddress scratchH + size)) ∧
    (∀ (mesh : MeshData F) (vb ib vo io : Nat) (dev dev' : Device) (blas : BLAS),
      buildSingleBLAS drv mesh vb ib vo io dev = .ok blas dev' →
      ∃ (new : List DevCall) (scratchH size addr : Nat),
        dev'.log = dev.log ++ new ∧
        allocsWithUsage scratchUsage new = [(scratchH, size)] ∧
        buildScratchAddresses new = [addr] ∧
        (0 < (drv.buildSizes .bottomLevel (blasPrimitiveCount mesh)).buildScratchSize →
          (drv.buildSizes .bottomLevel (blasPrimitiveCount mesh)).buildScratchSize
            + drv.scratchAlign - 1 < 2 ^ 32 →
          drv.bufferAddress scratchH + size ≤ 2 ^ 64 →
          IsLeastMultiple drv.scratchAlign (drv.bufferAddress scratchH) addr ∧
          drv.bufferAddress scratchH ≤ addr ∧
          addr + (drv.buildSizes .bottomLevel (blasPrimitiveCount mesh)).buildScratchSize
            ≤ drv.bufferAddress scratchH + size)) := by
  have hpos := hA.pos
  constructor
  · intro scene a a' dev dev' insts h
    obtain ⟨hmk, -⟩ := buildTLAS_ok drv scene a a' dev dev' insts h
    have hlen := makeInstances_length _ _ _ hmk
    obtain ⟨new, scratchH, hlog, hal, hadr⟩ := buildTLAS_scratch drv scene a a' dev dev' insts h
    rw [hlen] at hal
    refine ⟨new, scratchH, _, _, hlog, hal, hadr, ?_⟩
    intro hfit hfit64
    rw [tlasScratchSize_eq _ _ hfit] at hfit64 ⊢
    rw [alignScratchAddress_eq_roundUp _ _ hA hA32 (by omega)]
    have h1 := roundUp_isLeastMultiple (drv.bufferAddress scratchH) drv.scratchAlign hpos
    have h2 := roundUp_le_pred (drv.bufferAddress scratchH) drv.scratchAlign
    exact ⟨h1, h1.2.1, by omega⟩
  · intro mesh vb ib vo io dev dev' blas h
    obtain ⟨new, scratchH, hlog, hal, hadr⟩ :=
      buildSingleBLAS_scratch drv mesh vb ib vo io dev dev' blas h
    refine ⟨new, scratchH, _, _, hlog, hal, hadr, ?_⟩
    intro hS hfit32 hfit64
    rw [blasScratchSize_eq _ _ hA hA32 (by omega)] at hfit64 ⊢
    have h3 := le_roundUp_of_pos _ drv.scratchAlign hpos hS
    rw [alignScratchAddress_eq_roundUp _ _ hA hA32 (by omega)]
    have h1 := roundUp_isLeastMultiple (drv.bufferAddress scratchH) drv.scratchAlign hpos
    have h2 := roundUp_le_pred (drv.bufferAddress scratchH) drv.scratchAlign
    exact ⟨h1, h1.2.1, by omega⟩

/-- Witness for C26: the bottom-level build of the plane mesh on the example
driver (alignment 128, scratch size 256): the scratch buffer of 512 bytes is at
address 327696, and the build gets the address 327808. -/
theorem scratch_address_in_buffer_witness :
    IsPow2 exampleDriver.scratchAlign ∧ exampleDriver.scratchAlign < 2 ^ 32 ∧
    exampleDriver.bufferAddress 5 = 327696 ∧
    ∃ blas dev', buildSingleBLAS exampleDriver planeMesh 65552 131088 0 0 planeDevice
        = .ok blas dev' ∧
      allocsWithUsage scratchUsage dev'.log = [(5, 512)] ∧
      buildScratchAddresses dev'.log = [327808] ∧
      IsLeastMultiple 128 327696 327808 ∧ 327696 ≤ 327808 ∧ 327808 + 256 ≤ 327696 + 512 := by
  have hA : IsPow2 exampleDriver.scratchAlign := ⟨7, by decide⟩
  obtain ⟨blas, dev', h⟩ : ∃ blas dev',
      buildSingleBLAS exampleDriver planeMesh 65552 131088 0 0 planeDevice = .ok blas dev' :=
    ⟨_, _, rfl⟩
  obtain ⟨new, scratchH, size, addr, hlog, hal, hadr, himp⟩ :=
    (scratch_address_in_buffer exampleDriver hA (by decide)).2
      planeMesh 65552 131088 0 0 planeDevice dev' blas h
  have hnew : new = dev'.log := by rw [hlog]; rfl
  subst hnew
  have hal' : allocsWithUsage scratchUsage dev'.log = [(5, 512)] := by cases h; decide
  have hadr' : buildScratchAddresses dev'.log = [327808] := by cases h; decide
  rw [hal'] at hal
  rw [hadr'] at hadr
  simp only [List.cons.injEq, Prod.mk.injEq, and_true] at hal hadr
  obtain ⟨h5, h512⟩ := hal
  subst h5 h512 hadr
  exact ⟨hA, by decide, by decide, blas, dev', h, hal', hadr',
    himp (by decide) (by decide) (by decide)⟩

/-! ## Sample counter written to the uniform record (C27) -/

/-- The value a cycle writes: nothing on the early return, otherwise the
counter as it was when the call started. -/
theorem drawFrame_uboWrites (ctx : FrameCtx) (r r' : Renderer) (acq : AcquireResult)
    (moved : Bool) (trace : List Event)
    (h : drawFrame ctx r acq moved = some (r', trace)) :
    uboWrites trace = (if isStale acq.res then [] else [r.sampleCount]) ∧
    r'.sampleCount = sampleStep r.sampleCount (acq, moved) := by
  obtain ⟨fence, sem, -, -, hcase⟩ := drawFrame_inv ctx r r' acq moved trace h
  rcases hcase with ⟨hst, hr, ht⟩ | ⟨hst, prev, ds, cmd, img, rf, -, -, -, -, -, hr, ht⟩
  · subst hr ht
    simp [hst, uboWrites, sampleStep]
  · subst hr ht
    refine ⟨?_, by simp [hst, sampleStep]⟩
    by_cases hp : prev = VK_NULL_HANDLE <;> simp [uboWrites, frameCommands, hp, hst]

/-- Along a run, record `i` holds the state in which cycle `i` started, and that
state is the one reached by the run over the first `i` inputs. -/
theorem runFrames_getElem (ctx : FrameCtx) :
    ∀ (inputs : List (AcquireResult × Bool)) (r rf : Renderer)
      (recs : List (Renderer × List Event)),
      runFrames ctx r inputs = some (recs, rf) →
      recs.length = inputs.length ∧
      ∀ (i : Nat) (inp : AcquireResult × Bool), inputs[i]? = some inp →
        ∃ (ri r' : Renderer) (ti : List Event),
          recs[i]? = some (ri, ti) ∧
          drawFrame ctx ri inp.1 inp.2 = some (r', ti) ∧
          ri.sampleCount = (inputs.take i).foldl sampleStep r.sampleCount := by
  intro inputs
  induction inputs with
  | nil =>
    intro r rf recs h
    simp only [runFrames, Option.some.injEq, Prod.mk.injEq] at h
    obtain ⟨h1, -⟩ := h
    subst h1
    exact ⟨rfl, fun i inp hi => by simp at hi⟩
  | cons x rest ih =>
    intro r rf recs h
    obtain ⟨acq, moved⟩ := x
    simp only [runFrames] at h
    cases hd : drawFrame ctx r acq moved with
    | none => rw [hd] at h; cases h
    | some p =>
      obtain ⟨r₁, trace⟩ := p
      rw [hd] at h
      simp only at h
      cases hr : runFrames ctx r₁ rest with
      | none => rw [hr] at h; cases h
      | some q =>
        obtain ⟨recs', rf'⟩ := q
        rw [hr] at h
        simp only [Option.some.injEq, Prod.mk.injEq] at h
        obtain ⟨h1, h2⟩ := h
        subst h1 h2
        obtain ⟨ihlen, ih'⟩ := ih r₁ rf' recs' hr
        refine ⟨by simp [ihlen], ?_⟩
        intro i inp hi
        cases i with
        | zero =>
          simp only [List.getElem?_cons_zero, Option.some.injEq] at hi
          subst hi
          exact ⟨r, r₁, trace, by simp, hd, by simp⟩
        | succ j =>
          simp only [List.getElem?_cons_succ] at hi
          obtain ⟨ri, r', ti, hrec, hdraw, hsc⟩ := ih' j inp hi
          refine ⟨ri, r', ti, by simpa using hrec, hdraw, ?_⟩
          rw [hsc, (drawFrame_uboWrites ctx r r₁ acq moved trace hd).2]
          simp

theorem nonMovedStreak_snoc (l : List (AcquireResult × Bool)) (x : AcquireResult × Bool) :
    nonMovedStreak (l ++ [x])
      = if isStale x.1.res then nonMovedStreak l
        else if x.2 then 0
        else nonMovedStreak l + 1 := by
  unfold nonMovedStreak
  rw [List.filter_append]
  cases hst : isStale x.1.res
  · cases hm : x.2 <;> simp [List.filter, hst, hm, List.takeWhile]
  · simp [List.filter, hst]

/-- The counter the code maintains, started at zero, is the streak of the
claim, as a 32-bit value. -/
theorem foldl_sampleStep_eq (inputs : List (AcquireResult × Bool)) :
    inputs.foldl sampleStep 0 = nonMovedStreak inputs % 2 ^ 32 := by
  induction inputs using List.reverseRecOn with
  | nil => rfl
  | append_singleton l x ih =>
    rw [List.foldl_append, List.foldl_cons, List.foldl_nil, ih, nonMovedStreak_snoc]
    unfold sampleStep
    cases hst : isStale x.1.res
    · cases hm : x.2
      · simp only [Bool.false_eq_true, if_false, add32]
        omega
      · simp
    · simp

theorem nonMovedStreak_le (inputs : List (AcquireResult × Bool)) :
    nonMovedStreak inputs ≤ inputs.length := by
  unfold nonMovedStreak
  calc _ ≤ ((inputs.filter fun p => !isStale p.1.res).reverse).length :=
        (List.takeWhile_sublist _).length_le
    _ = (inputs.filter fun p => !isStale p.1.res).length := List.length_reverse _
    _ ≤ inputs.length := List.length_filter_le _ _

/-- C27. A cycle that is not abandoned writes into the uniform record the
value `sampleCount` had when the cycle started, whether or not the camera
moved; after a cycle with camera motion the counter is 0, so the next cycle
that is not abandoned writes 0.  Along a run from `Renderer::init` the value
written in cycle `i` is the number of completed cycles without camera motion
since the most recent completed cycle with motion (or since the start), as a
32-bit value. -/
theorem ubo_sample_count (ctx : FrameCtx) (h : InitHandles)
    (inputs : List (AcquireResult × Bool)) (recs : List (Renderer × List Event))
    (rf : Renderer)
    (hrun : runFrames ctx (Renderer.init ctx h) inputs = some (recs, rf)) :
    (∀ (r r' : Renderer) (acq : AcquireResult) (moved : Bool) (trace : List Event),
      drawFrame ctx r acq moved = some (r', trace) → isStale acq.res = false →
      uboWrites trace = [r.sampleCount] ∧
      (moved = true →
        r'.sampleCount = 0 ∧
        ∀ (r'' : Renderer) (acq' : AcquireResult) (moved' : Bool) (trace' : List Event),
          drawFrame ctx r' acq' moved' = some (r'', trace') →
          (isStale acq'.res = true → r''.sampleCount = 0 ∧ uboWrites trace' = []) ∧
          (isStale acq'.res = false → uboWrites trace' = [0]))) ∧
    (∀ (i : Nat) (inp : AcquireResult × Bool), inputs[i]? = some inp →
      ∃ (ri : Renderer) (ti : List Event),
        recs[i]? = some (ri, ti) ∧
        ri.sampleCount = nonMovedStreak (inputs.take i) % 2 ^ 32 ∧
        (isStale inp.1.res = true → uboWrites ti = []) ∧
        (isStale inp.1.res = false →
          uboWrites ti = [nonMovedStreak (inputs.take i) % 2 ^ 32] ∧
          (i < 2 ^ 32 → uboWrites ti = [nonMovedStreak (inputs.take i)]))) := by
  constructor
  · intro r r' acq moved trace hd hst
    obtain ⟨hw, hs⟩ := drawFrame_uboWrites ctx r r' acq moved trace hd
    refine ⟨by simpa [hst] using hw, ?_⟩
    intro hm
    have h0 : r'.sampleCount = 0 := by simp [hs, sampleStep, hst, hm]
    refine ⟨h0, ?_⟩
    intro r'' acq' moved' trace' hd'
    obtain ⟨hw', hs'⟩ := drawFrame_uboWrites ctx r' r'' acq' moved' trace' hd'
    constructor
    · intro hst'
      exact ⟨by simp [hs', sampleStep, hst', h0], by simpa [hst'] using hw'⟩
    · intro hst'
      simpa [hst', h0] using hw'
  · intro i inp hi
    obtain ⟨-, hall⟩ := runFrames_getElem ctx inputs _ rf recs hrun
    obtain ⟨ri, r', ti, hrec, hdraw, hsc⟩ := hall i inp hi
    have h0 : (Renderer.init ctx h).sampleCount = 0 := rfl
    rw [h0, foldl_sampleStep_eq] at hsc
    obtain ⟨hw, -⟩ := drawFrame_uboWrites ctx ri r' inp.1 inp.2 ti hdraw
    refine ⟨ri, ti, hrec, hsc, ?_, ?_⟩
    · intro hst; simpa [hst] using hw
    · intro hst
      have hw' : uboWrites ti = [nonMovedStreak (inputs.take i) % 2 ^ 32] := by
        rw [← hsc]; simpa [hst] using hw
      refine ⟨hw', ?_⟩
      intro hlt
      have hle := nonMovedStreak_le (inputs.take i)
      have hlen : (inputs.take i).length ≤ i := by
        rw [List.length_take]; exact Nat.min_le_left _ _
      rw [hw', Nat.mod_eq_of_lt (by omega)]

/-- Witness for C27: five cycles of the example renderer: two still, one with
camera motion, one abandoned, one still.  The values written are 0, 1, 2
(the pre-reset count on the cycle with motion), nothing, and 0. -/
theorem ubo_sample_count_witness :
    ∃ recs rf,
      runFrames exampleCtx (Renderer.init exampleCtx exampleHandles)
        [(⟨.success, 0⟩, false), (⟨.success, 1⟩, false), (⟨.success, 2⟩, true),
         (⟨.errorOutOfDateKHR, 0⟩, false), (⟨.success, 0⟩, false)] = some (recs, rf) ∧
      recs.map (fun p => uboWrites p.2) = [[0], [1], [2], [], [0]] ∧
      ∃ (ri : Renderer) (ti : List Event),
        recs[2]? = some (ri, ti) ∧
        ri.sampleCount = 2 % 2 ^ 32 ∧
        uboWrites ti = [2] := by
  obtain ⟨recs, rf, hrun⟩ : ∃ recs rf,
      runFrames exampleCtx (Renderer.init exampleCtx exampleHandles)
        [(⟨.success, 0⟩, false), (⟨.success, 1⟩, false), (⟨.success, 2⟩, true),
         (⟨.errorOutOfDateKHR, 0⟩, false), (⟨.success, 0⟩, false)] = some (recs, rf) :=
    ⟨_, _, rfl⟩
  obtain ⟨ri, ti, hrec, hsc, -, hw⟩ :=
    (ubo_sample_count exampleCtx exampleHandles _ recs rf hrun).2 2 (⟨.success, 2⟩, true) rfl
  have hstreak : nonMovedStreak (List.take 2
      [((⟨.success, 0⟩ : AcquireResult), false), (⟨.success, 1⟩, false), (⟨.success, 2⟩, true),
       (⟨.errorOutOfDateKHR, 0⟩, false), (⟨.success, 0⟩, false)]) = 2 := by decide
  rw [hstreak] at hsc hw
  refine ⟨recs, rf, hrun, ?_, ri, ti, hrec, hsc, (hw rfl).2 (by decide)⟩
  cases hrun
  decide

/-! ## Sphere tessellation (C29) -/

theorem gridPairs_length (rows cols : Nat) : (gridPairs rows cols).length = rows * cols := by
  unfold gridPairs
  induction rows with
  | zero => simp
  | succ n ih =>
    rw [List.range_succ, List.flatMap_append, List.length_append, ih]
    simp [Nat.succ_mul]

theorem mem_gridPairs (rows cols : Nat) (p : Nat × Nat) :
    p ∈ gridPairs rows cols ↔ p.1 < rows ∧ p.2 < cols := by
  unfold gridPairs
  simp only [List.mem_flatMap, List.mem_range, List.mem_map]
  constructor
  · rintro ⟨i, hi, j, hj, rfl⟩
    exact ⟨hi, hj⟩
  · rintro ⟨hi, hj⟩
    exact ⟨p.1, hi, p.2, hj, rfl⟩

theorem intVal_of_le (x : Nat) (h : x ≤ INT_MAX) : intVal x = some x := by
  simp [intVal, h]

/-- Inside the tessellation grid, and with the vertex count representable, no
`int` of the index computation overflows. -/
theorem sphereQuad_eq (numStacks numSlices i j : Nat) (hi : i < numStacks) (hj : j < numSlices)
    (hfit : (numStacks + 1) * (numSlices + 1) ≤ 2 ^ 31) :
    sphereQuad numSlices i j =
      some [i * (numSlices + 1) + j, i * (numSlices + 1) + j + numSlices + 1,
            i * (numSlices + 1) + j + 1, i * (numSlices + 1) + j + numSlices + 1,
            i * (numSlices + 1) + j + numSlices + 1 + 1, i * (numSlices + 1) + j + 1] ∧
    i * (numSlices + 1) + j + numSlices + 1 + 1 < (numStacks + 1) * (numSlices + 1) := by
  have hmul : (i + 2) * (numSlices + 1) ≤ (numStacks + 1) * (numSlices + 1) :=
    Nat.mul_le_mul_right _ (by omega)
  have hexp : (i + 2) * (numSlices + 1) = i * (numSlices + 1) + 2 * (numSlices + 1) := by
    rw [Nat.add_mul]
  have hb : i * (numSlices + 1) + j + numSlices + 1 + 1 < (numStacks + 1) * (numSlices + 1) := by
    omega
  refine ⟨?_, hb⟩
  have hmax : INT_MAX = 2 ^ 31 - 1 := rfl
  unfold sphereQuad
  rw [intVal_of_le (numSlices + 1) (by omega)]
  simp only
  rw [intVal_of_le (i * (numSlices + 1)) (by omega)]
  simp only
  rw [intVal_of_le (i * (numSlices + 1) + j) (by omega)]
  simp only
  rw [intVal_of_le (i * (numSlices + 1) + j + numSlices) (by omega)]
  simp only
  rw [intVal_of_le (i * (numSlices + 1) + j + numSlices + 1) (by omega)]
  simp only
  rw [intVal_of_le (i * (numSlices + 1) + j + 1) (by omega),
    intVal_of_le (i * (numSlices + 1) + j + numSlices + 1 + 1) (by omega)]
  simp only [List.map_cons, List.map_nil, Option.some.injEq]
  have e : ∀ x, x < (numStacks + 1) * (numSlices + 1) → x % 2 ^ 32 = x :=
    fun x hx => Nat.mod_eq_of_lt (by omega)
  rw [e _ (by omega), e _ (by omega), e _ (by omega), e _ hb]

theorem concatSome_map {α β : Type} (f : α → Option (List β)) (g : α → List β) :
    ∀ (l : List α), (∀ x ∈ l, f x = some (g x)) →
      concatSome (l.map f) = some ((l.map g).flatten) := by
  intro l
  induction l with
  | nil => intro _; rfl
  | cons x xs ih =>
    intro h
    rw [List.map_cons, h x (List.mem_cons_self _ _)]
    simp only [concatSome, ih (fun y hy => h y (List.mem_cons_of_mem _ hy))]
    rfl

theorem length_flatten_const {α : Type} (k : Nat) :
    ∀ (L : List (List α)), (∀ x ∈ L, x.length = k) → L.flatten.length = k * L.length := by
  intro L
  induction L with
  | nil => intro _; simp
  | cons x xs ih =>
    intro h
    rw [List.flatten_cons, List.length_append, h x (List.mem_cons_self _ _),
      ih (fun y hy => h y (List.mem_cons_of_mem _ hy)), List.length_cons, Nat.mul_succ]
    omega

/-- The index loops of `addSphere` complete when the vertex count is
representable as an `int`: six indices per grid cell, each below the vertex
count. -/
theorem sphereIndices_ok (numStacks numSlices : Nat)
    (hfit : (numStacks + 1) * (numSlices + 1) < 2 ^ 31) :
    ∃ indices, sphereIndices numStacks numSlices = some indices ∧
      indices.length = 6 * numStacks * numSlices ∧
      ∀ ix ∈ indices, ix < (numStacks + 1) * (numSlices + 1) := by
  let g : Nat × Nat → List Nat := fun p =>
    [p.1 * (numSlices + 1) + p.2, p.1 * (numSlices + 1) + p.2 + numSlices + 1,
     p.1 * (numSlices + 1) + p.2 + 1, p.1 * (numSlices + 1) + p.2 + numSlices + 1,
     p.1 * (numSlices + 1) + p.2 + numSlices + 1 + 1, p.1 * (numSlices + 1) + p.2 + 1]
  have hq : ∀ p ∈ gridPairs numStacks numSlices, sphereQuad numSlices p.1 p.2 = some (g p) := by
    intro p hp
    obtain ⟨h1, h2⟩ := (mem_gridPairs _ _ p).1 hp
    exact (sphereQuad_eq numStacks numSlices p.1 p.2 h1 h2 (Nat.le_of_lt hfit)).1
  refine ⟨((gridPairs numStacks numSlices).map g).flatten, ?_, ?_, ?_⟩
  · unfold sphereIndices
    exact concatSome_map _ g _ hq
  · rw [length_flatten_const 6 _ (by
      intro x hx
      obtain ⟨p, -, rfl⟩ := List.mem_map.mp hx
      rfl), List.length_map, gridPairs_length, Nat.mul_assoc]
  · intro ix hix
    obtain ⟨l, hl, hmem⟩ := List.mem_flatten.mp hix
    obtain ⟨p, hp, rfl⟩ := List.mem_map.mp hl
    obtain ⟨h1, h2⟩ := (mem_gridPairs _ _ p).1 hp
    have hb := (sphereQuad_eq numStacks numSlices p.1 p.2 h1 h2 (Nat.le_of_lt hfit)).2
    simp only [g, List.mem_cons, List.mem_singleton, List.not_mem_nil, or_false] at hmem
    omega

theorem sphereVertices_ok {F : Type} (ops : FloatOps F) (center : F × F × F) (radius : F)
    (numStacks numSlices : Nat)
    (hfit : (numStacks + 1) * (numSlices + 1) < 2 ^ 31) :
    ∃ vertices, sphereVertices ops center radius numStacks numSlices = some vertices ∧
      vertices.length = (numStacks + 1) * (numSlices + 1) := by
  have hmax : INT_MAX = 2 ^ 31 - 1 := rfl
  have hge : numStacks + 1 ≤ (numStacks + 1) * (numSlices + 1) :=
    Nat.le_mul_of_pos_right _ (Nat.succ_pos _)
  have hge' : numSlices + 1 ≤ (numStacks + 1) * (numSlices + 1) :=
    Nat.le_mul_of_pos_left _ (Nat.succ_pos _)
  unfold sphereVertices
  rw [intVal_of_le (numStacks + 1) (by omega), intVal_of_le (numSlices + 1) (by omega)]
  exact ⟨_, rfl, by rw [List.length_map, gridPairs_length]⟩

/-- Shape of the result of `addSphere` whenever it returns. -/
theorem addSphere_inv {F : Type} (ops : FloatOps F) (center : F × F × F) (radius : F)
    (materialIdx numStacks numSlices : Nat) (s s' : Scene F)
    (h : addSphere ops center radius materialIdx numStacks numSlices s = some s') :
    ∃ mesh : MeshData F,
      mesh.materialIndex = materialIdx ∧
      sphereVertices ops center radius numStacks numSlices = some mesh.vertices ∧
      sphereIndices numStacks numSlices = some mesh.indices ∧
      s' = { s with
        meshes := s.meshes ++ [mesh]
        instances := s.instances ++
          [{ meshIndex := s.meshes.length % 2 ^ 32, transform := glmIdentity ops,
             materialIndex := materialIdx }] } := by
  unfold addSphere at h
  split at h
  · rename_i vertices indices hv hi
    simp only [Option.some.injEq] at h
    exact ⟨_, rfl, hv, hi, h.symm⟩
  · cases h

/-- With a representable vertex count `addSphere` returns, with the counts of
the tessellation. -/
theorem addSphere_ok {F : Type} (ops : FloatOps F) (center : F × F × F) (radius : F)
    (materialIdx numStacks numSlices : Nat) (s : Scene F)
    (hfit : (numStacks + 1) * (numSlices + 1) < 2 ^ 31) :
    ∃ mesh : MeshData F,
      addSphere ops center radius materialIdx numStacks numSlices s =
        some { s with
          meshes := s.meshes ++ [mesh]
          instances := s.instances ++
            [{ meshIndex := s.meshes.length % 2 ^ 32, transform := glmIdentity ops,
               materialIndex := materialIdx }] } ∧
      mesh.materialIndex = materialIdx ∧
      mesh.vertices.length = (numStacks + 1) * (numSlices + 1) ∧
      mesh.indices.length = 6 * numStacks * numSlices ∧
      ∀ ix ∈ mesh.indices, ix < mesh.vertices.length := by
  obtain ⟨vertices, hv, hvl⟩ := sphereVertices_ok ops center radius numStacks numSlices hfit
  obtain ⟨indices, hi, hil, hib⟩ := sphereIndices_ok numStacks numSlices hfit
  refine ⟨{ materialIndex := materialIdx, vertices := vertices, indices := indices },
    ?_, rfl, hvl, hil, ?_⟩
  · unfold addSphere
    rw [hv, hi]
  · intro ix hix
    rw [hvl]
    exact hib ix hix

/-- C29. For `stacks ≥ 1` and `slices ≥ 1` whose vertex count
`(stacks+1)*(slices+1)` is representable in the `int` arithmetic of the index
loops, `addSphere` returns and appends one mesh with exactly
`(stacks+1)*(slices+1)` vertices and `6*stacks*slices` indices, that is
`2*stacks*slices` triangles, and every index of the mesh is strictly below its
vertex count. -/
theorem sphere_mesh_counts {F : Type} (ops : FloatOps F) (center : F × F × F) (radius : F)
    (materialIdx numStacks numSlices : Nat) (s : Scene F)
    (h1 : 1 ≤ numStacks) (h2 : 1 ≤ numSlices)
    (hfit : (numStacks + 1) * (numSlices + 1) < 2 ^ 31) :
    ∃ (s' : Scene F) (mesh : MeshData F),
      addSphere ops center radius materialIdx numStacks numSlices s = some s' ∧
      s'.meshes = s.meshes ++ [mesh] ∧
      mesh.vertices.length = (numStacks + 1) * (numSlices + 1) ∧
      mesh.indices.length = 6 * numStacks * numSlices ∧
      mesh.indices.length = 3 * (2 * numStacks * numSlices) ∧
      0 < mesh.indices.length ∧
      ∀ ix ∈ mesh.indices, ix < mesh.vertices.length := by
  obtain ⟨mesh, hadd, -, hvl, hil, hib⟩ :=
    addSphere_ok ops center radius materialIdx numStacks numSlices s hfit
  have h3 : mesh.indices.length = 3 * (2 * numStacks * numSlices) := by
    rw [hil, ← Nat.mul_assoc, ← Nat.mul_assoc]
  have hpos : 0 < numStacks * numSlices := Nat.mul_pos h1 h2
  refine ⟨_, mesh, hadd, rfl, hvl, hil, h3, ?_, hib⟩
  rw [hil, Nat.mul_assoc]
  omega

/-- Witness for C29: the default tessellation of `buildScene`, 16 stacks and
32 slices: 561 vertices, 3072 indices, 1024 triangles. -/
theorem sphere_mesh_counts_witness :
    ∃ (s' : Scene Unit) (mesh : MeshData Unit),
      addSphere unitOps ((), (), ()) () 1 16 32 {} = some s' ∧
      s'.meshes = ({} : Scene Unit).meshes ++ [mesh] ∧
      mesh.vertices.length = (16 + 1) * (32 + 1) ∧
      mesh.indices.length = 6 * 16 * 32 ∧
      mesh.indices.length = 3 * (2 * 16 * 32) ∧
      0 < mesh.indices.length ∧
      ∀ ix ∈ mesh.indices, ix < mesh.vertices.length :=
  sphere_mesh_counts unitOps ((), (), ()) () 1 16 32 {} (by decide) (by decide) (by decide)

/-! ## Instances refer to their own mesh (C28) -/

theorem addPlane_indexed {F : Type} (ops : FloatOps F) (center : F × F × F) (halfW halfD : F)
    (materialIdx : Nat) (s : Scene F) (hs : s.Indexed) (hlt : s.meshes.length < 2 ^ 32) :
    (addPlane ops center halfW halfD materialIdx s).Indexed ∧
    (addPlane ops center halfW halfD materialIdx s).meshes.length = s.meshes.length + 1 ∧
    (addPlane ops center halfW halfD materialIdx s).materials = s.materials := by
  obtain ⟨hlen, hidx⟩ := hs
  refine ⟨⟨by simp [addPlane, hlen], ?_⟩, by simp [addPlane], rfl⟩
  intro i inst hi
  simp only [addPlane] at hi
  by_cases hlt' : i < s.instances.length
  · rw [List.getElem?_append_left hlt'] at hi
    exact hidx i inst hi
  · rw [List.getElem?_append_right (by omega)] at hi
    have hi0 : i - s.instances.length = 0 := by
      by_contra hne
      rw [List.getElem?_eq_none (by simp; omega)] at hi
      cases hi
    rw [hi0] at hi
    simp only [List.getElem?_cons_zero, Option.some.injEq] at hi
    rw [← hi]
    simp only
    rw [Nat.mod_eq_of_lt hlt]
    omega

theorem addSphere_indexed {F : Type} (ops : FloatOps F) (center : F × F × F) (radius : F)
    (materialIdx numStacks numSlices : Nat) (s s' : Scene F) (hs : s.Indexed)
    (hlt : s.meshes.length < 2 ^ 32)
    (h : addSphere ops center radius materialIdx numStacks numSlices s = some s') :
    s'.Indexed ∧ s'.meshes.length = s.meshes.length + 1 ∧ s'.materials = s.materials := by
  obtain ⟨mesh, -, -, -, rfl⟩ :=
    addSphere_inv ops center radius materialIdx numStacks numSlices s s' h
  obtain ⟨hlen, hidx⟩ := hs
  refine ⟨⟨by simp [hlen], ?_⟩, by simp, rfl⟩
  intro i inst hi
  simp only at hi
  by_cases hlt' : i < s.instances.length
  · rw [List.getElem?_append_left hlt'] at hi
    exact hidx i inst hi
  · rw [List.getElem?_append_right (by omega)] at hi
    have hi0 : i - s.instances.length = 0 := by
      by_contra hne
      rw [List.getElem?_eq_none (by simp; omega)] at hi
      cases hi
    rw [hi0] at hi
    simp only [List.getElem?_cons_zero, Option.some.injEq] at hi
    rw [← hi]
    simp only
    rw [Nat.mod_eq_of_lt hlt]
    omega

/-- Every sequence of `addPlane` and `addSphere` calls that returns keeps the
instances in step with the meshes, as long as the mesh count stays within
`uint32_t`. -/
theorem applyCalls_indexed {F : Type} (ops : FloatOps F) :
    ∀ (calls : List (SceneCall F)) (s s' : Scene F),
      s.Indexed → s.meshes.length + calls.length ≤ 2 ^ 32 →
      applyCalls ops calls s = some s' →
      s'.Indexed ∧ s'.meshes.length = s.meshes.length + calls.length ∧
      s'.materials = s.materials := by
  intro calls
  induction calls with
  | nil =>
    intro s s' hs _ h
    simp only [applyCalls, Option.some.injEq] at h
    subst h
    exact ⟨hs, rfl, rfl⟩
  | cons c rest ih =>
    intro s s' hs hlen h
    simp only [List.length_cons] at hlen
    cases c with
    | plane center halfW halfD materialIdx =>
      simp only [applyCalls] at h
      obtain ⟨h1, h2, h3⟩ := addPlane_indexed ops center halfW halfD materialIdx s hs (by omega)
      obtain ⟨i1, i2, i3⟩ := ih _ s' h1 (by rw [h2]; omega) h
      exact ⟨i1, by rw [i2, h2, List.length_cons]; omega, by rw [i3, h3]⟩
    | sphere center radius materialIdx numStacks numSlices =>
      simp only [applyCalls] at h
      cases hadd : addSphere ops center radius materialIdx numStacks numSlices s with
      | none => rw [hadd] at h; cases h
      | some s₁ =>
        rw [hadd] at h
        simp only at h
        obtain ⟨h1, h2, h3⟩ := addSphere_indexed ops center radius materialIdx numStacks
          numSlices s s₁ hs (by omega) hadd
        obtain ⟨i1, i2, i3⟩ := ih _ s' h1 (by rw [h2]; omega) h
        exact ⟨i1, by rw [i2, h2, List.length_cons]; omega, by rw [i3, h3]⟩

theorem makeInstances_total {F : Type} (blases : List BLAS) :
    ∀ (insts : List (SceneInstance F)),
      (∀ inst ∈ insts, inst.meshIndex < blases.length) →
      ∃ out, makeInstances blases insts = some out := by
  intro insts
  induction insts with
  | nil => intro _; exact ⟨[], rfl⟩
  | cons si rest ih =>
    intro h
    obtain ⟨e, he⟩ := makeInstance_of_lt blases si (h si (List.mem_cons_self _ _))
    obtain ⟨tail, ht⟩ := ih (fun x hx => h x (List.mem_cons_of_mem _ hx))
    refine ⟨e :: tail, ?_⟩
    unfold makeInstances
    rw [he]
    simp only
    rw [ht]

theorem applyCalls_total {F : Type} (ops : FloatOps F) :
    ∀ (calls : List (SceneCall F)) (s : Scene F),
      (∀ c ∈ calls, c.Representable) → ∃ s', applyCalls ops calls s = some s' := by
  intro calls
  induction calls with
  | nil => intro s _; exact ⟨s, rfl⟩
  | cons c rest ih =>
    intro s h
    have hrest : ∀ c ∈ rest, c.Representable := fun x hx => h x (List.mem_cons_of_mem _ hx)
    have hc := h c (List.mem_cons_self _ _)
    cases c with
    | plane center halfW halfD materialIdx =>
      simp only [applyCalls]
      exact ih _ hrest
    | sphere center radius materialIdx numStacks numSlices =>
      obtain ⟨mesh, hadd, -⟩ :=
        addSphere_ok ops center radius materialIdx numStacks numSlices s hc
      simp only [applyCalls, hadd]
      exact ih _ hrest

/-- The material indices of the meshes and of the instances after a sequence of
geometry calls: those before, followed by the arguments of the calls. -/
theorem applyCalls_materials {F : Type} (ops : FloatOps F) :
    ∀ (calls : List (SceneCall F)) (s s' : Scene F),
      applyCalls ops calls s = some s' →
      s'.meshes.map (fun m => m.materialIndex)
        = s.meshes.map (fun m => m.materialIndex) ++ calls.map SceneCall.materialIdx ∧
      s'.instances.map (fun i => i.materialIndex)
        = s.instances.map (fun i => i.materialIndex) ++ calls.map SceneCall.materialIdx := by
  intro calls
  induction calls with
  | nil =>
    intro s s' h
    simp only [applyCalls, Option.some.injEq] at h
    subst h
    simp
  | cons c rest ih =>
    intro s s' h
    cases c with
    | plane center halfW halfD materialIdx =>
      simp only [applyCalls] at h
      obtain ⟨i1, i2⟩ := ih _ s' h
      rw [i1, i2]
      simp [addPlane, SceneCall.materialIdx]
    | sphere center radius materialIdx numStacks numSlices =>
      simp only [applyCalls] at h
      cases hadd : addSphere ops center radius materialIdx numStacks numSlices s with
      | none => rw [hadd] at h; cases h
      | some s₁ =>
        rw [hadd] at h
        simp only at h
        obtain ⟨mesh, hm, -, -, rfl⟩ :=
          addSphere_inv ops center radius materialIdx numStacks numSlices s s₁ hadd
        obtain ⟨i1, i2⟩ := ih _ s' h
        rw [i1, i2]
        simp [hm, SceneCall.materialIdx]

theorem indexed_empty {F : Type} (s : Scene F) (hm : s.meshes = []) (hi : s.instances = []) :
    s.Indexed := by
  refine ⟨by rw [hm, hi]; rfl, ?_⟩
  intro i inst h
  rw [hi] at h
  simp at h

/-- The scene `buildScene` makes from an empty `Scene`. -/
theorem buildScene_ok {F : Type} (ops : FloatOps F) (dec : Int → Nat → F) :
    ∃ s : Scene F, buildScene ops dec {} = some s ∧
      s.Indexed ∧ s.meshes.length = 6 ∧ s.materials.length = 6 ∧
      s.meshes.map (fun m => m.materialIndex) = [0, 1, 2, 3, 5, 4] ∧
      s.instances.map (fun i => i.materialIndex) = [0, 1, 2, 3, 5, 4] := by
  have hrep : ∀ c ∈ sceneCalls ops dec, c.Representable := by
    intro c hc
    simp only [sceneCalls, List.mem_cons, List.mem_singleton, List.not_mem_nil, or_false] at hc
    rcases hc with rfl | rfl | rfl | rfl | rfl | rfl
    · trivial
    all_goals (show (16 + 1) * (32 + 1) < 2 ^ 31; decide)
  unfold buildScene
  obtain ⟨s, hs⟩ := applyCalls_total ops (sceneCalls ops dec)
    { ({} : Scene F) with materials := ({} : Scene F).materials ++ sceneMaterials ops dec } hrep
  obtain ⟨h1, h2, h3⟩ := applyCalls_indexed ops _ _ s (indexed_empty _ rfl rfl)
    (by simp [sceneCalls]) hs
  obtain ⟨h4, h5⟩ := applyCalls_materials ops _ _ s hs
  exact ⟨s, hs, h1, h2, by rw [h3]; rfl, h4, h5⟩

/-- C28. After any sequence of at most `2^32` `addPlane` and `addSphere`
calls that returns, started on an empty `Scene`, there are as many instances
as meshes (one per call) and `instances[i].meshIndex = i`; hence after a
completed `buildBLASes` on a fresh `AccelStructure` every `blases[si.meshIndex]`
read by `buildTLAS` is in bounds and its instance loop completes.
`buildScene` returns such a scene, with 6 meshes, 6 instances and 6 materials. -/
theorem scene_instances_indexed {F : Type} (ops : FloatOps F) (dec : Int → Nat → F) :
    (∀ (calls : List (SceneCall F)) (s : Scene F),
      calls.length ≤ 2 ^ 32 → applyCalls ops calls {} = some s →
      s.meshes.length = calls.length ∧
      s.instances.length = s.meshes.length ∧
      (∀ (i : Nat) (inst : SceneInstance F), s.instances[i]? = some inst → inst.meshIndex = i) ∧
      ∀ (drv : Driver) (a' : AccelStructure) (dev dev' : Device),
        buildBLASes drv s {} dev = (a', .ok () dev') →
        (∀ inst ∈ s.instances, inst.meshIndex < a'.blases.length) ∧
        ∃ insts, makeInstances a'.blases s.instances = some insts) ∧
    ∃ s : Scene F, buildScene ops dec {} = some s ∧
      s.meshes.length = 6 ∧ s.instances.length = 6 ∧ s.materials.length = 6 ∧
      ∀ (i : Nat) (inst : SceneInstance F), s.instances[i]? = some inst → inst.meshIndex = i := by
  constructor
  · intro calls s hlen h
    obtain ⟨⟨h1, h2⟩, h3, -⟩ := applyCalls_indexed ops calls {} s (indexed_empty _ rfl rfl)
      (by simpa using hlen) h
    have h3' : s.meshes.length = calls.length := by simpa using h3
    refine ⟨h3', h1, h2, ?_⟩
    intro drv a' dev dev' hb
    unfold buildBLASes at hb
    obtain ⟨built, ha', hbl, -⟩ := buildBLASesLoop_ok drv _ _ _ _ _ _ _ _ _ hb
    have hlen' : a'.blases.length = s.meshes.length := by rw [ha']; simpa using hbl
    have hin : ∀ inst ∈ s.instances, inst.meshIndex < a'.blases.length := by
      intro inst hmem
      obtain ⟨i, hi⟩ := List.mem_iff_getElem?.mp hmem
      have hlt : i < s.instances.length := by
        by_contra hge
        rw [List.getElem?_eq_none (by omega)] at hi
        cases hi
      rw [h2 i inst hi, hlen', ← h1]
      exact hlt
    exact ⟨hin, makeInstances_total _ _ hin⟩
  · obtain ⟨s, hs, ⟨h1, h2⟩, h3, h4, -, -⟩ := buildScene_ok ops dec
    exact ⟨s, hs, h3, by rw [h1, h3], h4, h2⟩

/-- Witness for C28: a plane and a small sphere, with the floating-point
payload erased. -/
theorem scene_instances_indexed_witness :
    ∃ s : Scene Unit,
      applyCalls unitOps [.plane ((), (), ()) () () 0, .sphere ((), (), ()) () 1 2 3] {}
        = some s ∧
      s.instances.map (fun i => i.meshIndex) = [0, 1] ∧
      s.meshes.length = 2 ∧
      s.instances.length = s.meshes.length ∧
      ∀ (i : Nat) (inst : SceneInstance Unit), s.instances[i]? = some inst →
        inst.meshIndex = i := by
  obtain ⟨s, hs⟩ : ∃ s : Scene Unit,
      applyCalls unitOps [.plane ((), (), ()) () () 0, .sphere ((), (), ()) () 1 2 3] {}
        = some s := ⟨_, rfl⟩
  obtain ⟨h1, h2, h3, -⟩ :=
    (scene_instances_indexed unitOps (fun _ _ => ())).1 _ s (by decide) hs
  refine ⟨s, hs, ?_, h1, h2, h3⟩
  cases hs
  rfl

/-! ## Offsets of the upload and of the bottom-level builds (C25) -/

theorem uploadLoop_instData_append {F : Type} :
    ∀ (meshes : List (MeshData F)) (av : List (Vertex F)) (ai : List Nat)
      (id : List InstanceData),
      (uploadLoop meshes av ai id).2.2 = id ++ (uploadLoop meshes av ai []).2.2 := by
  intro meshes
  induction meshes with
  | nil => intro av ai id; simp [uploadLoop]
  | cons m rest ih =>
    intro av ai id
    simp only [uploadLoop]
    rw [ih _ _ (id ++ _), ih _ _ ([] ++ _)]
    simp

theorem uploadLoop_arrays {F : Type} :
    ∀ (meshes : List (MeshData F)) (av : List (Vertex F)) (ai : List Nat)
      (id : List InstanceData),
      (uploadLoop meshes av ai id).1 = av ++ meshes.flatMap (fun m => m.vertices) ∧
      (uploadLoop meshes av ai id).2.1 = ai ++ meshes.flatMap (fun m => m.indices) ∧
      (uploadLoop meshes av ai id).2.2.length = id.length + meshes.length ∧
      (uploadLoop meshes av ai id).2.2.map (fun r => r.materialIndex)
        = id.map (fun r => r.materialIndex) ++ meshes.map (fun m => m.materialIndex) := by
  intro meshes
  induction meshes with
  | nil => intro av ai id; simp [uploadLoop]
  | cons m rest ih =>
    intro av ai id
    simp only [uploadLoop]
    obtain ⟨h1, h2, h3, h4⟩ := ih (av ++ m.vertices) (ai ++ m.indices)
      (id ++ [{ vertexOffset := av.length % 2 ^ 32, indexOffset := ai.length % 2 ^ 32,
                materialIndex := m.materialIndex }])
    refine ⟨by rw [h1]; simp, by rw [h2]; simp, by rw [h3]; simp; omega, by rw [h4]; simp⟩

/-- Record `i` of `instData` holds the lengths `allVerts` and `allIndices` had
when mesh `i` was reached, as 32-bit values, and the mesh's material index. -/
theorem uploadLoop_getElem {F : Type} :
    ∀ (meshes : List (MeshData F)) (av : List (Vertex F)) (ai : List Nat)
      (i : Nat) (m : MeshData F), meshes[i]? = some m →
      (uploadLoop meshes av ai []).2.2[i]? =
        some { vertexOffset :=
                 (av.length + ((meshes.take i).flatMap fun x => x.vertices).length) % 2 ^ 32
               indexOffset :=
                 (ai.length + ((meshes.take i).flatMap fun x => x.indices).length) % 2 ^ 32
               materialIndex := m.materialIndex } := by
  intro meshes
  induction meshes with
  | nil => intro av ai i m h; simp at h
  | cons x rest ih =>
    intro av ai i m h
    simp only [uploadLoop]
    rw [uploadLoop_instData_append]
    cases i with
    | zero =>
      simp only [List.getElem?_cons_zero, Option.some.injEq] at h
      subst h
      simp
    | succ j =>
      simp only [List.getElem?_cons_succ] at h
      have := ih (av ++ x.vertices) (ai ++ x.indices) j m h
      simp only [List.nil_append, List.singleton_append, List.getElem?_cons_succ, this,
        List.take_succ_cons, List.flatMap_cons, List.length_append, Nat.add_assoc]

theorem foldl_add32_eq (counts : List Nat) :
    ∀ start : Nat,
      counts.foldl (fun acc n => add32 acc (n % 2 ^ 32)) (start % 2 ^ 32)
        = (start + counts.sum) % 2 ^ 32 := by
  induction counts with
  | nil => intro start; simp
  | cons n cs ih =>
    intro start
    rw [List.foldl_cons, List.sum_cons]
    have e : add32 (start % 2 ^ 32) (n % 2 ^ 32) = (start + n) % 2 ^ 32 := by
      unfold add32; omega
    rw [e, ih, Nat.add_assoc]

theorem offsetAfter_eq (counts : List Nat) : offsetAfter counts = counts.sum % 2 ^ 32 := by
  unfold offsetAfter
  have := foldl_add32_eq counts 0
  simpa using this

theorem length_flatMap_take {α β : Type} (f : α → List β) (l : List α) (i : Nat) :
    ((l.take i).flatMap f).length = ((l.take i).map fun x => (f x).length).sum := by
  rw [List.length_flatMap]
  rfl

/-- Slice of a flattened list: dropping what the first `i` lists contribute and
taking the length of list `i` gives list `i`. -/
theorem flatMap_slice {α β : Type} (f : α → List β) :
    ∀ (l : List α) (i : Nat) (x : α), l[i]? = some x →
      ((l.flatMap f).drop ((l.take i).flatMap f).length).take (f x).length = f x := by
  intro l
  induction l with
  | nil => intro i x h; simp at h
  | cons y ys ih =>
    intro i x h
    cases i with
    | zero =>
      simp only [List.getElem?_cons_zero, Option.some.injEq] at h
      subst h
      simp
    | succ j =>
      simp only [List.getElem?_cons_succ] at h
      simp only [List.take_succ_cons, List.flatMap_cons, List.length_append]
      rw [List.drop_append_eq_append_drop]
      simp only [List.drop_eq_nil_of_le (Nat.le_add_right _ _), List.nil_append,
        Nat.add_sub_cancel_left]
      exact ih j x h

theorem blasBuildAddresses_append (a b : List DevCall) :
    blasBuildAddresses (a ++ b) = blasBuildAddresses a ++ blasBuildAddresses b := by
  simp [blasBuildAddresses, oneShotsOf_append]

theorem buildSingleBLAS_addresses {F : Type} (drv : Driver) (mesh : MeshData F)
    (vb ib vo io : Nat) (dev dev' : Device) (blas : BLAS)
    (h : buildSingleBLAS drv mesh vb ib vo io dev = .ok blas dev') :
    ∃ new, dev'.log = dev.log ++ new ∧
      blasBuildAddresses new =
        [(add64 vb (vo * sizeofVertex % 2 ^ 64), add64 ib (io * sizeofIndex % 2 ^ 64))] := by
  obtain ⟨storage, scratch, handle, -, hlog⟩ :=
    buildSingleBLAS_ok drv mesh vb ib vo io dev dev' blas h
  exact ⟨_, hlog, by simp [blasBuildAddresses, oneShotsOf]⟩

/-- The vertex and index addresses of the builds a completed loop of
`buildBLASes` submits are the base addresses advanced by the offsets the upload
loop records, mesh by mesh, when both loops start from the same counts. -/
theorem buildBLASesLoop_addresses {F : Type} (drv : Driver) (vb ib : Nat) :
    ∀ (meshes : List (MeshData F)) (vo io : Nat) (a a' : AccelStructure) (dev dev' : Device)
      (av : List (Vertex F)) (ai : List Nat),
      buildBLASesLoop drv vb ib meshes vo io a dev = (a', .ok () dev') →
      vo = av.length % 2 ^ 32 → io = ai.length % 2 ^ 32 →
      ∃ new, dev'.log = dev.log ++ new ∧
        blasBuildAddresses new =
          (uploadLoop meshes av ai []).2.2.map fun r =>
            (add64 vb (r.vertexOffset * sizeofVertex % 2 ^ 64),
             add64 ib (r.indexOffset * sizeofIndex % 2 ^ 64)) := by
  intro meshes
  induction meshes with
  | nil =>
    intro vo io a a' dev dev' av ai h _ _
    simp only [buildBLASesLoop, Prod.mk.injEq, Result.ok.injEq, true_and] at h
    obtain ⟨-, h2⟩ := h
    subst h2
    exact ⟨[], by simp, by simp [blasBuildAddresses, oneShotsOf, uploadLoop]⟩
  | cons m ms ih =>
    intro vo io a a' dev dev' av ai h hvo hio
    unfold buildBLASesLoop at h
    split at h
    · simp at h
    · rename_i b d hb
      obtain ⟨new₁, hl₁, ha₁⟩ := buildSingleBLAS_addresses drv m vb ib vo io dev d b hb
      obtain ⟨new₂, hl₂, ha₂⟩ := ih _ _ _ _ _ _ (av ++ m.vertices) (ai ++ m.indices) h
        (by rw [hvo, List.length_append]; unfold add32; omega)
        (by rw [hio, List.length_append]; unfold add32; omega)
      refine ⟨new₁ ++ new₂, by rw [hl₂, hl₁, List.append_assoc], ?_⟩
      rw [blasBuildAddresses_append, ha₁, ha₂]
      simp only [uploadLoop, List.nil_append]
      rw [uploadLoop_instData_append ms _ _ [_]]
      simp [hvo, hio]

theorem length_flatMap_take_le {α β : Type} (f : α → List β) (l : List α) (i : Nat) :
    ((l.take i).flatMap f).length ≤ (l.flatMap f).length := by
  conv_rhs => rw [← List.take_append_drop i l]
  rw [List.flatMap_append, List.length_append]
  exact Nat.le_add_right _ _

/-- C25. For every mesh index `i`, the vertex and index element offsets a
completed `buildBLASes` passes to `buildSingleBLAS` for mesh `i`, and turns into
the addresses of the build, are the `vertexOffset` and `indexOffset` that
`uploadToGPU` writes into record `i` of the instance data: both are the sums of
the vertex counts and of the index counts of the meshes before `i`, as 32-bit
values.  When the totals are below `2^32` they are those sums, and the slices
of the flattened vertex and index arrays that start there and have the mesh's
lengths are the vertices and indices of mesh `i`. -/
theorem blas_offsets_match_upload {F : Type} (drv : Driver) (scene : Scene F)
    (a a' : AccelStructure) (dev dev' : Device)
    (h : buildBLASes drv scene a dev = (a', .ok () dev')) :
    (∃ new, dev'.log = dev.log ++ new ∧
      blasBuildAddresses new =
        (uploadArrays scene).instData.map fun r =>
          (add64 scene.vertexBuffer.address (r.vertexOffset * sizeofVertex % 2 ^ 64),
           add64 scene.indexBuffer.address (r.indexOffset * sizeofIndex % 2 ^ 64))) ∧
    (uploadArrays scene).instData.length = scene.meshes.length ∧
    (uploadArrays scene).allVerts = scene.meshes.flatMap (fun m => m.vertices) ∧
    (uploadArrays scene).allIndices = scene.meshes.flatMap (fun m => m.indices) ∧
    ∀ (i : Nat) (m : MeshData F), scene.meshes[i]? = some m →
      ∃ r : InstanceData,
        (uploadArrays scene).instData[i]? = some r ∧
        r.vertexOffset = offsetAfter ((scene.meshes.take i).map fun x => x.vertices.length) ∧
        r.indexOffset = offsetAfter ((scene.meshes.take i).map fun x => x.indices.length) ∧
        r.vertexOffset = ((scene.meshes.take i).map fun x => x.vertices.length).sum % 2 ^ 32 ∧
        r.indexOffset = ((scene.meshes.take i).map fun x => x.indices.length).sum % 2 ^ 32 ∧
        (∃ (blas : BLAS) (devBefore devAfter : Device),
          buildSingleBLAS drv m scene.vertexBuffer.address scene.indexBuffer.address
            r.vertexOffset r.indexOffset devBefore = .ok blas devAfter ∧
          a'.blases[a.blases.length + i]? = some blas) ∧
        ((scene.meshes.flatMap fun x => x.vertices).length < 2 ^ 32 →
          r.vertexOffset = ((scene.meshes.take i).map fun x => x.vertices.length).sum ∧
          ((uploadArrays scene).allVerts.drop r.vertexOffset).take m.vertices.length
            = m.vertices) ∧
        ((scene.meshes.flatMap fun x => x.indices).length < 2 ^ 32 →
          r.indexOffset = ((scene.meshes.take i).map fun x => x.indices.length).sum ∧
          ((uploadArrays scene).allIndices.drop r.indexOffset).take m.indices.length
            = m.indices) := by
  unfold buildBLASes at h
  obtain ⟨hav, hai, hlen, -⟩ := uploadLoop_arrays scene.meshes [] [] []
  have hav' : (uploadArrays scene).allVerts = scene.meshes.flatMap (fun m => m.vertices) := by
    simpa [uploadArrays] using hav
  have hai' : (uploadArrays scene).allIndices = scene.meshes.flatMap (fun m => m.indices) := by
    simpa [uploadArrays] using hai
  refine ⟨?_, by simpa [uploadArrays] using hlen, hav', hai', ?_⟩
  · exact buildBLASesLoop_addresses drv _ _ _ _ _ _ _ _ _ [] [] h rfl rfl
  · intro i m hm
    obtain ⟨built, ha', -, hall⟩ := buildBLASesLoop_ok drv _ _ _ _ _ _ _ _ _ h
    have hi : i < scene.meshes.length := by
      by_contra hge
      rw [List.getElem?_eq_none (by omega)] at hm
      cases hm
    obtain ⟨m', blas, aPrev, devBefore, devAfter, hm', hbl, -, hbuild⟩ := hall i hi
    rw [hm] at hm'
    injection hm' with hm'
    subst hm'
    have hrec := uploadLoop_getElem scene.meshes [] [] i m hm
    simp only [List.length_nil, Nat.zero_add] at hrec
    have hv := length_flatMap_take (fun x : MeshData F => x.vertices) scene.meshes i
    have hx := length_flatMap_take (fun x : MeshData F => x.indices) scene.meshes i
    have hvo := offsetAfter_eq ((scene.meshes.take i).map fun x => x.vertices.length)
    have hio := offsetAfter_eq ((scene.meshes.take i).map fun x => x.indices.length)
    rw [hv, hx] at hrec
    refine ⟨_, hrec, hvo.symm, hio.symm, rfl, rfl, ⟨blas, devBefore, devAfter, ?_, ?_⟩, ?_, ?_⟩
    · simp only
      rw [← hvo, ← hio]
      exact hbuild
    · rw [ha']
      simp only
      rw [List.getElem?_append_right (Nat.le_add_right _ _), Nat.add_sub_cancel_left]
      exact hbl
    · intro htot
      have hle := length_flatMap_take_le (fun x : MeshData F => x.vertices) scene.meshes i
      rw [hv] at hle
      have heq : ((scene.meshes.take i).map fun x => x.vertices.length).sum % 2 ^ 32
          = ((scene.meshes.take i).map fun x => x.vertices.length).sum :=
        Nat.mod_eq_of_lt (by omega)
      refine ⟨heq, ?_⟩
      simp only
      rw [heq, hav', ← hv]
      exact flatMap_slice (fun x : MeshData F => x.vertices) scene.meshes i m hm
    · intro htot
      have hle := length_flatMap_take_le (fun x : MeshData F => x.indices) scene.meshes i
      rw [hx] at hle
      have heq : ((scene.meshes.take i).map fun x => x.indices.length).sum % 2 ^ 32
          = ((scene.meshes.take i).map fun x => x.indices.length).sum :=
        Nat.mod_eq_of_lt (by omega)
      refine ⟨heq, ?_⟩
      simp only
      rw [heq, hai', ← hx]
      exact flatMap_slice (fun x : MeshData F => x.indices) scene.meshes i m hm

/-- Witness for C25: the plane and a small sphere.  The second mesh starts at
vertex 4 and index 6, in the instance data and in the addresses of its build
(`65552 + 4 * 32`, `131088 + 6 * 4`). -/
theorem blas_offsets_match_upload_witness :
    (uploadArrays twoMeshScene).instData =
      [{ vertexOffset := 0, indexOffset := 0, materialIndex := 0 },
       { vertexOffset := 4, indexOffset := 6, materialIndex := 1 }] ∧
    ∃ a' dev',
      buildBLASes exampleDriver twoMeshScene {} planeDevice = (a', .ok () dev') ∧
      blasBuildAddresses dev'.log = [(65552, 131088), (65680, 131112)] ∧
      ∃ new, dev'.log = planeDevice.log ++ new ∧
        blasBuildAddresses new =
          (uploadArrays twoMeshScene).instData.map fun r =>
            (add64 twoMeshScene.vertexBuffer.address (r.vertexOffset * sizeofVertex % 2 ^ 64),
             add64 twoMeshScene.indexBuffer.address (r.indexOffset * sizeofIndex % 2 ^ 64)) := by
  obtain ⟨a', dev', h⟩ : ∃ a' dev',
      buildBLASes exampleDriver twoMeshScene {} planeDevice = (a', .ok () dev') := ⟨_, _, rfl⟩
  refine ⟨by decide, a', dev', h, ?_,
    (blas_offsets_match_upload exampleDriver twoMeshScene {} a' planeDevice dev' h).1⟩
  cases h
  decide

/-! ## Material lookup through the custom index (C30) -/

/-- C30. In the scene `buildScene` makes, every instance carries a material
index below the number of materials, its top-level custom index is its
`meshIndex`, and the instance-data record `uploadToGPU` stores at that position
has the same `materialIndex` (it is copied from the mesh).  The arrays
`uploadToGPU` uploads do not depend on the instance list, so the
`materialIndex` field of the instances is not uploaded. -/
theorem scene_material_lookup {F : Type} (ops : FloatOps F) (dec : Int → Nat → F) :
    ∃ s : Scene F, buildScene ops dec {} = some s ∧
      s.materials.length = 6 ∧
      s.instances.map (fun i => i.materialIndex) = [0, 1, 2, 3, 5, 4] ∧
      (uploadArrays s).instData.map (fun r => r.materialIndex) = [0, 1, 2, 3, 5, 4] ∧
      (∀ inst ∈ s.instances,
        inst.materialIndex < s.materials.length ∧
        ∃ r : InstanceData,
          (uploadArrays s).instData[inst.meshIndex]? = some r ∧
          r.materialIndex = inst.materialIndex) ∧
      (∀ (blases : List BLAS) (inst : SceneInstance F) (e : VkAccelerationStructureInstance F),
        inst ∈ s.instances → makeInstance blases inst = some e →
        e.instanceCustomIndex = inst.meshIndex ∧
        ∃ r : InstanceData,
          (uploadArrays s).instData[e.instanceCustomIndex]? = some r ∧
          r.materialIndex = inst.materialIndex) ∧
      ∀ insts : List (SceneInstance F),
        uploadArrays { s with instances := insts } = uploadArrays s := by
  obtain ⟨s, hs, ⟨hlen, hidx⟩, hm6, hmat, hmm, him⟩ := buildScene_ok ops dec
  obtain ⟨-, -, hdl, hdm⟩ := uploadLoop_arrays s.meshes [] [] []
  have hdm' : (uploadArrays s).instData.map (fun r => r.materialIndex) = [0, 1, 2, 3, 5, 4] := by
    simp only [uploadArrays]
    rw [hdm, hmm]
    rfl
  have hdl' : (uploadArrays s).instData.length = 6 := by
    simp only [uploadArrays]
    rw [hdl, hm6]
    rfl
  have key : ∀ inst ∈ s.instances,
      inst.meshIndex < 6 ∧ inst.materialIndex < 6 ∧
      ∃ r : InstanceData,
        (uploadArrays s).instData[inst.meshIndex]? = some r ∧
        r.materialIndex = inst.materialIndex := by
    intro inst hmem
    obtain ⟨i, hi⟩ := List.mem_iff_getElem?.mp hmem
    have hlt : i < 6 := by
      by_contra hge
      rw [List.getElem?_eq_none (by omega)] at hi
      cases hi
    have hmi := hidx i inst hi
    have h1 : ([0, 1, 2, 3, 5, 4] : List Nat)[i]? = some inst.materialIndex := by
      rw [← him, List.getElem?_map, hi]
      rfl
    obtain ⟨r, hr⟩ := getElem?_of_lt_length (uploadArrays s).instData i (by omega)
    have h2 : ([0, 1, 2, 3, 5, 4] : List Nat)[i]? = some r.materialIndex := by
      rw [← hdm', List.getElem?_map, hr]
      rfl
    have h3 : r.materialIndex = inst.materialIndex := by
      rw [h1] at h2
      injection h2 with h2
      exact h2.symm
    have h4 : inst.materialIndex < 6 := by
      have hin := List.getElem?_mem h1
      simp only [List.mem_cons, List.mem_singleton, List.not_mem_nil, or_false] at hin
      omega
    rw [hmi]
    exact ⟨hlt, h4, r, hr, h3⟩
  refine ⟨s, hs, hmat, him, hdm', ?_, ?_, fun _ => rfl⟩
  · intro inst hmem
    obtain ⟨-, h4, hr⟩ := key inst hmem
    exact ⟨by rw [hmat]; exact h4, hr⟩
  · intro blases inst e hmem he
    obtain ⟨hlt, -, hr⟩ := key inst hmem
    obtain ⟨blas, -, -, rfl⟩ := makeInstance_some_iff blases inst e he
    have hci : inst.meshIndex % 2 ^ 24 = inst.meshIndex := Nat.mod_eq_of_lt (by omega)
    simp only
    rw [hci]
    exact ⟨rfl, hr⟩

end VulkanRaytracer
